import Mathlib

/-! gofm: the RDS group decoder (`rds.go`), the tuner (`si4703.go`) and the key
events of the receiver (`gofm.go`).

A shallow embedding of the decoder `RDS.Update` and of the routines it calls
(`update_pi`, `update_ps`, `update_pin`, `update_rt`, `update_aid`), of the
tuner's `Read`, `Set` and `SetChannel` over a scripted I2C device, and of the
key branch of the event loop of `main`, followed by theorems about the
consensus ("triple") buffers, the call-sign derivation, the words the tuner
writes and the way `SetChannel` ends.

Conventions of the embedding:

* `uint16` and `byte` values are natural numbers; a conversion `byte(x)` is
  `x % 256`, byte addition is addition `% 256`, `uint16` subtraction is
  subtraction `% 65536`.
* a Go array `[n]T` is a total function `Fin n → T`; it is read and written at a
  natural-number index with `aget` and `aset`.
* a Go `string` is the list of its bytes.
* a counted `for` loop is `forLoop`, a left fold of the loop body over the
  successive values of the loop variable.
-/

namespace GoFM

/-! ## Arrays and loops -/

/-- Read `buf[i]`.  Every index the decoder computes is in range; outside the
range the read gives the zero value. -/
def aget {n : Nat} {α : Type} [Inhabited α] (buf : Fin n → α) (i : Nat) : α :=
  if h : i < n then buf ⟨i, h⟩ else default

/-- Assign `buf[i] = v`: the array that holds `v` at index `i` and agrees with
`buf` everywhere else. -/
def aset {n : Nat} {α : Type} (buf : Fin n → α) (i : Nat) (v : α) : Fin n → α :=
  fun j => if j.val = i then v else buf j

/-- The slice `buf[lo:hi]` converted to a string, as a list of bytes. -/
def slice {n : Nat} (buf : Fin n → Nat) (lo hi : Nat) : List Nat :=
  ((List.ofFn buf).drop lo).take (hi - lo)

/-- The loop `for i = lo; i < hi; i++ { s = body i s }`. -/
def forLoop {σ : Type} (lo hi : Nat) (body : Nat → σ → σ) (s : σ) : σ :=
  (List.range' lo (hi - lo)).foldl (fun acc i => body i acc) s

/-- The comparison loop of the triple buffers:
`upd = true; for i = 0; i < n; i++ { if x[i] != y[i] { upd = false } }`. -/
def sameLoop {n : Nat} (x y : Fin n → Nat) : Bool :=
  forLoop 0 n (fun i upd => if aget x i ≠ aget y i then false else upd) true

/-- The copy loop of the triple buffers:
`for i = 0; i < n; i++ { dst[i] = src[i] }`. -/
def copyLoop {n : Nat} (dst src : Fin n → Nat) : Fin n → Nat :=
  forLoop 0 n (fun i acc => aset acc i (aget src i)) dst

/-- The loop `for i, _ = range flags { flags[i] = false }`. -/
def clearLoop {n : Nat} (flags : Fin n → Bool) : Fin n → Bool :=
  forLoop 0 n (fun i acc => aset acc i false) flags

/-- The scan `for i = 0; i < len(buf) && buf[i] != 0x0d; i++ {}` started at `i`,
giving the final value of `i`.  The first argument bounds the number of
iterations; the scan makes at most `len(buf)` of them. -/
def scanCR {n : Nat} (buf : Fin n → Nat) : Nat → Nat → Nat
  | 0, i => i
  | k + 1, i => if i < n ∧ aget buf i ≠ 0x0d then scanCR buf k (i + 1) else i

/-! ## Decoder state -/

/-- The Go struct `RDS`.  `AltFreqs` is keyed by the frequency in units of
0.1 MHz (the key `87.5 + f*0.1` is `875 + f`); a `nil` map is `none`. -/
structure RDS where
  ProgramInformation : Nat
  CallSign : Fin 4 → Nat
  ProgramType : Int
  TrafficProgram : Bool
  TrafficAnnouncement : Bool
  Music : Bool
  Stereo : Bool
  ArtificialHead : Bool
  Compressed : Bool
  DynamicPTY : Bool
  ProgramService : List Nat
  AltFreqs : Option (Nat → Option Bool)
  NumAltFreqs : Int
  Radiotext : List Nat
  aid : Option (Nat → Option (Fin 32 → Nat))
  cs1 : Fin 4 → Nat
  cs2 : Fin 4 → Nat
  ps1 : Fin 8 → Nat
  ps2 : Fin 8 → Nat
  psnew : Fin 8 → Bool
  rt1 : Fin 64 → Nat
  rt2 : Fin 64 → Nat
  rtnew : Fin 64 → Bool

/-- The zero value `RDS{}`: the decoder state at receiver start and after a
channel change. -/
def RDS.empty : RDS where
  ProgramInformation := 0
  CallSign := fun _ => 0
  ProgramType := 0
  TrafficProgram := false
  TrafficAnnouncement := false
  Music := false
  Stereo := false
  ArtificialHead := false
  Compressed := false
  DynamicPTY := false
  ProgramService := []
  AltFreqs := none
  NumAltFreqs := 0
  Radiotext := []
  aid := none
  cs1 := fun _ => 0
  cs2 := fun _ => 0
  ps1 := fun _ => 0
  ps2 := fun _ => 0
  psnew := fun _ => false
  rt1 := fun _ => 0
  rt2 := fun _ => 0
  rtnew := fun _ => false

/-! ## The decoder -/

/-- The `switch` of `update_pi`: derive the call-sign candidate `cs1` from the
PI code; no case matches a code outside the three classes. -/
def update_pi_switch (r : RDS) (rdsa : Nat) : RDS :=
  if rdsa &&& 0x0F00 = 0x0000 then
    let r := { r with cs1 := aset r.cs1 0 65 }
    let r := { r with cs1 := aset r.cs1 1 ((65 + ((rdsa >>> 12) &&& 0xf) % 256) % 256) }
    let r := { r with cs1 := aset r.cs1 2 ((65 + ((rdsa >>> 4) &&& 0xf) % 256) % 256) }
    { r with cs1 := aset r.cs1 3 ((65 + (rdsa &&& 0xf) % 256) % 256) }
  else if rdsa &&& 0x00FF = 0x0000 then
    let r := { r with cs1 := aset r.cs1 0 65 }
    let r := { r with cs1 := aset r.cs1 1 70 }
    let r := { r with cs1 := aset r.cs1 2 ((65 + ((rdsa >>> 12) &&& 0xf) % 256) % 256) }
    { r with cs1 := aset r.cs1 3 ((65 + ((rdsa >>> 8) &&& 0xf) % 256) % 256) }
  else if rdsa ≥ 4096 ∧ rdsa ≤ 39247 then
    let r := if rdsa < 21672 then { r with cs1 := aset r.cs1 0 75 }
             else { r with cs1 := aset r.cs1 0 87 }
    let tmp := if rdsa < 21672 then (rdsa + 65536 - 4096) % 65536
               else (rdsa + 65536 - 21672) % 65536
    let r := { r with cs1 := aset r.cs1 1 ((65 + (tmp / 676) % 256) % 256) }
    let tmp := tmp % 676
    let r := { r with cs1 := aset r.cs1 2 ((65 + (tmp / 26) % 256) % 256) }
    let tmp := tmp % 26
    { r with cs1 := aset r.cs1 3 ((65 + tmp % 256) % 256) }
  else r

/-- The triple buffer of `update_pi`, run after the `switch` whether or not a
case matched: compare the candidate with the previous one, commit `cs2` when
they agree, then copy the candidate into `cs2`. -/
def update_pi_round (r : RDS) : RDS :=
  let upd := sameLoop r.cs1 r.cs2
  let r := if upd then { r with CallSign := copyLoop r.CallSign r.cs2 } else r
  { r with cs2 := copyLoop r.cs2 r.cs1 }

/-- `func (r *RDS) update_pi(rdsa uint16)`. -/
def update_pi (r : RDS) (rdsa : Nat) : RDS :=
  let r := { r with ProgramInformation := rdsa }
  let r := update_pi_switch r rdsa
  update_pi_round r

/-- `func (r *RDS) update_aid(rdsa, rdsb, rdsc, rdsd uint16)`.  The table
`aidmap` is a local copy of the map entry, so the assignment
`aidmap[oda_group] = rdsd` does not reach `r.aid`. -/
def update_aid (r : RDS) (rdsa rdsb _rdsc rdsd : Nat) : RDS :=
  let r := if r.aid.isNone then { r with aid := some (fun _ => none) } else r
  let r :=
    if ((r.aid.getD (fun _ => none)) rdsa).isNone then
      { r with aid := r.aid.map (fun m => Function.update m rdsa (some (fun _ => 0))) }
    else r
  let oda_group := rdsb &&& 0x1f
  let aidmap : Fin 32 → Nat := ((r.aid.getD (fun _ => none)) rdsa).getD (fun _ => 0)
  let _aidmap := aset aidmap oda_group rdsd
  r

/-- The body of the loop `for _, f := range []uint16{rdsc>>8, rdsc&0xff}` of
`update_ps`: the classification of one alternative-frequency code. -/
def update_ps_af (r : RDS) (f : Nat) : RDS :=
  if f = 0 ∨ (f ≥ 205 ∧ f ≤ 223) ∨ (f ≥ 251 ∧ f ≤ 255) then r
  else if f ≥ 1 ∧ f ≤ 204 then
    { r with AltFreqs := r.AltFreqs.map (fun m => Function.update m (875 + f) (some true)) }
  else if f ≥ 224 ∧ f ≤ 249 then
    { r with NumAltFreqs := (((f + 65536 - 224) % 65536 : Nat) : Int) }
  else if f = 205 then r
  else r

/-- The block `if idx == 0 { ... }` of `update_ps`, run after the two
characters are stored: compare the working buffer with the snapshot, commit
`string(r.ps2[0:8])` when they agree, then copy the working buffer into the
snapshot. -/
def update_ps_round (r : RDS) : RDS :=
  let upd := sameLoop r.ps1 r.ps2
  let r := if upd then { r with ProgramService := slice r.ps2 0 8 } else r
  { r with ps2 := copyLoop r.ps2 r.ps1 }

/-- The `switch rdsb & 0x3` of `update_ps` (decoder information). -/
def update_ps_di (r : RDS) (rdsb : Nat) : RDS :=
  if rdsb &&& 0x3 = 0 then { r with Stereo := decide (rdsb &&& 0x4 = 0x4) }
  else if rdsb &&& 0x3 = 1 then { r with ArtificialHead := decide (rdsb &&& 0x4 = 0x4) }
  else if rdsb &&& 0x3 = 2 then { r with Compressed := decide (rdsb &&& 0x4 = 0x4) }
  else if rdsb &&& 0x3 = 3 then { r with DynamicPTY := decide (rdsb &&& 0x4 = 0x4) }
  else r

/-- The block `if rdsb & 0x0800 != 0x0800 { ... }` of `update_ps` (alternative
frequencies of a 0A group). -/
def update_ps_altfreqs (r : RDS) (rdsb rdsc : Nat) : RDS :=
  if rdsb &&& 0x0800 ≠ 0x0800 then
    let r := if r.AltFreqs.isNone then { r with AltFreqs := some (fun _ => none) } else r
    [rdsc >>> 8, rdsc &&& 0xff].foldl update_ps_af r
  else r

/-- `func (r *RDS) update_ps(rdsa, rdsb, rdsc, rdsd uint16)`. -/
def update_ps (r : RDS) (_rdsa rdsb rdsc rdsd : Nat) : RDS :=
  let r := { r with Music := decide (rdsb &&& 0x0008 = 0x0008) }
  let r := { r with TrafficAnnouncement := decide (rdsb &&& 0x0010 = 0x0010) }
  let r := { r with psnew := clearLoop r.psnew }
  let idx := (rdsb &&& 0x3) * 2
  let r := { r with ps1 := aset r.ps1 idx (((rdsd >>> 8) &&& 0x7f) % 256) }
  let r := { r with ps1 := aset r.ps1 (idx + 1) ((rdsd &&& 0x7f) % 256) }
  let r := { r with psnew := aset r.psnew idx true }
  let r := { r with psnew := aset r.psnew (idx + 1) true }
  let r := if idx = 0 then update_ps_round r else r
  let r := update_ps_di r rdsb
  update_ps_altfreqs r rdsb rdsc

/-- `func (r *RDS) update_pin(rdsa, rdsb, rdsc, rdsd uint16)`: the body is
commented out. -/
def update_pin (r : RDS) (_rdsa _rdsb _rdsc _rdsd : Nat) : RDS := r

/-- The body of the loop `for i = 0; i < 4; i++` of `update_rt` that stores the
four message bytes; the loop carries the decoder state and `cridx`. -/
def update_rt_store (idx : Nat) (msgbytes : Fin 4 → Nat) (i : Nat) (s : RDS × Int) :
    RDS × Int :=
  let r := { s.1 with rt1 := aset s.1.rt1 (idx + i) (aget msgbytes i) }
  let r := { r with rtnew := aset r.rtnew (idx + i) true }
  (r, if aget msgbytes i = 0x0d then ((idx + i : Nat) : Int) else s.2)

/-- The block `if cridx != -1 { ... }` of `update_rt`: a carriage return was
stored, blank everything after it. -/
def update_rt_blank (r : RDS) (cridx : Int) : RDS :=
  if cridx ≠ -1 then
    { r with rt1 := forLoop (cridx + 1).toNat 64 (fun i acc => aset acc i 32) r.rt1 }
  else r

/-- The block `if idx == 0 { ... }` of `update_rt`, run after the four
characters are stored: compare the working buffer with the snapshot, commit
`string(r.rt2[0:i])` (with `i` the first carriage return or the end) when they
agree, then copy the working buffer into the snapshot. -/
def update_rt_round (r : RDS) : RDS :=
  let upd := sameLoop r.rt1 r.rt2
  let r := if upd then { r with Radiotext := slice r.rt2 0 (scanCR r.rt2 64 0) } else r
  { r with rt2 := copyLoop r.rt2 r.rt1 }

/-- `func (r *RDS) update_rt(rdsa, rdsb, rdsc, rdsd uint16)`. -/
def update_rt (r : RDS) (_rdsa rdsb rdsc rdsd : Nat) : RDS :=
  let idx := (rdsb &&& 0xf) * 4
  let msgbytes : Fin 4 → Nat := fun _ => 0
  let msgbytes := aset msgbytes 0 (((rdsc >>> 8) &&& 0x7f) % 256)
  let msgbytes := aset msgbytes 1 ((rdsc &&& 0x7f) % 256)
  let msgbytes := aset msgbytes 2 (((rdsd >>> 8) &&& 0x7f) % 256)
  let msgbytes := aset msgbytes 3 ((rdsd &&& 0x7f) % 256)
  let r := { r with rtnew := clearLoop r.rtnew }
  let s := forLoop 0 4 (update_rt_store idx msgbytes) (r, -1)
  let r := update_rt_blank s.1 s.2
  if idx = 0 then update_rt_round r else r

/-- `func (r *RDS) Update(rdsa, rdsb, rdsc, rdsd uint16) error`.  The returned
error is always `nil`; the embedding returns the new decoder state. -/
def Update (r : RDS) (rdsa rdsb rdsc rdsd : Nat) : RDS :=
  let r := update_pi r rdsa
  let group_type := rdsb >>> 12
  let version : Nat := if rdsb &&& 0x0800 ≠ 0x0800 then 65 else 66
  let r := { r with TrafficProgram := decide (rdsb &&& 0x20 = 0x20) }
  let r := { r with ProgramType := (((rdsb >>> 5) &&& 0x1f : Nat) : Int) }
  if group_type = 0 then update_ps r rdsa rdsb rdsc rdsd
  else if group_type = 1 then update_pin r rdsa rdsb rdsc rdsd
  else if group_type = 2 then update_rt r rdsa rdsb rdsc rdsd
  else if group_type = 3 then
    if version = 65 then update_aid r rdsa rdsb rdsc rdsd else r
  else if group_type = 8 then r
  else r

/-! ## Groups and sequences of groups -/

/-- The four 16-bit blocks of one RDS group, the arguments of one `Update`
call. -/
structure Group where
  a : Nat
  b : Nat
  c : Nat
  d : Nat

/-- Decode one group. -/
def decode (r : RDS) (g : Group) : RDS := Update r g.a g.b g.c g.d

/-- Decode a sequence of groups, first to last. -/
def decodeAll (r : RDS) (gs : List Group) : RDS := gs.foldl decode r

/-- The program-service triple buffer of a state: working buffer, previous-round
snapshot, committed name. -/
def psView (r : RDS) : (Fin 8 → Nat) × (Fin 8 → Nat) × List Nat :=
  (r.ps1, r.ps2, r.ProgramService)

/-- The radiotext triple buffer of a state: working buffer, previous-round
snapshot, committed text. -/
def rtView (r : RDS) : (Fin 64 → Nat) × (Fin 64 → Nat) × List Nat :=
  (r.rt1, r.rt2, r.Radiotext)

/-- The call-sign triple buffer of a state: candidate, previous candidate,
committed call sign. -/
def csView (r : RDS) : (Fin 4 → Nat) × (Fin 4 → Nat) × (Fin 4 → Nat) :=
  (r.cs1, r.cs2, r.CallSign)

/-- The effect of a type-0 group with blocks `b`, `d` on the program-service
triple buffer (`psView_update_ps` proves it is what `update_ps` does). -/
def psStep (v : (Fin 8 → Nat) × (Fin 8 → Nat) × List Nat) (b d : Nat) :
    (Fin 8 → Nat) × (Fin 8 → Nat) × List Nat :=
  let idx := (b &&& 0x3) * 2
  let w := aset (aset v.1 idx (((d >>> 8) &&& 0x7f) % 256)) (idx + 1) ((d &&& 0x7f) % 256)
  (w, if idx = 0 then w else v.2.1,
    if idx = 0 ∧ sameLoop w v.2.1 = true then List.ofFn v.2.1 else v.2.2)

/-- The working radiotext buffer after the four bytes `m0 .. m3` are stored at
`idx .. idx+3` and, if one of them is a carriage return, everything after the
last carriage return is blanked (`rtView_update_rt` proves it is what
`update_rt` does): `cr` is the position of that carriage return, or `-1`. -/
def rtWrite (buf : Fin 64 → Nat) (idx m0 m1 m2 m3 : Nat) : Fin 64 → Nat :=
  let cr : Int :=
    if m3 = 0x0d then ((idx + 3 : Nat) : Int) else if m2 = 0x0d then ((idx + 2 : Nat) : Int)
    else if m1 = 0x0d then ((idx + 1 : Nat) : Int) else if m0 = 0x0d then ((idx : Nat) : Int)
    else -1
  fun j =>
    if cr ≠ -1 ∧ cr < (j.val : Int) then 32
    else if j.val = idx + 3 then m3 else if j.val = idx + 2 then m2
    else if j.val = idx + 1 then m1 else if j.val = idx then m0 else buf j

/-- The effect of a type-2 group with blocks `b`, `c`, `d` on the radiotext
triple buffer (`rtView_update_rt` proves it is what `update_rt` does). -/
def rtStep (v : (Fin 64 → Nat) × (Fin 64 → Nat) × List Nat) (b c d : Nat) :
    (Fin 64 → Nat) × (Fin 64 → Nat) × List Nat :=
  let idx := (b &&& 0xf) * 4
  let w := rtWrite v.1 idx (((c >>> 8) &&& 0x7f) % 256) ((c &&& 0x7f) % 256)
    (((d >>> 8) &&& 0x7f) % 256) ((d &&& 0x7f) % 256)
  (w, if idx = 0 then w else v.2.1,
    if idx = 0 ∧ sameLoop w v.2.1 = true then (List.ofFn v.2.1).takeWhile (fun x => x ≠ 0x0d)
    else v.2.2)

/-- The call-sign candidate `cs1` after the `switch` of `update_pi` for the PI
code `a` (`csView_update_pi` proves it is what `update_pi` computes). -/
def csCand (cs1 : Fin 4 → Nat) (a : Nat) : Fin 4 → Nat :=
  if a &&& 0x0F00 = 0x0000 then
    aset (aset (aset (aset cs1 0 65) 1 ((65 + ((a >>> 12) &&& 0xf) % 256) % 256)) 2
      ((65 + ((a >>> 4) &&& 0xf) % 256) % 256)) 3 ((65 + (a &&& 0xf) % 256) % 256)
  else if a &&& 0x00FF = 0x0000 then
    aset (aset (aset (aset cs1 0 65) 1 70) 2 ((65 + ((a >>> 12) &&& 0xf) % 256) % 256)) 3
      ((65 + ((a >>> 8) &&& 0xf) % 256) % 256)
  else if a ≥ 4096 ∧ a ≤ 39247 then
    let tmp := if a < 21672 then (a + 65536 - 4096) % 65536 else (a + 65536 - 21672) % 65536
    aset (aset (aset (aset cs1 0 (if a < 21672 then 75 else 87)) 1
      ((65 + (tmp / 676) % 256) % 256)) 2 ((65 + (tmp % 676 / 26) % 256) % 256)) 3
      ((65 + (tmp % 676 % 26) % 256) % 256)
  else cs1

/-- The effect of `update_pi` with PI code `a` on the call-sign triple buffer
(`csView_update_pi` proves it is what `update_pi` does). -/
def csStep (v : (Fin 4 → Nat) × (Fin 4 → Nat) × (Fin 4 → Nat)) (a : Nat) :
    (Fin 4 → Nat) × (Fin 4 → Nat) × (Fin 4 → Nat) :=
  (csCand v.1 a, csCand v.1 a, if sameLoop (csCand v.1 a) v.2.1 = true then v.2.1 else v.2.2)

/-- The always-processed data of a state: PI code, traffic-program flag, program
type, and the call-sign triple buffer. -/
def piAll (r : RDS) : Nat × Bool × Int × (Fin 4 → Nat) × (Fin 4 → Nat) × (Fin 4 → Nat) :=
  (r.ProgramInformation, r.TrafficProgram, r.ProgramType, r.CallSign, r.cs1, r.cs2)

/-- Everything a state holds about the program-service name. -/
def psAll (r : RDS) : (Fin 8 → Nat) × (Fin 8 → Nat) × (Fin 8 → Bool) × List Nat :=
  (r.ps1, r.ps2, r.psnew, r.ProgramService)

/-- Everything a state holds about the radiotext. -/
def rtAll (r : RDS) : (Fin 64 → Nat) × (Fin 64 → Nat) × (Fin 64 → Bool) × List Nat :=
  (r.rt1, r.rt2, r.rtnew, r.Radiotext)

/-- The flags a type-0 group carries: music, traffic announcement and the four
decoder-identification flags. -/
def flagView (r : RDS) : Bool × Bool × Bool × Bool × Bool × Bool :=
  (r.Music, r.TrafficAnnouncement, r.Stereo, r.ArtificialHead, r.Compressed, r.DynamicPTY)

/-- The alternative-frequency data of a state. -/
def afView (r : RDS) : Option (Nat → Option Bool) × Int :=
  (r.AltFreqs, r.NumAltFreqs)

/-! ## The decoder with checked accesses

The same routines once more, in `Option`: every array read, array write, slice
and map assignment is checked as the Go run time checks it, and `none` stands
for the run-time panic (index out of range, assignment to an entry of a `nil`
map). -/

/-- The Go errors of the program. -/
inductive Error where
  | ErrInvalidReg
  | ErrInvalidFreq
  | ErrTimeout
  | ErrShortWrite
  | transport (code : Nat)
  deriving DecidableEq, Repr

/-- Checked read `buf[i]`. -/
def agetC {n : Nat} {α : Type} (buf : Fin n → α) (i : Nat) : Option α :=
  if h : i < n then some (buf ⟨i, h⟩) else none

/-- Checked assignment `buf[i] = v`. -/
def asetC {n : Nat} {α : Type} (buf : Fin n → α) (i : Nat) (v : α) : Option (Fin n → α) :=
  if i < n then some (aset buf i v) else none

/-- Checked slice `string(buf[lo:hi])`. -/
def sliceC {n : Nat} (buf : Fin n → Nat) (lo hi : Nat) : Option (List Nat) :=
  if lo ≤ hi ∧ hi ≤ n then some (slice buf lo hi) else none

/-- Checked map assignment `m[k] = v`, which panics on a `nil` map. -/
def mapSetC {β : Type} (m : Option (Nat → Option β)) (k : Nat) (v : β) :
    Option (Option (Nat → Option β)) :=
  match m with
  | none => none
  | some f => some (some (Function.update f k (some v)))

/-- A loop body run over the successive values of the loop variable, stopping
at the first panic. -/
def foldlC {σ : Type} (body : Nat → σ → Option σ) : List Nat → σ → Option σ
  | [], s => some s
  | i :: l, s => (body i s).bind (foldlC body l)

/-- The loop `for i = lo; i < hi; i++ { s = body i s }` with a checked body. -/
def forLoopC {σ : Type} (lo hi : Nat) (body : Nat → σ → Option σ) (s : σ) : Option σ :=
  foldlC body (List.range' lo (hi - lo)) s

/-- The comparison loop of the triple buffers, over `i < k`, checked. -/
def sameLoopC {n m : Nat} (k : Nat) (x : Fin n → Nat) (y : Fin m → Nat) : Option Bool :=
  forLoopC 0 k (fun i upd => do
    let a ← agetC x i
    let b ← agetC y i
    pure (if a ≠ b then false else upd)) true

/-- The copy loop of the triple buffers, over `i < k`, checked. -/
def copyLoopC {n m : Nat} (k : Nat) (dst : Fin n → Nat) (src : Fin m → Nat) :
    Option (Fin n → Nat) :=
  forLoopC 0 k (fun i acc => do
    let v ← agetC src i
    asetC acc i v) dst

/-- The loop `for i, _ = range flags { flags[i] = false }`, checked. -/
def clearLoopC {n : Nat} (flags : Fin n → Bool) : Option (Fin n → Bool) :=
  forLoopC 0 n (fun i acc => asetC acc i false) flags

/-- The scan `for i = 0; i < len(buf) && buf[i] != 0x0d; i++ {}`, checked: the
read `buf[i]` is made only when `i < len(buf)` holds. -/
def scanCRC {n : Nat} (buf : Fin n → Nat) : Nat → Nat → Option Nat
  | 0, i => some i
  | k + 1, i =>
    if i < n then
      (agetC buf i).bind (fun v => if v ≠ 0x0d then scanCRC buf k (i + 1) else some i)
    else some i

/-- The `switch` of `update_pi`, checked. -/
def update_pi_switchC (r : RDS) (rdsa : Nat) : Option RDS :=
  if rdsa &&& 0x0F00 = 0x0000 then do
    let c ← asetC r.cs1 0 65
    let c ← asetC c 1 ((65 + ((rdsa >>> 12) &&& 0xf) % 256) % 256)
    let c ← asetC c 2 ((65 + ((rdsa >>> 4) &&& 0xf) % 256) % 256)
    let c ← asetC c 3 ((65 + (rdsa &&& 0xf) % 256) % 256)
    pure { r with cs1 := c }
  else if rdsa &&& 0x00FF = 0x0000 then do
    let c ← asetC r.cs1 0 65
    let c ← asetC c 1 70
    let c ← asetC c 2 ((65 + ((rdsa >>> 12) &&& 0xf) % 256) % 256)
    let c ← asetC c 3 ((65 + ((rdsa >>> 8) &&& 0xf) % 256) % 256)
    pure { r with cs1 := c }
  else if rdsa ≥ 4096 ∧ rdsa ≤ 39247 then do
    let c ← if rdsa < 21672 then asetC r.cs1 0 75 else asetC r.cs1 0 87
    let tmp := if rdsa < 21672 then (rdsa + 65536 - 4096) % 65536
               else (rdsa + 65536 - 21672) % 65536
    let c ← asetC c 1 ((65 + (tmp / 676) % 256) % 256)
    let tmp := tmp % 676
    let c ← asetC c 2 ((65 + (tmp / 26) % 256) % 256)
    let tmp := tmp % 26
    let c ← asetC c 3 ((65 + tmp % 256) % 256)
    pure { r with cs1 := c }
  else pure r

/-- The triple buffer of `update_pi`, checked. -/
def update_pi_roundC (r : RDS) : Option RDS := do
  let upd ← sameLoopC 4 r.cs1 r.cs2
  let r ← if upd then do
      let cs ← copyLoopC 4 r.CallSign r.cs2
      pure { r with CallSign := cs }
    else pure r
  let c ← copyLoopC 4 r.cs2 r.cs1
  pure { r with cs2 := c }

/-- `update_pi`, checked. -/
def update_piC (r : RDS) (rdsa : Nat) : Option RDS := do
  let r := { r with ProgramInformation := rdsa }
  let r ← update_pi_switchC r rdsa
  update_pi_roundC r

/-- `update_aid`, checked: the map assignment needs a non-`nil` map and the
assignment to the local table `aidmap` needs `oda_group < 32`. -/
def update_aidC (r : RDS) (rdsa rdsb _rdsc rdsd : Nat) : Option RDS := do
  let r := if r.aid.isNone then { r with aid := some (fun _ => none) } else r
  let r ← if ((r.aid.getD (fun _ => none)) rdsa).isNone then do
      let m ← mapSetC r.aid rdsa (fun _ => 0)
      pure { r with aid := m }
    else pure r
  let oda_group := rdsb &&& 0x1f
  let aidmap : Fin 32 → Nat := ((r.aid.getD (fun _ => none)) rdsa).getD (fun _ => 0)
  let _aidmap ← asetC aidmap oda_group rdsd
  pure r

/-- The classification of one alternative-frequency code, checked. -/
def update_ps_afC (r : RDS) (f : Nat) : Option RDS :=
  if f = 0 ∨ (f ≥ 205 ∧ f ≤ 223) ∨ (f ≥ 251 ∧ f ≤ 255) then pure r
  else if f ≥ 1 ∧ f ≤ 204 then do
    let m ← mapSetC r.AltFreqs (875 + f) true
    pure { r with AltFreqs := m }
  else if f ≥ 224 ∧ f ≤ 249 then
    pure { r with NumAltFreqs := (((f + 65536 - 224) % 65536 : Nat) : Int) }
  else if f = 205 then pure r
  else pure r

/-- The block `if idx == 0 { ... }` of `update_ps`, checked. -/
def update_ps_roundC (r : RDS) : Option RDS := do
  let upd ← sameLoopC 8 r.ps1 r.ps2
  let r ← if upd then do
      let str ← sliceC r.ps2 0 8
      pure { r with ProgramService := str }
    else pure r
  let p ← copyLoopC 8 r.ps2 r.ps1
  pure { r with ps2 := p }

/-- The alternative-frequency block of `update_ps`, checked. -/
def update_ps_altfreqsC (r : RDS) (rdsb rdsc : Nat) : Option RDS :=
  if rdsb &&& 0x0800 ≠ 0x0800 then do
    let r := if r.AltFreqs.isNone then { r with AltFreqs := some (fun _ => none) } else r
    let r ← update_ps_afC r (rdsc >>> 8)
    update_ps_afC r (rdsc &&& 0xff)
  else pure r

/-- `update_ps`, checked. -/
def update_psC (r : RDS) (_rdsa rdsb rdsc rdsd : Nat) : Option RDS := do
  let r := { r with Music := decide (rdsb &&& 0x0008 = 0x0008) }
  let r := { r with TrafficAnnouncement := decide (rdsb &&& 0x0010 = 0x0010) }
  let flags ← clearLoopC r.psnew
  let r := { r with psnew := flags }
  let idx := (rdsb &&& 0x3) * 2
  let p ← asetC r.ps1 idx (((rdsd >>> 8) &&& 0x7f) % 256)
  let r := { r with ps1 := p }
  let p ← asetC r.ps1 (idx + 1) ((rdsd &&& 0x7f) % 256)
  let r := { r with ps1 := p }
  let flags ← asetC r.psnew idx true
  let r := { r with psnew := flags }
  let flags ← asetC r.psnew (idx + 1) true
  let r := { r with psnew := flags }
  let r ← if idx = 0 then update_ps_roundC r else pure r
  let r := update_ps_di r rdsb
  update_ps_altfreqsC r rdsb rdsc

/-- The body of the store loop of `update_rt`, checked. -/
def update_rt_storeC (idx : Nat) (msgbytes : Fin 4 → Nat) (i : Nat) (s : RDS × Int) :
    Option (RDS × Int) := do
  let v ← agetC msgbytes i
  let w ← asetC s.1.rt1 (idx + i) v
  let r := { s.1 with rt1 := w }
  let flags ← asetC r.rtnew (idx + i) true
  let r := { r with rtnew := flags }
  let v2 ← agetC msgbytes i
  pure (r, if v2 = 0x0d then ((idx + i : Nat) : Int) else s.2)

/-- The blanking block of `update_rt`, checked: the loop starts at
`cridx + 1`, which must not be negative. -/
def update_rt_blankC (r : RDS) (cridx : Int) : Option RDS :=
  if cridx ≠ -1 then
    if cridx + 1 < 0 then none
    else do
      let w ← forLoopC (cridx + 1).toNat 64 (fun i acc => asetC acc i 32) r.rt1
      pure { r with rt1 := w }
  else pure r

/-- The block `if idx == 0 { ... }` of `update_rt`, checked. -/
def update_rt_roundC (r : RDS) : Option RDS := do
  let upd ← sameLoopC 64 r.rt1 r.rt2
  let r ← if upd then do
      let i ← scanCRC r.rt2 64 0
      let str ← sliceC r.rt2 0 i
      pure { r with Radiotext := str }
    else pure r
  let w ← copyLoopC 64 r.rt2 r.rt1
  pure { r with rt2 := w }

/-- `update_rt`, checked. -/
def update_rtC (r : RDS) (_rdsa rdsb rdsc rdsd : Nat) : Option RDS := do
  let idx := (rdsb &&& 0xf) * 4
  let msgbytes : Fin 4 → Nat := fun _ => 0
  let msgbytes ← asetC msgbytes 0 (((rdsc >>> 8) &&& 0x7f) % 256)
  let msgbytes ← asetC msgbytes 1 ((rdsc &&& 0x7f) % 256)
  let msgbytes ← asetC msgbytes 2 (((rdsd >>> 8) &&& 0x7f) % 256)
  let msgbytes ← asetC msgbytes 3 ((rdsd &&& 0x7f) % 256)
  let flags ← clearLoopC r.rtnew
  let r := { r with rtnew := flags }
  let s ← forLoopC 0 4 (update_rt_storeC idx msgbytes) (r, -1)
  let r ← update_rt_blankC s.1 s.2
  if idx = 0 then update_rt_roundC r else pure r

/-- `Update`, checked, with the error it returns (always `nil`). -/
def UpdateC (r : RDS) (rdsa rdsb rdsc rdsd : Nat) : Option (RDS × Option Error) := do
  let r ← update_piC r rdsa
  let group_type := rdsb >>> 12
  let version : Nat := if rdsb &&& 0x0800 ≠ 0x0800 then 65 else 66
  let r := { r with TrafficProgram := decide (rdsb &&& 0x20 = 0x20) }
  let r := { r with ProgramType := (((rdsb >>> 5) &&& 0x1f : Nat) : Int) }
  let r ←
    if group_type = 0 then update_psC r rdsa rdsb rdsc rdsd
    else if group_type = 1 then pure (update_pin r rdsa rdsb rdsc rdsd)
    else if group_type = 2 then update_rtC r rdsa rdsb rdsc rdsd
    else if group_type = 3 then
      if version = 65 then update_aidC r rdsa rdsb rdsc rdsd else pure r
    else if group_type = 8 then pure r
    else pure r
  pure (r, none)

/-! ## The tuner (`si4703.go`)

Conventions of this part: a `float64` frequency is the exact fraction it stands
for (`Freq`); the constants `87.5`, `107.9` and `.2` are the `float64` values of
the literals and comparisons are exact; the sum `channel += .2` is rounded to
the nearest `float64` (`Freq.round64`); the quotient `(c - 87.5) / 0.2` of
`SetChannel` is taken in exact arithmetic, with `0.2 = 1/5`, and then truncated;
times are in milliseconds; the I2C device is a script that gives the result of
its k-th read and of its k-th write and keeps a log of what was written; the
polling goroutine runs while the caller sleeps; a run-time panic (index out of
range) is an outcome of its own. -/

/-- A frequency in MHz, the fraction `num / den`. -/
structure Freq where
  num : Int
  den : Nat
  pos : 0 < den := by decide

/-- The comparison `a < b` of two frequencies. -/
def Freq.lt (a b : Freq) : Prop := a.num * b.den < b.num * a.den

instance (a b : Freq) : Decidable (Freq.lt a b) := by
  unfold Freq.lt
  infer_instance

/-- The value of a frequency as a rational number. -/
def Freq.toRat (a : Freq) : ℚ := (a.num : ℚ) / (a.den : ℚ)

/-- The constant `87.5`. -/
def f87_5 : Freq := ⟨175, 2, by decide⟩

/-- The constant `107.9` of the guard `c > 107.9`: the `float64` nearest to
107.9, which is `3796393748384973 / 2^45`, just above 107.9. -/
def f107_9 : Freq := ⟨3796393748384973, 35184372088832, by decide⟩

/-- Integer division that discards the fraction (truncation toward zero), as
the Go conversion of a floating-point number to an integer does. -/
def truncDiv (p : Int) (q : Nat) : Int :=
  if 0 ≤ p then ((p.toNat / q : Nat) : Int) else -(((-p).toNat / q : Nat) : Int)

/-- The expression `uint16((c - 87.5) / 0.2)` of `SetChannel`:
`(num/den - 175/2) / (1/5)` is `5 * (2*num - 175*den) / (2*den)`. -/
def channelOf (c : Freq) : Nat :=
  (truncDiv (5 * (2 * c.num - 175 * c.den)) (2 * c.den) % 65536).toNat

/-- Register numbers (the `const` block of `si4703.go`). -/
def POWERCFG : Nat := 2

/-- Register 3. -/
def CHANNEL : Nat := 3

/-- Register 4. -/
def SYSCONFIG1 : Nat := 4

/-- Register 5. -/
def SYSCONFIG2 : Nat := 5

/-- Register 6. -/
def SYSCONFIG3 : Nat := 6

/-- Register 7. -/
def OSCILLATOR : Nat := 7

/-- Register 10. -/
def STATUSRSSI : Nat := 10

/-- Register 11. -/
def READCHAN : Nat := 11

/-- Register 12. -/
def RDSA : Nat := 12

/-- Register 13. -/
def RDSB : Nat := 13

/-- Register 14. -/
def RDSC : Nat := 14

/-- Register 15. -/
def RDSD : Nat := 15

/-- The I2C device: `tx k` is the result of the k-th read `Tx(nil, buf)` (an
error, or the 32 bytes read), `wr k` the result `(n, err)` of the k-th
`Write(buf)`; `ntx` counts the reads made and `written` logs the buffers
written, oldest first. -/
structure Dev where
  tx : Nat → Except Error (Fin 32 → Nat)
  wr : Nat → Nat × Option Error
  ntx : Nat
  written : List (List Nat)

/-- The Go struct `Si4703`, with the clock (`time.Now()`, in ms) and the next
wake-up time of the polling goroutine; `Update` tells whether the one-slot
channel holds a notification. -/
structure Si4703 where
  device : Dev
  Polling : Bool
  Rate : Nat
  Reg : Fin 16 → Nat
  Update : Bool
  clock : Nat
  next : Nat

/-- The read `s.device.Tx(nil, buf)`. -/
def Dev.Tx (d : Dev) : Dev × Except Error (Fin 32 → Nat) :=
  ({ d with ntx := d.ntx + 1 }, d.tx d.ntx)

/-- The write `s.device.Write(buf)`. -/
def Dev.Write (d : Dev) (buf : List Nat) : Dev × Nat × Option Error :=
  ({ d with written := d.written ++ [buf] }, d.wr d.written.length)

/-- `func (s *Si4703) Read() error`. -/
def Read (s : Si4703) : Si4703 × Option Error :=
  let res := s.device.Tx
  let s := { s with device := res.1 }
  match res.2 with
  | .error err => (s, some err)
  | .ok buf =>
    let reg := forLoop 0 16 (fun i reg =>
      aset reg ((i + 10) % 16)
        (((aget buf (i * 2) % 256) * 256 + aget buf (i * 2 + 1) % 256) % 65536)) s.Reg
    ({ s with Reg := reg }, none)

/-- Checked assignment `buf[i] = v` at an `int` index: `none` is the run-time
panic "index out of range". -/
def asetiC {n : Nat} (buf : Fin n → Nat) (i : Int) (v : Nat) : Option (Fin n → Nat) :=
  if 0 ≤ i ∧ i < (n : Int) then some (aset buf i.toNat v) else none

/-- The 12-byte buffer `Set` builds from the cached registers 2..7 and the new
value (`idxh := (reg-2) * 2` to `buf[idxl] = varl`); `none` when one of the two
stores `buf[idxh] = varh`, `buf[idxl] = varl` is out of range. -/
def burstOf (Reg : Fin 16 → Nat) (reg : Int) (val : Nat) : Option (Fin 12 → Nat) :=
  let idxh : Int := (reg - 2) * 2
  let idxl : Int := idxh + 1
  let varh := (val >>> 8) % 256
  let varl := (val &&& 0xff) % 256
  let buf : Fin 12 → Nat := fun _ => 0
  let buf := aset buf 0 ((aget Reg 2 >>> 8) % 256)
  let buf := aset buf 1 ((aget Reg 2 &&& 0xff) % 256)
  let buf := aset buf 2 ((aget Reg 3 >>> 8) % 256)
  let buf := aset buf 3 ((aget Reg 3 &&& 0xff) % 256)
  let buf := aset buf 4 ((aget Reg 4 >>> 8) % 256)
  let buf := aset buf 5 ((aget Reg 4 &&& 0xff) % 256)
  let buf := aset buf 6 ((aget Reg 5 >>> 8) % 256)
  let buf := aset buf 7 ((aget Reg 5 &&& 0xff) % 256)
  let buf := aset buf 8 ((aget Reg 6 >>> 8) % 256)
  let buf := aset buf 9 ((aget Reg 6 &&& 0xff) % 256)
  let buf := aset buf 10 ((aget Reg 7 >>> 8) % 256)
  let buf := aset buf 11 ((aget Reg 7 &&& 0xff) % 256)
  match asetiC buf idxh varh with
  | none => none
  | some buf => asetiC buf idxl varl

/-- How a call of `Set` ends: it returns an error value (`nil` is `none`), or
the run time panics on an index out of range. -/
inductive Ended where
  | returned (err : Option Error)
  | panicked
  deriving DecidableEq, Repr

/-- `func (s *Si4703) Set(reg int, val uint16) error`: read the registers,
build the buffer (`burstOf`; the panic of an out-of-range store comes before
the write), write it, read the registers again. -/
def Set (s : Si4703) (reg : Int) (val : Nat) : Si4703 × Ended :=
  let rd := Read s
  match rd.2 with
  | some err => (rd.1, Ended.returned (some err))
  | none =>
    let s := rd.1
    match burstOf s.Reg reg val with
    | none => (s, Ended.panicked)
    | some buf =>
      let w := s.device.Write (List.ofFn buf)
      let s := { s with device := w.1 }
      match w.2.2 with
      | some err => (s, Ended.returned (some err))
      | none =>
        if w.2.1 ≠ 12 then (s, Ended.returned (some Error.ErrShortWrite))
        else
          let rd := Read s
          match rd.2 with
          | some err => (rd.1, Ended.returned (some err))
          | none => (rd.1, Ended.returned none)

/-- One wake-up of the polling goroutine of `NewSi4703`: when `Polling`, read
the registers (the error is dropped) and leave a notification in the one-slot
channel if it is empty; then schedule the next wake-up. -/
def pollTick (s : Si4703) : Si4703 :=
  let s := if s.Polling then { (Read s).1 with Update := true } else s
  { s with next := s.next + s.Rate }

/-- `time.Sleep(d)`: the clock advances by `d` and the wake-ups of the polling
goroutine that fall due in the meantime take place. -/
def Sleep (s : Si4703) (d : Nat) : Si4703 :=
  let wake := s.clock + d
  let n := if s.Rate = 0 then 0 else if s.next ≤ wake then (wake - s.next) / s.Rate + 1 else 0
  let s := forLoop 0 n (fun _ acc => pollTick acc) s
  { s with clock := wake }

/-- How the wait loop of `SetChannel` ends. -/
inductive Wait where
  | complete
  | timeout
  | exit
  | unfinished
  deriving DecidableEq, Repr

/-- The wait loop of `SetChannel`, for at most the given number of iterations:
leave when bit 14 (STC) of `STATUSRSSI` is set; time out when the clock is past
the deadline; otherwise read the registers when not polling (a failed read
ends the program) and sleep 100 ms. -/
def waitSTC : Nat → Nat → Si4703 → Si4703 × Wait
  | 0, _, s => (s, Wait.unfinished)
  | k + 1, deadline, s =>
    if aget s.Reg STATUSRSSI &&& (1 <<< 14) ≠ 0 then (s, Wait.complete)
    else if s.clock > deadline then (s, Wait.timeout)
    else
      let rd := if ¬ s.Polling then Read s else (s, none)
      match rd.2 with
      | some _ => (rd.1, Wait.exit)
      | none => waitSTC k deadline (Sleep rd.1 100)

/-- What a call of `SetChannel` comes to: it returns an error value (`nil` is
`none`), or ends the program with `os.Exit`, or the run time panics, or (never,
with the iterations allowed) it is still waiting. -/
inductive Outcome where
  | returned (err : Option Error)
  | exited (code : Int)
  | panicked
  | unfinished
  deriving DecidableEq, Repr

/-- `func (s *Si4703) SetChannel(c float64) error`.  The value `Set` returns is
discarded both times; a panic in `Set` would end `SetChannel` too.  The wait
loop sleeps 100 ms per iteration and gives up once the clock is past the 5000 ms
deadline, which takes 52 iterations at most. -/
def SetChannel (s : Si4703) (c : Freq) : Si4703 × Outcome :=
  if Freq.lt c f87_5 ∨ Freq.lt f107_9 c then (s, Outcome.returned (some Error.ErrInvalidFreq))
  else
    let newc := channelOf c
    let tmp := aget s.Reg CHANNEL
    let tmp := tmp &&& 0xFE00
    let tmp := tmp ||| newc
    let tmp := tmp ||| (1 <<< 15)
    let st := Set s CHANNEL tmp
    match st.2 with
    | Ended.panicked => (st.1, Outcome.panicked)
    | Ended.returned _ =>
      let s := st.1
      let deadline := s.clock + 5000
      let w := waitSTC 52 deadline s
      match w.2 with
      | Wait.timeout => (w.1, Outcome.returned (some Error.ErrTimeout))
      | Wait.exit => (w.1, Outcome.exited (-1))
      | Wait.unfinished => (w.1, Outcome.unfinished)
      | Wait.complete =>
        let s := w.1
        let tmp := aget s.Reg CHANNEL
        let tmp := tmp &&& 0x7FFF
        let st := Set s CHANNEL tmp
        match st.2 with
        | Ended.panicked => (st.1, Outcome.panicked)
        | Ended.returned _ => (st.1, Outcome.returned none)

/-- The channel code the specification words ask for, to compare with
`channelOf`: `round((frequency - 87.5) / 0.2)`, the index of the nearest
0.2 MHz channel (halves rounded up), which is
`floor((5 * (2*num - 175*den) + den) / (2*den))`. -/
def roundChannel (c : Freq) : Int :=
  (5 * (2 * c.num - 175 * c.den) + c.den) / (2 * (c.den : Int))

/-- A device that always answers a read with the registers all zero except
`STATUSRSSI = 0x4000` (tuning complete), and accepts every write in full. -/
def tunedDev : Dev where
  tx := fun _ => Except.ok (fun j => if j.val = 0 then 0x40 else 0)
  wr := fun _ => (12, none)
  ntx := 0
  written := []

/-- A tuner in polling mode (40 ms) on `tunedDev`, registers all zero. -/
def tunedRadio : Si4703 where
  device := tunedDev
  Polling := true
  Rate := 40
  Reg := fun _ => 0
  Update := false
  clock := 0
  next := 40

/-- The 16-bit word a 12-byte write buffer holds for register `reg` (2..7). -/
def wordOf (buf : List Nat) (reg : Nat) : Nat :=
  buf.getD ((reg - 2) * 2) 0 * 256 + buf.getD ((reg - 2) * 2 + 1) 0

/-- The frequency 88.09 MHz. -/
def f88_09 : Freq := ⟨8809, 100, by decide⟩

/-- The `float64` value of the Go literal `88.1`: the double nearest to 88.1,
which is `3099743181026099 / 2^45`, just below 88.1. -/
def f88_1 : Freq := ⟨3099743181026099, 35184372088832, by decide⟩

/-- The register array a successful read of the 32 bytes `buf` leaves in
`s.Reg`: register `j` is the big-endian word at bytes `2i`, `2i+1` with
`(i + 10) % 16 = j`, that is `i = (j + 6) % 16`. -/
def regsOf (buf : Fin 32 → Nat) : Fin 16 → Nat := fun j =>
  ((aget buf ((j.val + 6) % 16 * 2) % 256) * 256 + aget buf ((j.val + 6) % 16 * 2 + 1) % 256) % 65536

/-- The state `Set` is in right after its write of the buffer `burst`: the
registers as read from `buf`, the buffer logged. -/
def afterWrite (s : Si4703) (buf : Fin 32 → Nat) (burst : Fin 12 → Nat) : Si4703 :=
  { s with
    device := { s.device with
      ntx := s.device.ntx + 1
      written := s.device.written ++ [List.ofFn burst] }
    Reg := regsOf buf }

/-- `SetChannel` for an accepted frequency, from the write that starts tuning
to the end of the wait loop. -/
def tuneWait (s : Si4703) (c : Freq) : Si4703 × Wait :=
  let newc := channelOf c
  let tmp := aget s.Reg CHANNEL
  let tmp := tmp &&& 0xFE00
  let tmp := tmp ||| newc
  let tmp := tmp ||| (1 <<< 15)
  let s := (Set s CHANNEL tmp).1
  let deadline := s.clock + 5000
  waitSTC 52 deadline s

/-- A device that never reports tune complete: every read gives registers all
zero; every write is accepted in full. -/
def deafDev : Dev where
  tx := fun _ => Except.ok (fun _ => 0)
  wr := fun _ => (12, none)
  ntx := 0
  written := []

/-- A tuner in polling mode (40 ms) on `deafDev`. -/
def deafRadio : Si4703 where
  device := deafDev
  Polling := true
  Rate := 40
  Reg := fun _ => 0
  Update := false
  clock := 0
  next := 40

/-- The frequency 88.5 MHz. -/
def f88_5 : Freq := ⟨177, 2, by decide⟩

/-- What the wait loop leaves alone: the scripts of the device, its log of
writes, the polling mode and rate. -/
def sameDevice (s t : Si4703) : Prop :=
  t.device.tx = s.device.tx ∧ t.device.wr = s.device.wr ∧
    t.device.written = s.device.written ∧ t.Polling = s.Polling ∧ t.Rate = s.Rate

/-- A device that never reports tune complete: every read succeeds and gives a
`STATUSRSSI` word whose bit `0x4000` (STC) is clear. -/
def neverComplete (d : Dev) : Prop :=
  ∀ k, ∃ buf, d.tx k = Except.ok buf ∧ aget (regsOf buf) STATUSRSSI &&& 0x4000 = 0

/-- A tuner whose cached registers hold the values 0x1111 * k. -/
def sampleRadio : Si4703 where
  device := tunedDev
  Polling := false
  Rate := 40
  Reg := fun k => 0x1111 * k.val
  Update := false
  clock := 0
  next := 40

/-! ## The key events of the event loop (`gofm.go`) -/

/-- The constant `.2` of `channel += .2`: the `float64` nearest to 0.2, which is
`3602879701896397 / 2^54`. -/
def f0_2 : Freq := ⟨3602879701896397, 18014398509481984, by decide⟩

/-- The sum `a + b` of two frequencies. -/
def Freq.add (a b : Freq) : Freq :=
  ⟨a.num * b.den + b.num * a.den, a.den * b.den, Nat.mul_pos a.pos b.pos⟩

/-- The difference `a - b` of two frequencies. -/
def Freq.sub (a b : Freq) : Freq :=
  ⟨a.num * b.den - b.num * a.den, a.den * b.den, Nat.mul_pos a.pos b.pos⟩

/-- The number of binary digits of `n` (0 for 0); the first argument bounds the
recursion. -/
def bitLength : Nat → Nat → Nat
  | 0, _ => 0
  | fuel + 1, n => if n = 0 then 0 else bitLength fuel (n / 2) + 1

/-- The product `n * 2^k` for `k ≥ 0`, and `n` itself for `k < 0`. -/
def shl (n : Nat) (k : Int) : Nat := n * 2 ^ k.toNat

/-- The integer nearest to `p / q`, a tie going to the even one. -/
def roundHalfEven (p q : Nat) : Nat :=
  if 2 * (p % q) < q then p / q
  else if q < 2 * (p % q) then p / q + 1
  else if (p / q) % 2 = 0 then p / q else p / q + 1

/-- The `float64` nearest to `x` (round to nearest, ties to even), as the
`float64` operations `+` and `-` round their exact result: with `e` the binary
exponent of `|x|` (`2^e ≤ |x| < 2^(e+1)`), `|x|` is rounded to a multiple of
`2^(e-52)`.  Overflow and the subnormal range are left out; the frequencies of
the receiver lie between 64 and 128. -/
def Freq.round64 (x : Freq) : Freq :=
  if x.num = 0 then ⟨0, 1, by decide⟩
  else
    let a := x.num.natAbs
    let b := x.den
    let e0 : Int := (bitLength a a : Int) - (bitLength b b : Int)
    let e : Int := if shl b e0 ≤ shl a (-e0) then e0 else e0 - 1
    let k : Int := 52 - e
    let m := roundHalfEven (shl a k) (shl b (-k))
    ⟨(if x.num < 0 then -1 else 1) * (shl m (-k) : Int), 2 ^ k.toNat, Nat.two_pow_pos _⟩

/-- The keys the event loop of `main` tells apart. -/
inductive Key where
  | ctrlC
  | up
  | down
  | other
  deriving DecidableEq, Repr

/-- The variables of `main` a key event works on: the tuner `s`, the frequency
`channel` and the decoder state `rds`. -/
structure Receiver where
  s : Si4703
  channel : Freq
  rds : RDS

/-- The `case *tcell.EventKey` branch of the event loop of `main`
(`gofm.go`): the variables after the branch, and what the call of `SetChannel`
came to when one was made.  `KeyUp` and `KeyDown` step `channel` by `.2` in
`float64` arithmetic with wrap-around, call `s.SetChannel(channel)` without
looking at its result, and assign `rds = RDS{}`; when `SetChannel` ends the
program the assignment is not reached.  `KeyCtrlC` leaves the loop and any other key does nothing, the
variables unchanged. -/
def onKey (m : Receiver) (k : Key) : Receiver × Option Outcome :=
  match k with
  | Key.up =>
    let channel := Freq.round64 (Freq.add m.channel f0_2)
    let channel := if Freq.lt f107_9 channel then f87_5 else channel
    let res := SetChannel m.s channel
    match res.2 with
    | Outcome.returned _ => ({ s := res.1, channel := channel, rds := RDS.empty }, some res.2)
    | _ => ({ s := res.1, channel := channel, rds := m.rds }, some res.2)
  | Key.down =>
    let channel := Freq.round64 (Freq.sub m.channel f0_2)
    let channel := if Freq.lt channel f87_5 then f107_9 else channel
    let res := SetChannel m.s channel
    match res.2 with
    | Outcome.returned _ => ({ s := res.1, channel := channel, rds := RDS.empty }, some res.2)
    | _ => ({ s := res.1, channel := channel, rds := m.rds }, some res.2)
  | _ => (m, none)

/-! ## Vocabulary of the statements -/

/-- The two characters a type-0 group with block `d` stores: the 7-bit-masked
high and low byte of `d`. -/
def psChars (d : Nat) : Nat × Nat :=
  (((d >>> 8) &&& 0x7f) % 256, (d &&& 0x7f) % 256)

/-- Group `g` is a type-0 group that carries segment `seg` of the 8-character
name `X`: its segment selector is `seg` and block D holds the two characters,
high byte first. -/
def carriesPS (X : Fin 8 → Nat) (seg : Nat) (g : Group) : Prop :=
  g.b >>> 12 = 0 ∧ g.b &&& 0x3 = seg ∧ g.d = aget X (seg * 2) * 256 + aget X (seg * 2 + 1)

instance (X : Fin 8 → Nat) (seg : Nat) (g : Group) : Decidable (carriesPS X seg g) := by
  unfold carriesPS
  infer_instance

/-- The working buffer `buf` with segment `seg` of the name `X` stored in it. -/
def psPut (buf X : Fin 8 → Nat) (seg : Nat) : Fin 8 → Nat :=
  aset (aset buf (seg * 2) (aget X (seg * 2))) (seg * 2 + 1) (aget X (seg * 2 + 1))

/-- The names `X` and `Y` differ in segment `k` (in at least one of its two
characters) and agree in the three other segments. -/
def differOnlyInSeg (X Y : Fin 8 → Nat) (k : Nat) : Prop :=
  k < 4 ∧ (aget X (k * 2) ≠ aget Y (k * 2) ∨ aget X (k * 2 + 1) ≠ aget Y (k * 2 + 1)) ∧
    ∀ j, j < 4 → j ≠ k →
      aget X (j * 2) = aget Y (j * 2) ∧ aget X (j * 2 + 1) = aget Y (j * 2 + 1)

instance (X Y : Fin 8 → Nat) (k : Nat) : Decidable (differOnlyInSeg X Y k) := by
  unfold differOnlyInSeg
  infer_instance

/-- Group `g` is a type-2 group with segment selector `seg` and payload blocks
`c`, `d`. -/
def carriesRT (seg c d : Nat) (g : Group) : Prop :=
  g.b >>> 12 = 2 ∧ g.b &&& 0xf = seg ∧ g.c = c ∧ g.d = d

instance (seg c d : Nat) (g : Group) : Decidable (carriesRT seg c d g) := by
  unfold carriesRT
  infer_instance

/-- The name "ABCDEFGH". -/
def nameAH : Fin 8 → Nat := fun i => 65 + i.val

/-- The name "ZZCDEFGH": "ABCDEFGH" with segment 0 replaced by "ZZ". -/
def nameZZ : Fin 8 → Nat := fun i => if i.val < 2 then 90 else 65 + i.val

/-- The four groups `gs` carry segments 0, 1, 2, 3 of the name `X`, in order. -/
def carriesRound (X : Fin 8 → Nat) (gs : List Group) : Prop :=
  gs.length = 4 ∧ ∀ seg, seg < 4 → carriesPS X seg (gs.getD seg ⟨0, 0, 0, 0⟩)

instance (X : Fin 8 → Nat) (gs : List Group) : Decidable (carriesRound X gs) := by
  unfold carriesRound
  infer_instance

/-- One round of type-0 groups broadcasting "ABCDEFGH", segments 0 to 3. -/
def roundAH : List Group :=
  [⟨0, 0, 0, 0x4142⟩, ⟨0, 1, 0, 0x4344⟩, ⟨0, 2, 0, 0x4546⟩, ⟨0, 3, 0, 0x4748⟩]

/-- One round of type-0 groups broadcasting "ZZCDEFGH", segments 0 to 3. -/
def roundZZ : List Group :=
  [⟨0, 0, 0, 0x5A5A⟩, ⟨0, 1, 0, 0x4344⟩, ⟨0, 2, 0, 0x4546⟩, ⟨0, 3, 0, 0x4748⟩]

/-- The four payload bytes of a type-2 group: the 7-bit-masked high and low
bytes of block `c`, then of block `d`. -/
def rtBytes (c d : Nat) : Fin 4 → Nat := fun k =>
  if k.val = 0 then ((c >>> 8) &&& 0x7f) % 256 else if k.val = 1 then (c &&& 0x7f) % 256
  else if k.val = 2 then ((d >>> 8) &&& 0x7f) % 256 else (d &&& 0x7f) % 256

/-- The 64-byte buffer `"HELLO\r"` followed by 58 spaces. -/
def helloBuf : Fin 64 → Nat := fun j =>
  if 5 < j.val then 32 else if j.val = 5 then 13 else if j.val = 4 then 79
  else if j.val = 3 then 76 else if j.val = 2 then 76 else if j.val = 1 then 69 else 72

/-- The open-data registry lookup `r.aid[key][slot]`: `none` when the registry
has no entry under `key`. -/
def aidSlot (r : RDS) (key slot : Nat) : Option Nat :=
  (r.aid.bind (fun m => m key)).map (fun t => aget t slot)

/-- The alternative-frequency lookup `m[k]` with its presence flag, `k` in units
of 0.1 MHz: `none` when the key is absent (always so in a `nil` map). -/
def afLookup (m : Option (Nat → Option Bool)) (k : Nat) : Option Bool :=
  m.bind (fun f => f k)

/-- A device whose register reads succeed and show tune complete
(`STATUSRSSI = 0x4000`, the rest zero) and whose every write fails with a
transport error, nothing written. -/
def brokenDev : Dev where
  tx := fun _ => Except.ok (fun j => if j.val = 0 then 0x40 else 0)
  wr := fun _ => (0, some (Error.transport 5))
  ntx := 0
  written := []

/-- A tuner in polling mode (40 ms) on `brokenDev`. -/
def brokenRadio : Si4703 where
  device := brokenDev
  Polling := true
  Rate := 40
  Reg := fun _ => 0
  Update := false
  clock := 0
  next := 40

/-- A device whose register reads succeed and never show tune complete
(registers all zero) and whose every write fails with a transport error. -/
def stuckDev : Dev where
  tx := fun _ => Except.ok (fun _ => 0)
  wr := fun _ => (0, some (Error.transport 5))
  ntx := 0
  written := []

/-- A tuner in polling mode (40 ms) on `stuckDev`. -/
def stuckRadio : Si4703 where
  device := stuckDev
  Polling := true
  Rate := 40
  Reg := fun _ => 0
  Update := false
  clock := 0
  next := 40

/-- A device that reports tune complete from its tenth read on (`STATUSRSSI`
is 0 before, `0x4000` after) and accepts every write in full. -/
def slowDev : Dev where
  tx := fun k => Except.ok (fun j => if j.val = 0 ∧ 10 ≤ k then 0x40 else 0)
  wr := fun _ => (12, none)
  ntx := 0
  written := []

/-- A tuner in polling mode (40 ms) on `slowDev`, with the cached `CHANNEL`
register `0x7FFF`. -/
def slowRadio : Si4703 where
  device := slowDev
  Polling := true
  Rate := 40
  Reg := fun k => if k.val = 3 then 0x7FFF else 0
  Update := false
  clock := 0
  next := 40

/-- A receiver tuned to 88.5 MHz whose decoder has received the name
"ABCDEFGH" in three rounds, on a tuner whose device never reports tune
complete. -/
def deafReceiver : Receiver where
  s := deafRadio
  channel := f88_5
  rds := decodeAll RDS.empty (roundAH ++ roundAH ++ roundAH)

/-- The bounds the decoder keeps on its text buffers and committed fields:
every byte of the working buffers and snapshots is below `0x80`; the committed
name is empty or 8 bytes long, the committed text at most 64 bytes long without
a carriage return, both of bytes below `0x80`; the program type is in 0..31 and
the number of alternative frequencies in 0..25. -/
def inBounds (r : RDS) : Prop :=
  (∀ j, r.ps1 j < 128) ∧ (∀ j, r.ps2 j < 128) ∧ (∀ j, r.rt1 j < 128) ∧ (∀ j, r.rt2 j < 128) ∧
    (r.ProgramService = [] ∨ r.ProgramService.length = 8) ∧
    (∀ x ∈ r.ProgramService, x < 128) ∧
    r.Radiotext.length ≤ 64 ∧ (∀ x ∈ r.Radiotext, x < 128 ∧ x ≠ 0x0d) ∧
    (0 ≤ r.ProgramType ∧ r.ProgramType ≤ 31) ∧ (0 ≤ r.NumAltFreqs ∧ r.NumAltFreqs ≤ 25)

/-- A device whose every read returns the bytes 0, 1, .., 31 (so that register
`k` in 2..7 reads `(2k+12) * 256 + 2k+13`), and that accepts every write. -/
def countDev : Dev where
  tx := fun _ => Except.ok (fun j => j.val)
  wr := fun _ => (12, none)
  ntx := 0
  written := []

/-- A tuner on `countDev`, its cached registers all zero. -/
def countRadio : Si4703 where
  device := countDev
  Polling := false
  Rate := 40
  Reg := fun _ => 0
  Update := false
  clock := 0
  next := 40

/-! ## Loops, characterised -/

theorem aget_val {n : Nat} {α : Type} [Inhabited α] (buf : Fin n → α) (j : Fin n) :
    aget buf j.val = buf j := by
  simp [aget, j.isLt]

theorem aget_lt {n : Nat} {α : Type} [Inhabited α] (buf : Fin n → α) (i : Nat) (h : i < n) :
    aget buf i = buf ⟨i, h⟩ := by
  simp [aget, h]

theorem aset_apply {n : Nat} {α : Type} (buf : Fin n → α) (i : Nat) (v : α) (j : Fin n) :
    aset buf i v j = if j.val = i then v else buf j := rfl

theorem foldl_aset_apply {n : Nat} {α : Type} (f : Nat → α) (l : List Nat)
    (buf : Fin n → α) (j : Fin n) :
    (l.foldl (fun acc i => aset acc i (f i)) buf) j = if j.val ∈ l then f j.val else buf j := by
  induction l generalizing buf with
  | nil => simp
  | cons i l ih =>
    rw [List.foldl_cons, ih]
    by_cases hj : j.val ∈ l
    · simp [hj]
    · by_cases hi : j.val = i
      · simp [hj, hi, aset_apply]
      · simp [hj, hi, aset_apply]

theorem copyLoop_eq {n : Nat} (dst src : Fin n → Nat) : copyLoop dst src = src := by
  funext j
  unfold copyLoop forLoop
  rw [foldl_aset_apply (fun i => aget src i)]
  simp [List.mem_range'_1, j.isLt, aget_val]

theorem blankLoop_apply {n : Nat} (lo : Nat) (buf : Fin n → Nat) (j : Fin n) :
    forLoop lo n (fun i acc => aset acc i 32) buf j = if lo ≤ j.val then 32 else buf j := by
  unfold forLoop
  rw [foldl_aset_apply (fun _ => 32)]
  have hj := j.isLt
  by_cases h : lo ≤ j.val
  · have : j.val ∈ List.range' lo (n - lo) := by
      rw [List.mem_range'_1]; omega
    simp [this, h]
  · have : ¬ j.val ∈ List.range' lo (n - lo) := by
      rw [List.mem_range'_1]; omega
    simp [this, h]

theorem foldl_same {n : Nat} (x y : Fin n → Nat) (l : List Nat) (init : Bool) :
    l.foldl (fun upd i => if aget x i ≠ aget y i then false else upd) init = true ↔
      init = true ∧ ∀ i ∈ l, aget x i = aget y i := by
  induction l generalizing init with
  | nil => simp
  | cons i l ih =>
    rw [List.foldl_cons, ih]
    by_cases h : aget x i = aget y i
    · simp [h]
    · simp [h]

theorem sameLoop_eq_true {n : Nat} (x y : Fin n → Nat) : sameLoop x y = true ↔ x = y := by
  unfold sameLoop forLoop
  rw [foldl_same]
  constructor
  · rintro ⟨-, h⟩
    funext j
    have := h j.val (by rw [List.mem_range'_1]; have := j.isLt; omega)
    simpa [aget_val] using this
  · rintro rfl
    simp

theorem sameLoop_eq_false {n : Nat} (x y : Fin n → Nat) : sameLoop x y = false ↔ x ≠ y := by
  rw [Ne, ← sameLoop_eq_true, Bool.not_eq_true]

/-! ## The routines, field by field -/

theorem slice_full {n : Nat} (buf : Fin n → Nat) : slice buf 0 n = List.ofFn buf := by
  simp [slice, List.take_of_length_le]

theorem psView_update_pi (r : RDS) (a : Nat) : psView (update_pi r a) = psView r := by
  unfold update_pi update_pi_round update_pi_switch
  dsimp only
  split_ifs <;> rfl

theorem rtView_update_pi (r : RDS) (a : Nat) : rtView (update_pi r a) = rtView r := by
  unfold update_pi update_pi_round update_pi_switch
  dsimp only
  split_ifs <;> rfl

theorem psView_update_ps_af (r : RDS) (f : Nat) : psView (update_ps_af r f) = psView r := by
  unfold update_ps_af
  split_ifs <;> rfl

theorem rtView_update_ps_af (r : RDS) (f : Nat) : rtView (update_ps_af r f) = rtView r := by
  unfold update_ps_af
  split_ifs <;> rfl

theorem csView_update_ps_af (r : RDS) (f : Nat) : csView (update_ps_af r f) = csView r := by
  unfold update_ps_af
  split_ifs <;> rfl

theorem psView_update_ps_di (r : RDS) (b : Nat) : psView (update_ps_di r b) = psView r := by
  unfold update_ps_di
  split_ifs <;> rfl

theorem psView_update_ps_altfreqs (r : RDS) (b c : Nat) :
    psView (update_ps_altfreqs r b c) = psView r := by
  unfold update_ps_altfreqs
  split_ifs
  · simp only [List.foldl, psView_update_ps_af]
    rfl
  · simp only [List.foldl, psView_update_ps_af]
  · rfl

theorem psView_update_ps_round (r : RDS) :
    psView (update_ps_round r) =
      (r.ps1, r.ps1, if sameLoop r.ps1 r.ps2 = true then List.ofFn r.ps2 else r.ProgramService) := by
  unfold update_ps_round
  dsimp only
  split_ifs <;> simp [psView, copyLoop_eq, slice_full]

theorem psView_update_ps (r : RDS) (a b c d : Nat) :
    psView (update_ps r a b c d) = psStep (psView r) b d := by
  unfold update_ps
  dsimp only
  rw [psView_update_ps_altfreqs, psView_update_ps_di]
  split_ifs with h
  · rw [psView_update_ps_round]
    simp [psStep, psView, h]
  · simp [psStep, psView, h]

theorem scanCR_take {n : Nat} (buf : Fin n → Nat) (k i : Nat) (hk : n ≤ k + i) (hi : i ≤ n) :
    (List.ofFn buf).take (scanCR buf k i) =
      (List.ofFn buf).take i ++ ((List.ofFn buf).drop i).takeWhile (fun x => x ≠ 0x0d) := by
  induction k generalizing i with
  | zero =>
    have : i = n := by omega
    subst this
    simp [scanCR, List.drop_of_length_le]
  | succ k ih =>
    unfold scanCR
    by_cases hlt : i < n
    · have hlen : i < (List.ofFn buf).length := by simpa using hlt
      have hget : (List.ofFn buf)[i] = aget buf i := by
        simp [aget, hlt]
      by_cases hcr : aget buf i = 0x0d
      · rw [if_neg (by simp [hcr]), List.drop_eq_getElem_cons hlen, hget, hcr]
        simp
      · rw [if_pos ⟨hlt, hcr⟩, ih (i + 1) (by omega) (by omega),
          List.drop_eq_getElem_cons hlen, hget, List.takeWhile_cons, List.take_succ,
          List.getElem?_eq_getElem hlen, hget]
        simp [hcr]
    · have : i = n := by omega
      subst this
      simp [List.drop_of_length_le]

theorem slice_scanCR (buf : Fin 64 → Nat) :
    slice buf 0 (scanCR buf 64 0) = (List.ofFn buf).takeWhile (fun x => x ≠ 0x0d) := by
  have h := scanCR_take buf 64 0 (by omega) (by omega)
  simpa [slice] using h

theorem rtView_update_rt_round (r : RDS) :
    rtView (update_rt_round r) =
      (r.rt1, r.rt1,
        if sameLoop r.rt1 r.rt2 = true then (List.ofFn r.rt2).takeWhile (fun x => x ≠ 0x0d)
        else r.Radiotext) := by
  unfold update_rt_round
  dsimp only
  split_ifs <;> simp [rtView, copyLoop_eq, slice_scanCR]

theorem update_rt_store_loop (idx : Nat) (m : Fin 4 → Nat) (r : RDS) :
    rtView (forLoop 0 4 (update_rt_store idx m) (r, -1)).1 =
        (aset (aset (aset (aset r.rt1 idx (aget m 0)) (idx + 1) (aget m 1)) (idx + 2) (aget m 2))
          (idx + 3) (aget m 3), r.rt2, r.Radiotext) ∧
      (forLoop 0 4 (update_rt_store idx m) (r, -1)).2 =
        (if aget m 3 = 0x0d then ((idx + 3 : Nat) : Int)
          else if aget m 2 = 0x0d then ((idx + 2 : Nat) : Int)
          else if aget m 1 = 0x0d then ((idx + 1 : Nat) : Int)
          else if aget m 0 = 0x0d then ((idx : Nat) : Int) else -1) := by
  constructor
  · simp [forLoop, List.range', update_rt_store, rtView]
  · simp [forLoop, List.range', update_rt_store]

theorem rtView_update_rt_blank (r : RDS) (cr : Int) :
    rtView (update_rt_blank r cr) =
      ((fun j => if cr ≠ -1 ∧ (cr + 1).toNat ≤ j.val then 32 else r.rt1 j), r.rt2, r.Radiotext) := by
  unfold update_rt_blank
  split_ifs with h
  · simp only [rtView, Prod.mk.injEq, and_true]
    funext j
    rw [blankLoop_apply]
    simp [h]
  · simp only [rtView, Prod.mk.injEq, and_true]
    funext j
    simp [h]

theorem rtView_update_rt (r : RDS) (a b c d : Nat) :
    rtView (update_rt r a b c d) = rtStep (rtView r) b c d := by
  unfold update_rt
  dsimp only
  obtain ⟨h1, h2⟩ := update_rt_store_loop ((b &&& 0xf) * 4)
    (aset (aset (aset (aset (fun _ => 0) 0 (((c >>> 8) &&& 0x7f) % 256)) 1 ((c &&& 0x7f) % 256)) 2
      (((d >>> 8) &&& 0x7f) % 256)) 3 ((d &&& 0x7f) % 256))
    { r with rtnew := clearLoop r.rtnew }
  have hm0 : aget (aset (aset (aset (aset (fun _ => 0) 0 (((c >>> 8) &&& 0x7f) % 256)) 1
      ((c &&& 0x7f) % 256)) 2 (((d >>> 8) &&& 0x7f) % 256)) 3 ((d &&& 0x7f) % 256) : Fin 4 → Nat) 0
        = ((c >>> 8) &&& 0x7f) % 256 := rfl
  have hm1 : aget (aset (aset (aset (aset (fun _ => 0) 0 (((c >>> 8) &&& 0x7f) % 256)) 1
      ((c &&& 0x7f) % 256)) 2 (((d >>> 8) &&& 0x7f) % 256)) 3 ((d &&& 0x7f) % 256) : Fin 4 → Nat) 1
        = (c &&& 0x7f) % 256 := rfl
  have hm2 : aget (aset (aset (aset (aset (fun _ => 0) 0 (((c >>> 8) &&& 0x7f) % 256)) 1
      ((c &&& 0x7f) % 256)) 2 (((d >>> 8) &&& 0x7f) % 256)) 3 ((d &&& 0x7f) % 256) : Fin 4 → Nat) 2
        = ((d >>> 8) &&& 0x7f) % 256 := rfl
  have hm3 : aget (aset (aset (aset (aset (fun _ => 0) 0 (((c >>> 8) &&& 0x7f) % 256)) 1
      ((c &&& 0x7f) % 256)) 2 (((d >>> 8) &&& 0x7f) % 256)) 3 ((d &&& 0x7f) % 256) : Fin 4 → Nat) 3
        = (d &&& 0x7f) % 256 := rfl
  rw [hm0, hm1, hm2, hm3] at h1 h2
  generalize forLoop 0 4 _ _ = s at h1 h2
  have hb := rtView_update_rt_blank s.1 s.2
  simp only [rtView, Prod.mk.injEq] at h1 hb
  obtain ⟨h11, h12, h13⟩ := h1
  obtain ⟨hb1, hb2, hb3⟩ := hb
  have hw : (update_rt_blank s.1 s.2).rt1 = (rtStep (rtView r) b c d).1 := by
    rw [hb1, h11, h2]
    funext j
    have hc : ∀ cr : Int, (cr ≠ -1 ∧ (cr + 1).toNat ≤ j.val) ↔ (cr ≠ -1 ∧ cr < (j.val : Int)) := by
      intro cr
      omega
    simp only [rtStep, rtWrite, rtView, aset_apply, hc]
  split_ifs with h
  · rw [rtView_update_rt_round, hw, hb2, hb3, h12, h13]
    simp [rtStep, rtView, h]
  · simp only [rtView, hw, hb2, hb3, h12, h13]
    simp [rtStep, rtView, h]

/-! ## `Update`, buffer by buffer -/

theorem psView_Update (r : RDS) (a b c d : Nat) (h : b >>> 12 = 0) :
    psView (Update r a b c d) = psStep (psView r) b d := by
  unfold Update
  dsimp only
  rw [if_pos h, psView_update_ps]
  exact congrArg (fun v => psStep v b d) (psView_update_pi r a)

theorem rtView_Update (r : RDS) (a b c d : Nat) (h : b >>> 12 = 2) :
    rtView (Update r a b c d) = rtStep (rtView r) b c d := by
  unfold Update
  dsimp only
  rw [if_neg (by omega), if_neg (by omega), if_pos h, rtView_update_rt]
  exact congrArg (fun v => rtStep v b c d) (rtView_update_pi r a)

theorem mask_hi (x y : Nat) (hx : x < 128) (hy : y < 128) :
    (((x * 256 + y) >>> 8) &&& 0x7f) % 256 = x := by
  have h := Nat.and_pow_two_sub_one_eq_mod ((x * 256 + y) >>> 8) 7
  norm_num at h
  rw [h, Nat.shiftRight_eq_div_pow]
  omega

theorem mask_lo (x y : Nat) (hy : y < 128) : ((x * 256 + y) &&& 0x7f) % 256 = y := by
  have h := Nat.and_pow_two_sub_one_eq_mod (x * 256 + y) 7
  norm_num at h
  rw [h]
  omega

theorem aget_lt_128 (X : Fin 8 → Nat) (hX : ∀ i, X i < 128) (i : Nat) : aget X i < 128 := by
  unfold aget
  split_ifs
  · exact hX _
  · exact (by decide : (default : Nat) < 128)

theorem psStep_carries (v : (Fin 8 → Nat) × (Fin 8 → Nat) × List Nat) (X : Fin 8 → Nat)
    (hX : ∀ i, X i < 128) (seg : Nat) (g : Group) (h : carriesPS X seg g) :
    psStep v g.b g.d =
      (psPut v.1 X seg, if seg = 0 then psPut v.1 X seg else v.2.1,
        if seg = 0 ∧ sameLoop (psPut v.1 X seg) v.2.1 = true then List.ofFn v.2.1 else v.2.2) := by
  obtain ⟨-, hs, hd⟩ := h
  have e1 := mask_hi (aget X (seg * 2)) (aget X (seg * 2 + 1)) (aget_lt_128 X hX _)
    (aget_lt_128 X hX _)
  have e2 := mask_lo (aget X (seg * 2)) (aget X (seg * 2 + 1)) (aget_lt_128 X hX _)
  have e3 : seg * 2 = 0 ↔ seg = 0 := by omega
  simp only [psStep, psPut, hs, hd, e1, e2, e3]

theorem psPut_fill (buf X : Fin 8 → Nat) :
    psPut (psPut (psPut (psPut buf X 0) X 1) X 2) X 3 = X := by
  funext j
  fin_cases j <;> rfl

theorem psPut_self (X : Fin 8 → Nat) (seg : Nat) : psPut X X seg = X := by
  funext j
  simp only [psPut, aset_apply]
  split_ifs with h1 h2
  · rw [← h1, aget_val]
  · rw [← h2, aget_val]
  · rfl

theorem decode_carries (r : RDS) (X : Fin 8 → Nat) (hX : ∀ i, X i < 128) (seg : Nat)
    (g : Group) (h : carriesPS X seg g) :
    psView (decode r g) =
      (psPut r.ps1 X seg, if seg = 0 then psPut r.ps1 X seg else r.ps2,
        if seg = 0 ∧ sameLoop (psPut r.ps1 X seg) r.ps2 = true then List.ofFn r.ps2
        else r.ProgramService) := by
  unfold decode
  rw [psView_Update r g.a g.b g.c g.d h.1, psStep_carries _ X hX seg g h]
  rfl

theorem decode_round (r : RDS) (X : Fin 8 → Nat) (hX : ∀ i, X i < 128) (g0 g1 g2 g3 : Group)
    (h0 : carriesPS X 0 g0) (h1 : carriesPS X 1 g1) (h2 : carriesPS X 2 g2)
    (h3 : carriesPS X 3 g3) :
    (decode (decode (decode (decode r g0) g1) g2) g3).ps1 = X ∧
      (decode (decode (decode (decode r g0) g1) g2) g3).ps2 = psPut r.ps1 X 0 := by
  have e0 := decode_carries r X hX 0 g0 h0
  have e1 := decode_carries (decode r g0) X hX 1 g1 h1
  have e2 := decode_carries (decode (decode r g0) g1) X hX 2 g2 h2
  have e3 := decode_carries (decode (decode (decode r g0) g1) g2) X hX 3 g3 h3
  simp only [psView, Prod.mk.injEq] at e0 e1 e2 e3
  obtain ⟨a0, b0, -⟩ := e0
  obtain ⟨a1, b1, -⟩ := e1
  obtain ⟨a2, b2, -⟩ := e2
  obtain ⟨a3, b3, -⟩ := e3
  constructor
  · rw [a3, a2, a1, a0, psPut_fill]
  · rw [b3, b2, b1, b0]
    simp

/-! ## Program service: the round check -/

/-- C1 (amended): for every decoder state and every type-0 group whose segment
selector `b & 0x3` is 0, the round-completion check of the program-service
buffer uses the working buffer as it is AFTER this group's two characters are
written: the new `ps1` is the old one with the two characters stored at
positions 0 and 1; `ProgramService` becomes that post-write buffer exactly when
it equals the previous-round snapshot `ps2` byte for byte, and is unchanged
otherwise; afterwards `ps2` holds the post-write working buffer. -/
theorem C1_ps_round_check_after_write (r : RDS) (a b c d : Nat) (ht : b >>> 12 = 0)
    (hs : b &&& 0x3 = 0) :
    (Update r a b c d).ps1 = aset (aset r.ps1 0 (psChars d).1) 1 (psChars d).2 ∧
      (Update r a b c d).ps2 = (Update r a b c d).ps1 ∧
      ((Update r a b c d).ps1 = r.ps2 →
        (Update r a b c d).ProgramService = List.ofFn (Update r a b c d).ps1) ∧
      ((Update r a b c d).ps1 ≠ r.ps2 →
        (Update r a b c d).ProgramService = r.ProgramService) := by
  have h := psView_Update r a b c d ht
  simp only [psView, psStep, hs, Nat.zero_mul, Nat.zero_add, true_and, if_true,
    Prod.mk.injEq] at h
  obtain ⟨h1, h2, h3⟩ := h
  refine ⟨h1, by rw [h2, h1], ?_, ?_⟩
  · intro he
    rw [h1] at he
    rw [h3, if_pos ((sameLoop_eq_true _ _).mpr he), h1, he]
  · intro hne
    rw [h1] at hne
    rw [h3, if_neg (fun hh => hne ((sameLoop_eq_true _ _).mp hh))]

/-- Witness of C1: the first `"AB"` group decoded by the empty decoder. -/
theorem C1_ps_round_check_after_write_witness :
    (0 >>> 12 = 0 ∧ 0 &&& 0x3 = 0) ∧
      ((Update RDS.empty 0 0 0 0x4142).ps1 =
          aset (aset RDS.empty.ps1 0 (psChars 0x4142).1) 1 (psChars 0x4142).2 ∧
        (Update RDS.empty 0 0 0 0x4142).ps2 = (Update RDS.empty 0 0 0 0x4142).ps1 ∧
        ((Update RDS.empty 0 0 0 0x4142).ps1 = RDS.empty.ps2 →
          (Update RDS.empty 0 0 0 0x4142).ProgramService =
            List.ofFn (Update RDS.empty 0 0 0 0x4142).ps1) ∧
        ((Update RDS.empty 0 0 0 0x4142).ps1 ≠ RDS.empty.ps2 →
          (Update RDS.empty 0 0 0 0x4142).ProgramService = RDS.empty.ProgramService)) :=
  ⟨by decide, C1_ps_round_check_after_write RDS.empty 0 0 0 0x4142 (by decide) (by decide)⟩

/-- Counterexample to C1 as stated: in the empty decoder the working buffer
equals the snapshot (both all zero), so a check on the pre-write buffer would
commit eight zero bytes and leave the snapshot all zero; decoding the segment-0
group `"AB"` commits nothing and leaves `"AB"` followed by six zero bytes in
the snapshot. -/
theorem C1_counterexample :
    (0 >>> 12 = 0 ∧ 0 &&& 0x3 = 0) ∧ RDS.empty.ps1 = RDS.empty.ps2 ∧
      (Update RDS.empty 0 0 0 0x4142).ProgramService ≠ List.ofFn RDS.empty.ps1 ∧
      (Update RDS.empty 0 0 0 0x4142).ProgramService = [] ∧
      List.ofFn (Update RDS.empty 0 0 0 0x4142).ps2 = [65, 66, 0, 0, 0, 0, 0, 0] ∧
      List.ofFn RDS.empty.ps1 = [0, 0, 0, 0, 0, 0, 0, 0] := by
  refine ⟨by decide, rfl, by decide, by decide, by decide, by decide⟩

/-- C2: for every decoder state and every 8-character name `X` of 7-bit
characters, decoding the type-0 groups that carry segments 0, 1, 2, 3 of `X`,
then the same four segments again, and then the segment-0 group of `X` that
opens the next round, leaves `ProgramService` equal to `X`. -/
theorem C2_two_identical_rounds_commit (r : RDS) (X : Fin 8 → Nat) (hX : ∀ i, X i < 128)
    (g0 g1 g2 g3 g4 g5 g6 g7 g8 : Group)
    (h0 : carriesPS X 0 g0) (h1 : carriesPS X 1 g1) (h2 : carriesPS X 2 g2)
    (h3 : carriesPS X 3 g3) (h4 : carriesPS X 0 g4) (h5 : carriesPS X 1 g5)
    (h6 : carriesPS X 2 g6) (h7 : carriesPS X 3 g7) (h8 : carriesPS X 0 g8) :
    (decodeAll r [g0, g1, g2, g3, g4, g5, g6, g7, g8]).ProgramService = List.ofFn X := by
  show (decode (decode (decode (decode (decode (decode (decode (decode (decode r g0) g1) g2) g3)
    g4) g5) g6) g7) g8).ProgramService = List.ofFn X
  obtain ⟨p1, -⟩ := decode_round r X hX g0 g1 g2 g3 h0 h1 h2 h3
  obtain ⟨p2, q2⟩ := decode_round (decode (decode (decode (decode r g0) g1) g2) g3) X hX
    g4 g5 g6 g7 h4 h5 h6 h7
  rw [p1, psPut_self] at q2
  have e := decode_carries (decode (decode (decode (decode (decode (decode (decode (decode r g0)
    g1) g2) g3) g4) g5) g6) g7) X hX 0 g8 h8
  simp only [psView, Prod.mk.injEq] at e
  obtain ⟨-, -, e3⟩ := e
  rw [e3, p2, q2, psPut_self, if_pos ⟨trivial, (sameLoop_eq_true _ _).mpr rfl⟩]

/-- Witness of C2: "ABCDEFGH" broadcast to the empty decoder. -/
theorem C2_two_identical_rounds_commit_witness :
    (decodeAll RDS.empty (roundAH ++ roundAH ++ [⟨0, 0, 0, 0x4142⟩])).ProgramService =
      List.ofFn nameAH :=
  C2_two_identical_rounds_commit RDS.empty nameAH (by decide)
    ⟨0, 0, 0, 0x4142⟩ ⟨0, 1, 0, 0x4344⟩ ⟨0, 2, 0, 0x4546⟩ ⟨0, 3, 0, 0x4748⟩
    ⟨0, 0, 0, 0x4142⟩ ⟨0, 1, 0, 0x4344⟩ ⟨0, 2, 0, 0x4546⟩ ⟨0, 3, 0, 0x4748⟩
    ⟨0, 0, 0, 0x4142⟩ (by decide) (by decide) (by decide) (by decide) (by decide) (by decide)
    (by decide) (by decide) (by decide)

/-- C3 (amended): for every decoder state and every two 8-character rounds `X`
and `Y` of 7-bit characters that differ in exactly one 2-character segment `k`:
after decoding the four segments of `X` in order and then the four segments of
`Y` in order, the segment-0 group that closes the second round does not commit
(`ProgramService` after that group equals `ProgramService` before it) provided
`k` is 1, 2 or 3, or the two characters of the closing group are not segment 0
of `Y`. -/
theorem C3_differing_round_not_committed (r : RDS) (X Y : Fin 8 → Nat)
    (hX : ∀ i, X i < 128) (hY : ∀ i, Y i < 128) (k : Nat) (hk : differOnlyInSeg X Y k)
    (g0 g1 g2 g3 g4 g5 g6 g7 gc : Group)
    (h0 : carriesPS X 0 g0) (h1 : carriesPS X 1 g1) (h2 : carriesPS X 2 g2)
    (h3 : carriesPS X 3 g3) (h4 : carriesPS Y 0 g4) (h5 : carriesPS Y 1 g5)
    (h6 : carriesPS Y 2 g6) (h7 : carriesPS Y 3 g7)
    (hc : gc.b >>> 12 = 0 ∧ gc.b &&& 0x3 = 0)
    (hclose : k ≠ 0 ∨ psChars gc.d ≠ (aget Y 0, aget Y 1)) :
    (decodeAll r [g0, g1, g2, g3, g4, g5, g6, g7, gc]).ProgramService =
      (decodeAll r [g0, g1, g2, g3, g4, g5, g6, g7]).ProgramService := by
  show (decode (decode (decode (decode (decode (decode (decode (decode (decode r g0) g1) g2) g3)
    g4) g5) g6) g7) gc).ProgramService =
    (decode (decode (decode (decode (decode (decode (decode (decode r g0) g1) g2) g3)
    g4) g5) g6) g7).ProgramService
  obtain ⟨p1, -⟩ := decode_round r X hX g0 g1 g2 g3 h0 h1 h2 h3
  obtain ⟨p2, q2⟩ := decode_round (decode (decode (decode (decode r g0) g1) g2) g3) Y hY
    g4 g5 g6 g7 h4 h5 h6 h7
  rw [p1] at q2
  generalize decode (decode (decode (decode (decode (decode (decode (decode r g0) g1) g2) g3)
    g4) g5) g6) g7 = s at p2 q2 ⊢
  have e := psView_Update s gc.a gc.b gc.c gc.d hc.1
  simp only [psView, psStep, hc.2, Nat.zero_mul, Nat.zero_add, true_and, if_true,
    Prod.mk.injEq] at e
  obtain ⟨-, -, e3⟩ := e
  unfold decode
  rw [e3, if_neg]
  rw [Bool.not_eq_true, sameLoop_eq_false, p2, q2]
  intro heq
  obtain ⟨hk4, hdiff, -⟩ := hk
  rcases hclose with hk0 | hch
  · have ha := congrFun heq ⟨k * 2, by omega⟩
    have hb := congrFun heq ⟨k * 2 + 1, by omega⟩
    have n1 : ¬ k * 2 = 0 * 2 + 1 := by omega
    have n2 : ¬ k * 2 = 0 * 2 := by omega
    have n3 : ¬ k * 2 + 1 = 0 * 2 + 1 := by omega
    have n4 : ¬ k * 2 + 1 = 0 * 2 := by omega
    have n5 : ¬ k * 2 = 1 := by omega
    have n6 : ¬ k * 2 = 0 := by omega
    have n7 : ¬ k * 2 + 1 = 1 := by omega
    have n8 : ¬ k * 2 + 1 = 0 := by omega
    simp only [psPut, aset_apply, n1, n2, n3, n4, n5, n6, n7, n8, if_false] at ha hb
    have l1 : k * 2 < 8 := by omega
    have l2 : k * 2 + 1 < 8 := by omega
    rw [aget_lt X (k * 2) l1, aget_lt Y (k * 2) l1, aget_lt X (k * 2 + 1) l2,
      aget_lt Y (k * 2 + 1) l2] at hdiff
    rcases hdiff with hd | hd
    · exact hd ha.symm
    · exact hd hb.symm
  · apply hch
    have ha := congrFun heq ⟨0, by omega⟩
    have hb := congrFun heq ⟨1, by omega⟩
    simp only [psPut, aset_apply] at ha hb
    simp only [psChars, Prod.mk.injEq]
    exact ⟨by simpa using ha, by simpa using hb⟩

/-- Witness of C3: "ABCDEFGH", then "ZZCDEFGH" (segment 0 differs), closed by
the segment-0 group `"AB"`. -/
theorem C3_differing_round_not_committed_witness :
    (decodeAll RDS.empty
        [⟨0, 0, 0, 0x4142⟩, ⟨0, 1, 0, 0x4344⟩, ⟨0, 2, 0, 0x4546⟩, ⟨0, 3, 0, 0x4748⟩,
          ⟨0, 0, 0, 0x5A5A⟩, ⟨0, 1, 0, 0x4344⟩, ⟨0, 2, 0, 0x4546⟩, ⟨0, 3, 0, 0x4748⟩,
          ⟨0, 0, 0, 0x4142⟩]).ProgramService =
      (decodeAll RDS.empty
        [⟨0, 0, 0, 0x4142⟩, ⟨0, 1, 0, 0x4344⟩, ⟨0, 2, 0, 0x4546⟩, ⟨0, 3, 0, 0x4748⟩,
          ⟨0, 0, 0, 0x5A5A⟩, ⟨0, 1, 0, 0x4344⟩, ⟨0, 2, 0, 0x4546⟩,
          ⟨0, 3, 0, 0x4748⟩]).ProgramService :=
  C3_differing_round_not_committed RDS.empty nameAH nameZZ (by decide) (by decide) 0
    (by decide)
    ⟨0, 0, 0, 0x4142⟩ ⟨0, 1, 0, 0x4344⟩ ⟨0, 2, 0, 0x4546⟩ ⟨0, 3, 0, 0x4748⟩
    ⟨0, 0, 0, 0x5A5A⟩ ⟨0, 1, 0, 0x4344⟩ ⟨0, 2, 0, 0x4546⟩ ⟨0, 3, 0, 0x4748⟩
    ⟨0, 0, 0, 0x4142⟩ (by decide) (by decide) (by decide) (by decide) (by decide) (by decide)
    (by decide) (by decide) (by decide) (Or.inr (by decide))

set_option maxRecDepth 100000 in
/-- Counterexample to C3 as stated: "ABCDEFGH" and "ZZCDEFGH" differ in segment
0 only.  After one round of each, starting from the empty decoder, nothing is
committed; the closing segment-0 group `"ZZ"` then commits "ZZCDEFGH", a name
of which only one complete round was received. -/
theorem C3_counterexample :
    differOnlyInSeg nameAH nameZZ 0 ∧ carriesRound nameAH roundAH ∧
      carriesRound nameZZ roundZZ ∧ carriesPS nameZZ 0 ⟨0, 0, 0, 0x5A5A⟩ ∧
      (decodeAll RDS.empty (roundAH ++ roundZZ)).ProgramService = [] ∧
      (decodeAll RDS.empty (roundAH ++ roundZZ ++ [⟨0, 0, 0, 0x5A5A⟩])).ProgramService =
        [90, 90, 67, 68, 69, 70, 71, 72] := by
  refine ⟨by decide, by decide, by decide, by decide, by decide, by decide⟩

/-- C4: committed values change only on slot-0 writes: for every state, a
type-0 group with `b & 0x3 != 0` leaves `ProgramService` and the snapshot `ps2`
unchanged, and a type-2 group with `b & 0xF != 0` leaves `Radiotext` and the
snapshot `rt2` unchanged. -/
theorem C4_commit_only_on_slot_zero (r : RDS) (a b c d : Nat) :
    (b >>> 12 = 0 → b &&& 0x3 ≠ 0 →
        (Update r a b c d).ProgramService = r.ProgramService ∧ (Update r a b c d).ps2 = r.ps2) ∧
      (b >>> 12 = 2 → b &&& 0xf ≠ 0 →
        (Update r a b c d).Radiotext = r.Radiotext ∧ (Update r a b c d).rt2 = r.rt2) := by
  constructor
  · intro ht hs
    have h := psView_Update r a b c d ht
    have hidx : ¬ (b &&& 0x3) * 2 = 0 := by omega
    simp only [psView, psStep, hidx, false_and, if_false, Prod.mk.injEq] at h
    exact ⟨h.2.2, h.2.1⟩
  · intro ht hs
    have h := rtView_Update r a b c d ht
    have hidx : ¬ (b &&& 0xf) * 4 = 0 := by omega
    simp only [rtView, rtStep, hidx, false_and, if_false, Prod.mk.injEq] at h
    exact ⟨h.2.2, h.2.1⟩

/-- Witness of C4: the segment-1 groups `b = 0x0001` and `b = 0x2001` decoded by
the empty decoder. -/
theorem C4_commit_only_on_slot_zero_witness :
    ((Update RDS.empty 0 0x0001 0 0x4344).ProgramService = RDS.empty.ProgramService ∧
        (Update RDS.empty 0 0x0001 0 0x4344).ps2 = RDS.empty.ps2) ∧
      ((Update RDS.empty 0 0x2001 0x4f0d 0x5858).Radiotext = RDS.empty.Radiotext ∧
        (Update RDS.empty 0 0x2001 0x4f0d 0x5858).rt2 = RDS.empty.rt2) :=
  ⟨(C4_commit_only_on_slot_zero RDS.empty 0 0x0001 0 0x4344).1 (by decide) (by decide),
    (C4_commit_only_on_slot_zero RDS.empty 0 0x2001 0x4f0d 0x5858).2 (by decide) (by decide)⟩

/-! ## Radiotext -/

theorem decode_carriesRT (r : RDS) (seg c d : Nat) (g : Group) (h : carriesRT seg c d g) :
    rtView (decode r g) = rtStep (rtView r) seg c d := by
  obtain ⟨ht, hs, hc, hd⟩ := h
  unfold decode
  rw [rtView_Update r g.a g.b g.c g.d ht, hc, hd]
  have e : seg &&& 0xf = seg := by
    rw [← hs, Nat.and_assoc, Nat.and_self]
  simp only [rtStep, hs, e]

theorem rtWrite_below (buf : Fin 64 → Nat) (idx m0 m1 m2 m3 : Nat) (j : Fin 64)
    (hj : j.val < idx) : rtWrite buf idx m0 m1 m2 m3 j = buf j := by
  simp only [rtWrite]
  split_ifs <;> first | rfl | omega

theorem rtWrite_no_cr (buf : Fin 64 → Nat) (idx m0 m1 m2 m3 : Nat) (j : Fin 64)
    (h0 : m0 ≠ 0x0d) (h1 : m1 ≠ 0x0d) (h2 : m2 ≠ 0x0d) (h3 : m3 ≠ 0x0d) :
    rtWrite buf idx m0 m1 m2 m3 j =
      if j.val = idx + 3 then m3 else if j.val = idx + 2 then m2
      else if j.val = idx + 1 then m1 else if j.val = idx then m0 else buf j := by
  simp only [rtWrite, if_neg h0, if_neg h1, if_neg h2, if_neg h3]
  simp

theorem rtWrite_hello_ocr (buf : Fin 64 → Nat) :
    rtWrite (rtWrite buf 0 72 69 76 76) 4 79 13 88 88 = helloBuf := by
  funext j
  have e : rtWrite buf 0 72 69 76 76 j = _ :=
    rtWrite_no_cr buf 0 72 69 76 76 j (by decide) (by decide) (by decide) (by decide)
  have c2 : ¬ (88 : Nat) = 13 := by decide
  have c3 : (13 : Nat) = 13 := rfl
  simp only [rtWrite, c2, c3, if_true, if_false] at e ⊢
  rw [e]
  simp only [helloBuf]
  split_ifs <;> first | rfl | omega

theorem rtWrite_hello_prefix (m2 m3 : Nat) (j : Fin 64) (hj : j.val < 6) :
    rtWrite (rtWrite helloBuf 8 88 88 m2 m3) 0 72 69 76 76 j = helloBuf j := by
  rw [rtWrite_no_cr _ 0 72 69 76 76 j (by decide) (by decide) (by decide) (by decide),
    rtWrite_below helloBuf 8 88 88 m2 m3 j (by omega)]
  simp only [helloBuf]
  split_ifs <;> first | rfl | omega

theorem takeWhile_take_of_stop {α : Type} (p : α → Bool) :
    ∀ (k : Nat) (l : List α), (∃ x ∈ l.take k, p x = false) →
      l.takeWhile p = (l.take k).takeWhile p
  | _, [], _ => by simp
  | 0, _ :: _, h => by simp at h
  | k + 1, a :: l, h => by
    rw [List.take_succ_cons, List.takeWhile_cons, List.takeWhile_cons]
    cases hpa : p a with
    | true =>
      obtain ⟨x, hx, hpx⟩ := h
      rw [List.take_succ_cons, List.mem_cons] at hx
      rcases hx with rfl | hx
      · rw [hpa] at hpx
        cases hpx
      · simp [takeWhile_take_of_stop p k l ⟨x, hx, hpx⟩]
    | false => simp

theorem takeWhile_hello (W : Fin 64 → Nat) (h : ∀ j : Fin 64, j.val < 6 → W j = helloBuf j) :
    (List.ofFn W).takeWhile (fun x => x ≠ 0x0d) = [72, 69, 76, 76, 79] := by
  have e : (List.ofFn W).take 6 = [72, 69, 76, 76, 79, 13] := by
    rw [List.ofFn_eq_map, ← List.map_take]
    have : (List.finRange 64).take 6 = [0, 1, 2, 3, 4, 5] := by decide
    rw [this]
    simp only [List.map_cons, List.map_nil]
    rw [h 0 (by decide), h 1 (by decide), h 2 (by decide), h 3 (by decide), h 4 (by decide),
      h 5 (by decide)]
    rfl
  rw [takeWhile_take_of_stop _ 6 _ ⟨13, by rw [e]; simp, by simp⟩, e]
  simp [List.takeWhile_cons]

theorem rtStep_hell (v : (Fin 64 → Nat) × (Fin 64 → Nat) × List Nat) :
    rtStep v 0 0x4845 0x4c4c =
      (rtWrite v.1 0 72 69 76 76, rtWrite v.1 0 72 69 76 76,
        if sameLoop (rtWrite v.1 0 72 69 76 76) v.2.1 = true then
          (List.ofFn v.2.1).takeWhile (fun x => x ≠ 0x0d)
        else v.2.2) := by
  have m0 : ((0x4845 >>> 8) &&& 0x7f) % 256 = 72 := by decide
  have m1 : (0x4845 &&& 0x7f) % 256 = 69 := by decide
  have m2 : ((0x4c4c >>> 8) &&& 0x7f) % 256 = 76 := by decide
  have m3 : (0x4c4c &&& 0x7f) % 256 = 76 := by decide
  have i0 : (0 &&& 0xf) * 4 = 0 := by decide
  simp only [rtStep, m0, m1, m2, m3, i0, true_and, if_true]

theorem rtStep_ocr (v : (Fin 64 → Nat) × (Fin 64 → Nat) × List Nat) :
    rtStep v 1 0x4f0d 0x5858 = (rtWrite v.1 4 79 13 88 88, v.2.1, v.2.2) := by
  have m0 : ((0x4f0d >>> 8) &&& 0x7f) % 256 = 79 := by decide
  have m1 : (0x4f0d &&& 0x7f) % 256 = 13 := by decide
  have m2 : ((0x5858 >>> 8) &&& 0x7f) % 256 = 88 := by decide
  have m3 : (0x5858 &&& 0x7f) % 256 = 88 := by decide
  have i0 : (1 &&& 0xf) * 4 = 4 := by decide
  have i1 : ¬ (4 = 0) := by decide
  simp only [rtStep, m0, m1, m2, m3, i0, i1, false_and, if_false]

theorem rtStep_pad (v : (Fin 64 → Nat) × (Fin 64 → Nat) × List Nat) (pad : Nat) :
    rtStep v 2 0x5858 pad =
      (rtWrite v.1 8 88 88 (((pad >>> 8) &&& 0x7f) % 256) ((pad &&& 0x7f) % 256), v.2.1,
        v.2.2) := by
  have m2 : ((0x5858 >>> 8) &&& 0x7f) % 256 = 88 := by decide
  have m3 : (0x5858 &&& 0x7f) % 256 = 88 := by decide
  have i0 : (2 &&& 0xf) * 4 = 8 := by decide
  have i1 : ¬ (8 = 0) := by decide
  simp only [rtStep, m2, m3, i0, i1, false_and, if_false]

/-- C5: whenever a type-2 segment-0 group commits (the working buffer, after
the group's four bytes are stored, equals the snapshot), `Radiotext` equals the
committed 64-byte buffer's content up to but excluding its first 0x0D byte, or
all 64 bytes if it has none; when it does not commit, `Radiotext` is unchanged.
And from any state, decoding type-2 groups for segments 0, 1, 2 carrying
`"HELL"`, `"O\rXX"`, `"XX"` plus two pad bytes, in order, twice, followed by
the segment-0 group once more, yields `Radiotext` exactly `"HELLO"`. -/
theorem C5_radiotext_truncated_at_first_cr :
    (∀ (r : RDS) (a b c d : Nat), b >>> 12 = 2 → b &&& 0xf = 0 →
        ((Update r a b c d).rt1 = r.rt2 →
          (Update r a b c d).Radiotext =
            (List.ofFn (Update r a b c d).rt2).takeWhile (fun x => x ≠ 0x0d)) ∧
        ((Update r a b c d).rt1 ≠ r.rt2 → (Update r a b c d).Radiotext = r.Radiotext)) ∧
      (∀ (r : RDS) (pad : Nat) (g0 g1 g2 g3 g4 g5 g6 : Group),
        carriesRT 0 0x4845 0x4c4c g0 → carriesRT 1 0x4f0d 0x5858 g1 →
        carriesRT 2 0x5858 pad g2 → carriesRT 0 0x4845 0x4c4c g3 →
        carriesRT 1 0x4f0d 0x5858 g4 → carriesRT 2 0x5858 pad g5 →
        carriesRT 0 0x4845 0x4c4c g6 →
        (decodeAll r [g0, g1, g2, g3, g4, g5, g6]).Radiotext = [72, 69, 76, 76, 79]) := by
  constructor
  · intro r a b c d ht hs
    have h := rtView_Update r a b c d ht
    simp only [rtView, rtStep, hs, Nat.zero_mul, true_and, if_true, Prod.mk.injEq] at h
    obtain ⟨h1, h2, h3⟩ := h
    constructor
    · intro he
      rw [h3, h2, ← h1, if_pos ((sameLoop_eq_true _ _).mpr (h1 ▸ he)), he]
    · intro hne
      rw [h3, if_neg]
      intro hh
      exact hne (h1 ▸ (sameLoop_eq_true _ _).mp hh)
  · intro r pad g0 g1 g2 g3 g4 g5 g6 h0 h1 h2 h3 h4 h5 h6
    show (decode (decode (decode (decode (decode (decode (decode r g0) g1) g2) g3) g4) g5)
      g6).Radiotext = _
    have e0 := decode_carriesRT r 0 _ _ g0 h0
    have e1 := decode_carriesRT (decode r g0) 1 _ _ g1 h1
    have e2 := decode_carriesRT (decode (decode r g0) g1) 2 _ _ g2 h2
    have e3 := decode_carriesRT (decode (decode (decode r g0) g1) g2) 0 _ _ g3 h3
    have e4 := decode_carriesRT (decode (decode (decode (decode r g0) g1) g2) g3) 1 _ _ g4 h4
    have e5 := decode_carriesRT (decode (decode (decode (decode (decode r g0) g1) g2) g3) g4)
      2 _ _ g5 h5
    have e6 := decode_carriesRT
      (decode (decode (decode (decode (decode (decode r g0) g1) g2) g3) g4) g5) 0 _ _ g6 h6
    rw [e5, e4, e3, e2, e1, e0] at e6
    simp only [rtStep_hell, rtStep_ocr, rtStep_pad, rtWrite_hello_ocr] at e6
    have e7 := congrArg (fun v => v.2.2) e6
    simp only [rtView] at e7
    rw [e7, if_pos ((sameLoop_eq_true _ _).mpr rfl)]
    exact takeWhile_hello _ (fun j hj => rtWrite_hello_prefix _ _ j hj)

/-- Witness of C5: the all-zero segment-0 group commits in the empty decoder
(the buffer of 64 zero bytes has no carriage return), and the `"HELLO"`
broadcast with pad `"!!"`. -/
theorem C5_radiotext_truncated_at_first_cr_witness :
    (Update RDS.empty 0 0x2000 0 0).Radiotext =
        (List.ofFn (Update RDS.empty 0 0x2000 0 0).rt2).takeWhile (fun x => x ≠ 0x0d) ∧
      (decodeAll RDS.empty
        [⟨0, 0x2000, 0x4845, 0x4c4c⟩, ⟨0, 0x2001, 0x4f0d, 0x5858⟩, ⟨0, 0x2002, 0x5858, 0x2121⟩,
          ⟨0, 0x2000, 0x4845, 0x4c4c⟩, ⟨0, 0x2001, 0x4f0d, 0x5858⟩, ⟨0, 0x2002, 0x5858, 0x2121⟩,
          ⟨0, 0x2000, 0x4845, 0x4c4c⟩]).Radiotext = [72, 69, 76, 76, 79] :=
  ⟨(C5_radiotext_truncated_at_first_cr.1 RDS.empty 0 0x2000 0 0 (by decide) (by decide)).1
      (by decide),
    C5_radiotext_truncated_at_first_cr.2 RDS.empty 0x2121
      ⟨0, 0x2000, 0x4845, 0x4c4c⟩ ⟨0, 0x2001, 0x4f0d, 0x5858⟩ ⟨0, 0x2002, 0x5858, 0x2121⟩
      ⟨0, 0x2000, 0x4845, 0x4c4c⟩ ⟨0, 0x2001, 0x4f0d, 0x5858⟩ ⟨0, 0x2002, 0x5858, 0x2121⟩
      ⟨0, 0x2000, 0x4845, 0x4c4c⟩ (by decide) (by decide) (by decide) (by decide) (by decide)
      (by decide) (by decide)⟩

theorem rtWrite_last_cr (buf : Fin 64 → Nat) (idx : Nat) (m : Fin 4 → Nat) (k : Fin 4)
    (hcr : m k = 0x0d) (hafter : ∀ k2 : Fin 4, k < k2 → m k2 ≠ 0x0d) (j : Fin 64) :
    rtWrite buf idx (m 0) (m 1) (m 2) (m 3) j =
      if idx + k.val < j.val then 32
      else if j.val = idx + 3 then m 3 else if j.val = idx + 2 then m 2
      else if j.val = idx + 1 then m 1 else if j.val = idx then m 0 else buf j := by
  have hc : ∀ n : Nat, (((n : Nat) : Int) ≠ -1 ∧ ((n : Nat) : Int) < (j.val : Int)) ↔ n < j.val := by
    intro n
    omega
  fin_cases k
  · have a1 := hafter 1 (by decide)
    have a2 := hafter 2 (by decide)
    have a3 := hafter 3 (by decide)
    have hcr0 : m 0 = 13 := hcr
    simp only [rtWrite, if_neg a1, if_neg a2, if_neg a3, hcr0, if_true, hc]
    rfl
  · have a2 := hafter 2 (by decide)
    have a3 := hafter 3 (by decide)
    have hcr1 : m 1 = 13 := hcr
    simp only [rtWrite, if_neg a2, if_neg a3, hcr1, if_true, hc]
  · have a3 := hafter 3 (by decide)
    have hcr2 : m 2 = 13 := hcr
    simp only [rtWrite, if_neg a3, hcr2, if_true, hc]
  · have hcr3 : m 3 = 13 := hcr
    simp only [rtWrite, hcr3, if_true, hc]

/-- C6: for every state and every type-2 group, with `idx = (b & 0xF) * 4` and
the four payload bytes `m` (the 7-bit-masked high and low bytes of `c`, then of
`d`): working positions below `idx` are unchanged; if none of the four bytes is
0x0D, positions `idx .. idx+3` hold the four bytes and positions above `idx+3`
are unchanged; if some byte is 0x0D, with `idx + k` the position of the last
such terminator, positions `idx .. idx+k` hold the corresponding payload bytes
and every position after `idx + k`, up to 63, holds a space (0x20), whether or
not `idx` is 0. -/
theorem C6_radiotext_store_and_blank (r : RDS) (a b c d : Nat) (ht : b >>> 12 = 2) :
    (∀ j : Fin 64, j.val < (b &&& 0xf) * 4 → (Update r a b c d).rt1 j = r.rt1 j) ∧
      ((∀ k : Fin 4, rtBytes c d k ≠ 0x0d) →
        (∀ k : Fin 4, aget (Update r a b c d).rt1 ((b &&& 0xf) * 4 + k.val) = rtBytes c d k) ∧
        (∀ j : Fin 64, (b &&& 0xf) * 4 + 3 < j.val → (Update r a b c d).rt1 j = r.rt1 j)) ∧
      (∀ k : Fin 4, rtBytes c d k = 0x0d → (∀ k2 : Fin 4, k < k2 → rtBytes c d k2 ≠ 0x0d) →
        (∀ k1 : Fin 4, k1 ≤ k →
          aget (Update r a b c d).rt1 ((b &&& 0xf) * 4 + k1.val) = rtBytes c d k1) ∧
        (∀ j : Fin 64, (b &&& 0xf) * 4 + k.val < j.val → (Update r a b c d).rt1 j = 32)) := by
  have h := congrArg (fun v => v.1) (rtView_Update r a b c d ht)
  have hw : (Update r a b c d).rt1 =
      rtWrite r.rt1 ((b &&& 0xf) * 4) (rtBytes c d 0) (rtBytes c d 1) (rtBytes c d 2)
        (rtBytes c d 3) := h
  have hidx : (b &&& 0xf) * 4 ≤ 60 := by
    have := @Nat.and_le_right b 0xf
    omega
  rw [hw]
  generalize (b &&& 0xf) * 4 = idx at hidx
  generalize rtBytes c d = m
  refine ⟨fun j hj => rtWrite_below _ _ _ _ _ _ j hj, ?_, ?_⟩
  · intro hno
    constructor
    · intro k
      rw [aget_lt _ _ (by have := k.isLt; omega),
        rtWrite_no_cr _ _ _ _ _ _ _ (hno 0) (hno 1) (hno 2) (hno 3)]
      fin_cases k <;> simp
    · intro j hj
      rw [rtWrite_no_cr _ _ _ _ _ _ _ (hno 0) (hno 1) (hno 2) (hno 3)]
      have := j.isLt
      split_ifs <;> first | rfl | omega
  · intro k hcr hafter
    constructor
    · intro k1 hk1
      rw [aget_lt _ _ (by have := k1.isLt; omega), rtWrite_last_cr _ _ m k hcr hafter]
      have hk1v : k1.val ≤ k.val := hk1
      rw [if_neg (by simp only [Fin.val_mk]; omega)]
      fin_cases k1 <;> simp
    · intro j hj
      rw [rtWrite_last_cr _ _ m k hcr hafter, if_pos hj]

/-- Witness of C6: in the empty decoder, the segment-0 group `"HELL"` (no
terminator) and the segment-1 group `"O\rXX"` (terminator at position 5, the
two `X` bytes after it blanked at once, as is everything up to position 63). -/
theorem C6_radiotext_store_and_blank_witness :
    (Update RDS.empty 0 0x2001 0x4f0d 0x5858).rt1 3 = RDS.empty.rt1 3 ∧
      aget (Update RDS.empty 0 0x2000 0x4845 0x4c4c).rt1 ((0x2000 &&& 0xf) * 4 + (2 : Fin 4).val) =
        rtBytes 0x4845 0x4c4c 2 ∧
      (Update RDS.empty 0 0x2000 0x4845 0x4c4c).rt1 4 = RDS.empty.rt1 4 ∧
      aget (Update RDS.empty 0 0x2001 0x4f0d 0x5858).rt1 ((0x2001 &&& 0xf) * 4 + (1 : Fin 4).val) =
        rtBytes 0x4f0d 0x5858 1 ∧
      (Update RDS.empty 0 0x2001 0x4f0d 0x5858).rt1 6 = 32 ∧
      (Update RDS.empty 0 0x2001 0x4f0d 0x5858).rt1 63 = 32 :=
  ⟨(C6_radiotext_store_and_blank RDS.empty 0 0x2001 0x4f0d 0x5858 (by decide)).1 3 (by decide),
    ((C6_radiotext_store_and_blank RDS.empty 0 0x2000 0x4845 0x4c4c (by decide)).2.1
      (by decide)).1 2,
    ((C6_radiotext_store_and_blank RDS.empty 0 0x2000 0x4845 0x4c4c (by decide)).2.1
      (by decide)).2 4 (by decide),
    ((C6_radiotext_store_and_blank RDS.empty 0 0x2001 0x4f0d 0x5858 (by decide)).2.2 1
      (by decide) (by decide)).1 1 (by decide),
    ((C6_radiotext_store_and_blank RDS.empty 0 0x2001 0x4f0d 0x5858 (by decide)).2.2 1
      (by decide) (by decide)).2 6 (by decide),
    ((C6_radiotext_store_and_blank RDS.empty 0 0x2001 0x4f0d 0x5858 (by decide)).2.2 1
      (by decide) (by decide)).2 63 (by decide)⟩

/-! ## Call sign -/

theorem csView_update_pi_switch (r : RDS) (a : Nat) :
    csView (update_pi_switch r a) = (csCand r.cs1 a, r.cs2, r.CallSign) := by
  unfold update_pi_switch csCand
  dsimp only
  split_ifs <;> rfl

theorem csView_update_pi_round (r : RDS) :
    csView (update_pi_round r) =
      (r.cs1, r.cs1, if sameLoop r.cs1 r.cs2 = true then r.cs2 else r.CallSign) := by
  unfold update_pi_round
  dsimp only
  split_ifs <;> simp [csView, copyLoop_eq]

theorem csView_update_pi (r : RDS) (a : Nat) : csView (update_pi r a) = csStep (csView r) a := by
  unfold update_pi
  dsimp only
  have h := csView_update_pi_switch { r with ProgramInformation := a } a
  simp only [csView, Prod.mk.injEq] at h
  rw [csView_update_pi_round, h.1, h.2.1, h.2.2]
  rfl

theorem ProgramInformation_update_pi (r : RDS) (a : Nat) :
    (update_pi r a).ProgramInformation = a := by
  unfold update_pi update_pi_round update_pi_switch
  dsimp only
  split_ifs <;> rfl

theorem ofFn_four (f : Fin 4 → Nat) : List.ofFn f = [f 0, f 1, f 2, f 3] := by
  simp only [List.ofFn_succ, List.ofFn_zero]
  rfl

theorem cs1_update_pi (r : RDS) (a : Nat) : (update_pi r a).cs1 = csCand r.cs1 a :=
  congrArg (fun v => v.1) (csView_update_pi r a)

theorem cs1_north_american (r : RDS) (a : Nat) (h1 : 4096 ≤ a) (h2 : a ≤ 39247)
    (h3 : a &&& 0x0F00 ≠ 0) (h4 : a &&& 0x00FF ≠ 0) :
    List.ofFn (update_pi r a).cs1 =
      [if a < 21672 then 75 else 87,
        65 + (if a < 21672 then a - 4096 else a - 21672) / 676,
        65 + (if a < 21672 then a - 4096 else a - 21672) % 676 / 26,
        65 + (if a < 21672 then a - 4096 else a - 21672) % 26] := by
  rw [cs1_update_pi, ofFn_four]
  unfold csCand
  rw [if_neg h3, if_neg h4, if_pos ⟨h1, h2⟩]
  have v0 : ((0 : Fin 4) : Nat) = 0 := rfl
  have v1 : ((1 : Fin 4) : Nat) = 1 := rfl
  have v2 : ((2 : Fin 4) : Nat) = 2 := rfl
  have v3 : ((3 : Fin 4) : Nat) = 3 := rfl
  simp only [aset_apply, v0, v1, v2, v3]
  by_cases hlt : a < 21672
  · simp only [if_pos hlt]
    have e : (a + 65536 - 4096) % 65536 = a - 4096 := by omega
    rw [e]
    simp only [List.cons.injEq, and_true]
    refine ⟨?_, ?_, ?_, ?_⟩
    · simp
    · simp
      omega
    · simp
      omega
    · simp
      omega
  · simp only [if_neg hlt]
    have e : (a + 65536 - 21672) % 65536 = a - 21672 := by omega
    rw [e]
    simp only [List.cons.injEq, and_true]
    refine ⟨?_, ?_, ?_, ?_⟩
    · simp
    · simp
      omega
    · simp
      omega
    · simp
      omega

/-- C7: for every PI `a` with `4096 <= a <= 39247` that matches neither earlier
class (`a & 0x0F00 != 0` and `a & 0x00FF != 0`), `update_pi` writes the
North-American candidate: first letter `K` with `base = a - 4096` if
`a < 21672`, otherwise `W` with `base = a - 21672`, followed by the letters
`65 + base/676`, `65 + (base mod 676)/26` and `65 + (base mod 26)`; `base` is at
most 17575, every digit is in 0..25 (so the 8-bit additions do not wrap) and
all four bytes are in `A`..`Z`.  PI = 21672 gives "WAAA" and the highest code
PI = 39247 gives "WZZZ". -/
theorem C7_north_american_call_sign :
    (∀ (r : RDS) (a : Nat), 4096 ≤ a → a ≤ 39247 → a &&& 0x0F00 ≠ 0 → a &&& 0x00FF ≠ 0 →
        List.ofFn (update_pi r a).cs1 =
            [if a < 21672 then 75 else 87,
              65 + (if a < 21672 then a - 4096 else a - 21672) / 676,
              65 + (if a < 21672 then a - 4096 else a - 21672) % 676 / 26,
              65 + (if a < 21672 then a - 4096 else a - 21672) % 26] ∧
          (if a < 21672 then a - 4096 else a - 21672) ≤ 17575 ∧
          (if a < 21672 then a - 4096 else a - 21672) / 676 ≤ 25 ∧
          (if a < 21672 then a - 4096 else a - 21672) % 676 / 26 ≤ 25 ∧
          (if a < 21672 then a - 4096 else a - 21672) % 26 ≤ 25 ∧
          ∀ x ∈ List.ofFn (update_pi r a).cs1, 65 ≤ x ∧ x ≤ 90) ∧
      (∀ r : RDS, List.ofFn (update_pi r 21672).cs1 = [87, 65, 65, 65]) ∧
      (∀ r : RDS, List.ofFn (update_pi r 39247).cs1 = [87, 90, 90, 90]) := by
  refine ⟨?_, ?_, ?_⟩
  · intro r a h1 h2 h3 h4
    have hb : (if a < 21672 then a - 4096 else a - 21672) ≤ 17575 := by
      split_ifs <;> omega
    refine ⟨cs1_north_american r a h1 h2 h3 h4, hb, ?_, ?_, ?_, ?_⟩
    · omega
    · omega
    · omega
    · rw [cs1_north_american r a h1 h2 h3 h4]
      intro x hx
      simp only [List.mem_cons, List.mem_singleton, List.not_mem_nil, or_false] at hx
      rcases hx with rfl | rfl | rfl | rfl
      · split_ifs <;> omega
      · omega
      · omega
      · omega
  · intro r
    exact cs1_north_american r 21672 (by decide) (by decide) (by decide) (by decide)
  · intro r
    exact cs1_north_american r 39247 (by decide) (by decide) (by decide) (by decide)

/-- Witness of C7: PI = 4353 (0x1101), the lowest code that reaches the
North-American case, gives "KAJX". -/
theorem C7_north_american_call_sign_witness :
    List.ofFn (update_pi RDS.empty 4353).cs1 = [75, 65, 74, 88] :=
  (C7_north_american_call_sign.1 RDS.empty 4353 (by decide) (by decide) (by decide)
    (by decide)).1

theorem cs1_regional (r : RDS) (a : Nat) (h : a &&& 0x0F00 = 0) :
    List.ofFn (update_pi r a).cs1 =
      [65, 65 + ((a >>> 12) &&& 0xf), 65 + ((a >>> 4) &&& 0xf), 65 + (a &&& 0xf)] := by
  rw [cs1_update_pi, ofFn_four]
  unfold csCand
  rw [if_pos h]
  have v0 : ((0 : Fin 4) : Nat) = 0 := rfl
  have v1 : ((1 : Fin 4) : Nat) = 1 := rfl
  have v2 : ((2 : Fin 4) : Nat) = 2 := rfl
  have v3 : ((3 : Fin 4) : Nat) = 3 := rfl
  have b1 := @Nat.and_le_right (a >>> 12) 0xf
  have b2 := @Nat.and_le_right (a >>> 4) 0xf
  have b3 := @Nat.and_le_right a 0xf
  simp only [aset_apply, v0, v1, v2, v3, List.cons.injEq, and_true]
  refine ⟨?_, ?_, ?_, ?_⟩
  · simp
  · simp
    omega
  · simp
    omega
  · simp
    omega

theorem cs1_test_mode (r : RDS) (a : Nat) (h1 : a &&& 0x0F00 ≠ 0) (h2 : a &&& 0x00FF = 0) :
    List.ofFn (update_pi r a).cs1 =
      [65, 70, 65 + ((a >>> 12) &&& 0xf), 65 + ((a >>> 8) &&& 0xf)] := by
  rw [cs1_update_pi, ofFn_four]
  unfold csCand
  rw [if_neg h1, if_pos h2]
  have v0 : ((0 : Fin 4) : Nat) = 0 := rfl
  have v1 : ((1 : Fin 4) : Nat) = 1 := rfl
  have v2 : ((2 : Fin 4) : Nat) = 2 := rfl
  have v3 : ((3 : Fin 4) : Nat) = 3 := rfl
  have b1 := @Nat.and_le_right (a >>> 12) 0xf
  have b2 := @Nat.and_le_right (a >>> 8) 0xf
  simp only [aset_apply, v0, v1, v2, v3, List.cons.injEq, and_true]
  refine ⟨?_, ?_, ?_, ?_⟩
  · simp
  · simp
  · simp
    omega
  · simp
    omega

/-- C8 (amended): PI = 4096 is 0x1000, which has `a & 0x0F00 = 0`; it is derived
by the regional class, tried before the North-American range: after
`update_pi(4096)` the call-sign candidate is "ABAA", in every state. -/
theorem C8_pi_4096_regional (r : RDS) : List.ofFn (update_pi r 4096).cs1 = [65, 66, 65, 65] :=
  cs1_regional r 4096 (by decide)

/-- Counterexample to C8 as stated: in the empty decoder `update_pi(4096)`
leaves the candidate "ABAA", not "KAAA". -/
theorem C8_counterexample :
    List.ofFn (update_pi RDS.empty 4096).cs1 = [65, 66, 65, 65] ∧
      List.ofFn (update_pi RDS.empty 4096).cs1 ≠ [75, 65, 65, 65] := by
  refine ⟨by decide, by decide⟩

/-- C9: for every PI `a` with `a & 0x0F00 = 0` the call-sign candidate is the
regional form `A`, `65+((a>>12)&0xF)`, `65+((a>>4)&0xF)`, `65+(a&0xF)`; for every
`a` with `a & 0x0F00 != 0` and `a & 0x00FF = 0` it is the test-mode form `A`,
`F`, `65+((a>>12)&0xF)`, `65+((a>>8)&0xF)`.  The classes are tried in this order,
before the North-American range, so PI = 0x1000 yields the regional form
"ABAA". -/
theorem C9_regional_and_test_mode_call_sign :
    (∀ (r : RDS) (a : Nat), a &&& 0x0F00 = 0 →
        List.ofFn (update_pi r a).cs1 =
          [65, 65 + ((a >>> 12) &&& 0xf), 65 + ((a >>> 4) &&& 0xf), 65 + (a &&& 0xf)]) ∧
      (∀ (r : RDS) (a : Nat), a &&& 0x0F00 ≠ 0 → a &&& 0x00FF = 0 →
        List.ofFn (update_pi r a).cs1 =
          [65, 70, 65 + ((a >>> 12) &&& 0xf), 65 + ((a >>> 8) &&& 0xf)]) ∧
      (∀ r : RDS, List.ofFn (update_pi r 0x1000).cs1 = [65, 66, 65, 65]) :=
  ⟨cs1_regional, cs1_test_mode, fun r => cs1_regional r 0x1000 (by decide)⟩

/-- Witness of C9: PI = 0x20C5 is regional ("ACMF") and PI = 0x3400 is test
mode ("AFDE"). -/
theorem C9_regional_and_test_mode_call_sign_witness :
    List.ofFn (update_pi RDS.empty 0x20C5).cs1 = [65, 67, 77, 70] ∧
      List.ofFn (update_pi RDS.empty 0x3400).cs1 = [65, 70, 68, 69] :=
  ⟨C9_regional_and_test_mode_call_sign.1 RDS.empty 0x20C5 (by decide),
    C9_regional_and_test_mode_call_sign.2.1 RDS.empty 0x3400 (by decide) (by decide)⟩

theorem csCand_no_class (cs1 : Fin 4 → Nat) (a : Nat) (h1 : a &&& 0x0F00 ≠ 0)
    (h2 : a &&& 0x00FF ≠ 0) (h3 : a < 4096 ∨ 39247 < a) : csCand cs1 a = cs1 := by
  unfold csCand
  rw [if_neg h1, if_neg h2, if_neg (by omega)]

theorem update_pi_no_class (r : RDS) (a : Nat) (h1 : a &&& 0x0F00 ≠ 0) (h2 : a &&& 0x00FF ≠ 0)
    (h3 : a < 4096 ∨ 39247 < a) :
    (update_pi r a).ProgramInformation = a ∧ (update_pi r a).cs1 = r.cs1 ∧
      (update_pi r a).cs2 = r.cs1 ∧
      (r.cs1 = r.cs2 → (update_pi r a).CallSign = r.cs2) ∧
      (r.cs1 ≠ r.cs2 → (update_pi r a).CallSign = r.CallSign) := by
  have h := csView_update_pi r a
  simp only [csView, csStep, csCand_no_class r.cs1 a h1 h2 h3, Prod.mk.injEq] at h
  obtain ⟨e1, e2, e3⟩ := h
  refine ⟨ProgramInformation_update_pi r a, e1, e2, ?_, ?_⟩
  · intro he
    rw [e3, if_pos ((sameLoop_eq_true _ _).mpr he)]
  · intro hne
    rw [e3, if_neg (fun hh => hne ((sameLoop_eq_true _ _).mp hh))]

/-- C10 (the code at the failing input): PI = 50000 matches none of the three
derivation classes.  Starting from the empty decoder, one group with
PI = 21672 leaves the candidate "WAAA" and no committed call sign; the next
group, with PI = 50000, records `ProgramInformation = 50000` and leaves the
candidate and the snapshot as they were, but commits "WAAA" as `CallSign`. -/
theorem C10_unrecognised_pi_commits_stale_candidate :
    (50000 &&& 0x0F00 ≠ 0 ∧ 50000 &&& 0x00FF ≠ 0 ∧ 39247 < 50000) ∧
      List.ofFn (Update RDS.empty 21672 0x9000 0 0).cs1 = [87, 65, 65, 65] ∧
      List.ofFn (Update RDS.empty 21672 0x9000 0 0).cs2 = [87, 65, 65, 65] ∧
      List.ofFn (Update RDS.empty 21672 0x9000 0 0).CallSign = [0, 0, 0, 0] ∧
      (Update (Update RDS.empty 21672 0x9000 0 0) 50000 0x9000 0 0).ProgramInformation = 50000 ∧
      List.ofFn (Update (Update RDS.empty 21672 0x9000 0 0) 50000 0x9000 0 0).cs1 =
        [87, 65, 65, 65] ∧
      List.ofFn (Update (Update RDS.empty 21672 0x9000 0 0) 50000 0x9000 0 0).cs2 =
        [87, 65, 65, 65] ∧
      List.ofFn (Update (Update RDS.empty 21672 0x9000 0 0) 50000 0x9000 0 0).CallSign =
        [87, 65, 65, 65] := by
  refine ⟨by decide, by decide, by decide, by decide, by decide, by decide, by decide,
    by decide⟩

/-! ## What each routine leaves alone -/

theorem update_pi_frame (r : RDS) (a : Nat) :
    psAll (update_pi r a) = psAll r ∧ rtAll (update_pi r a) = rtAll r ∧
      flagView (update_pi r a) = flagView r ∧ afView (update_pi r a) = afView r ∧
      (update_pi r a).aid = r.aid := by
  unfold update_pi update_pi_round update_pi_switch
  dsimp only
  split_ifs <;> exact ⟨rfl, rfl, rfl, rfl, rfl⟩

theorem update_ps_af_frame (r : RDS) (f : Nat) :
    piAll (update_ps_af r f) = piAll r ∧ psAll (update_ps_af r f) = psAll r ∧
      rtAll (update_ps_af r f) = rtAll r ∧ flagView (update_ps_af r f) = flagView r ∧
      (update_ps_af r f).aid = r.aid := by
  unfold update_ps_af
  split_ifs <;> exact ⟨rfl, rfl, rfl, rfl, rfl⟩

theorem update_ps_altfreqs_frame (r : RDS) (b c : Nat) :
    piAll (update_ps_altfreqs r b c) = piAll r ∧ psAll (update_ps_altfreqs r b c) = psAll r ∧
      rtAll (update_ps_altfreqs r b c) = rtAll r ∧
      flagView (update_ps_altfreqs r b c) = flagView r ∧
      (update_ps_altfreqs r b c).aid = r.aid := by
  unfold update_ps_altfreqs
  split_ifs
  · obtain ⟨a1, a2, a3, a4, a5⟩ := update_ps_af_frame
      (update_ps_af { r with AltFreqs := some (fun _ => none) } (c >>> 8)) (c &&& 0xff)
    obtain ⟨b1, b2, b3, b4, b5⟩ := update_ps_af_frame
      { r with AltFreqs := some (fun _ => none) } (c >>> 8)
    simp only [List.foldl]
    exact ⟨a1.trans b1, a2.trans b2, a3.trans b3, a4.trans b4, a5.trans b5⟩
  · obtain ⟨a1, a2, a3, a4, a5⟩ := update_ps_af_frame (update_ps_af r (c >>> 8)) (c &&& 0xff)
    obtain ⟨b1, b2, b3, b4, b5⟩ := update_ps_af_frame r (c >>> 8)
    simp only [List.foldl]
    exact ⟨a1.trans b1, a2.trans b2, a3.trans b3, a4.trans b4, a5.trans b5⟩
  · exact ⟨rfl, rfl, rfl, rfl, rfl⟩

theorem update_ps_di_frame (r : RDS) (b : Nat) :
    piAll (update_ps_di r b) = piAll r ∧ psAll (update_ps_di r b) = psAll r ∧
      rtAll (update_ps_di r b) = rtAll r ∧ afView (update_ps_di r b) = afView r ∧
      (update_ps_di r b).aid = r.aid := by
  unfold update_ps_di
  split_ifs <;> exact ⟨rfl, rfl, rfl, rfl, rfl⟩

theorem update_ps_round_frame (r : RDS) :
    piAll (update_ps_round r) = piAll r ∧ rtAll (update_ps_round r) = rtAll r ∧
      flagView (update_ps_round r) = flagView r ∧ afView (update_ps_round r) = afView r ∧
      (update_ps_round r).aid = r.aid := by
  unfold update_ps_round
  dsimp only
  split_ifs <;> exact ⟨rfl, rfl, rfl, rfl, rfl⟩

theorem update_ps_frame (r : RDS) (a b c d : Nat) :
    piAll (update_ps r a b c d) = piAll r ∧ rtAll (update_ps r a b c d) = rtAll r ∧
      (update_ps r a b c d).aid = r.aid := by
  unfold update_ps
  dsimp only
  obtain ⟨a1, -, a3, -, a5⟩ := update_ps_altfreqs_frame
    (update_ps_di
      (if (b &&& 0x3) * 2 = 0 then
        update_ps_round
          { r with
            Music := decide (b &&& 0x0008 = 0x0008)
            TrafficAnnouncement := decide (b &&& 0x0010 = 0x0010)
            ps1 := aset (aset r.ps1 ((b &&& 0x3) * 2) (((d >>> 8) &&& 0x7f) % 256))
              ((b &&& 0x3) * 2 + 1) ((d &&& 0x7f) % 256)
            psnew := aset (aset (clearLoop r.psnew) ((b &&& 0x3) * 2) true)
              ((b &&& 0x3) * 2 + 1) true }
      else
        { r with
          Music := decide (b &&& 0x0008 = 0x0008)
          TrafficAnnouncement := decide (b &&& 0x0010 = 0x0010)
          ps1 := aset (aset r.ps1 ((b &&& 0x3) * 2) (((d >>> 8) &&& 0x7f) % 256))
            ((b &&& 0x3) * 2 + 1) ((d &&& 0x7f) % 256)
          psnew := aset (aset (clearLoop r.psnew) ((b &&& 0x3) * 2) true)
            ((b &&& 0x3) * 2 + 1) true }) b) b c
  obtain ⟨b1, -, b3, -, b5⟩ := update_ps_di_frame
      (if (b &&& 0x3) * 2 = 0 then
        update_ps_round
          { r with
            Music := decide (b &&& 0x0008 = 0x0008)
            TrafficAnnouncement := decide (b &&& 0x0010 = 0x0010)
            ps1 := aset (aset r.ps1 ((b &&& 0x3) * 2) (((d >>> 8) &&& 0x7f) % 256))
              ((b &&& 0x3) * 2 + 1) ((d &&& 0x7f) % 256)
            psnew := aset (aset (clearLoop r.psnew) ((b &&& 0x3) * 2) true)
              ((b &&& 0x3) * 2 + 1) true }
      else
        { r with
          Music := decide (b &&& 0x0008 = 0x0008)
          TrafficAnnouncement := decide (b &&& 0x0010 = 0x0010)
          ps1 := aset (aset r.ps1 ((b &&& 0x3) * 2) (((d >>> 8) &&& 0x7f) % 256))
            ((b &&& 0x3) * 2 + 1) ((d &&& 0x7f) % 256)
          psnew := aset (aset (clearLoop r.psnew) ((b &&& 0x3) * 2) true)
            ((b &&& 0x3) * 2 + 1) true }) b
  refine ⟨a1.trans (b1.trans ?_), a3.trans (b3.trans ?_), a5.trans (b5.trans ?_)⟩
  · split_ifs
    · exact (update_ps_round_frame _).1
    · rfl
  · split_ifs
    · exact (update_ps_round_frame _).2.1
    · rfl
  · split_ifs
    · exact (update_ps_round_frame _).2.2.2.2
    · rfl

theorem update_rt_store_frame (idx : Nat) (m : Fin 4 → Nat) (i : Nat) (s : RDS × Int) :
    piAll (update_rt_store idx m i s).1 = piAll s.1 ∧
      psAll (update_rt_store idx m i s).1 = psAll s.1 ∧
      flagView (update_rt_store idx m i s).1 = flagView s.1 ∧
      afView (update_rt_store idx m i s).1 = afView s.1 ∧
      (update_rt_store idx m i s).1.aid = s.1.aid :=
  ⟨rfl, rfl, rfl, rfl, rfl⟩

theorem update_rt_store_foldl_frame (idx : Nat) (m : Fin 4 → Nat) (l : List Nat)
    (s : RDS × Int) :
    piAll (l.foldl (fun acc i => update_rt_store idx m i acc) s).1 = piAll s.1 ∧
      psAll (l.foldl (fun acc i => update_rt_store idx m i acc) s).1 = psAll s.1 ∧
      flagView (l.foldl (fun acc i => update_rt_store idx m i acc) s).1 = flagView s.1 ∧
      afView (l.foldl (fun acc i => update_rt_store idx m i acc) s).1 = afView s.1 ∧
      (l.foldl (fun acc i => update_rt_store idx m i acc) s).1.aid = s.1.aid := by
  induction l generalizing s with
  | nil => exact ⟨rfl, rfl, rfl, rfl, rfl⟩
  | cons i l ih =>
    rw [List.foldl_cons]
    obtain ⟨a1, a2, a3, a4, a5⟩ := ih (update_rt_store idx m i s)
    obtain ⟨b1, b2, b3, b4, b5⟩ := update_rt_store_frame idx m i s
    exact ⟨a1.trans b1, a2.trans b2, a3.trans b3, a4.trans b4, a5.trans b5⟩

theorem update_rt_blank_frame (r : RDS) (cr : Int) :
    piAll (update_rt_blank r cr) = piAll r ∧ psAll (update_rt_blank r cr) = psAll r ∧
      flagView (update_rt_blank r cr) = flagView r ∧ afView (update_rt_blank r cr) = afView r ∧
      (update_rt_blank r cr).aid = r.aid := by
  unfold update_rt_blank
  split_ifs <;> exact ⟨rfl, rfl, rfl, rfl, rfl⟩

theorem update_rt_round_frame (r : RDS) :
    piAll (update_rt_round r) = piAll r ∧ psAll (update_rt_round r) = psAll r ∧
      flagView (update_rt_round r) = flagView r ∧ afView (update_rt_round r) = afView r ∧
      (update_rt_round r).aid = r.aid := by
  unfold update_rt_round
  dsimp only
  split_ifs <;> exact ⟨rfl, rfl, rfl, rfl, rfl⟩

theorem update_rt_frame (r : RDS) (a b c d : Nat) :
    piAll (update_rt r a b c d) = piAll r ∧ psAll (update_rt r a b c d) = psAll r ∧
      flagView (update_rt r a b c d) = flagView r ∧ afView (update_rt r a b c d) = afView r ∧
      (update_rt r a b c d).aid = r.aid := by
  unfold update_rt
  dsimp only
  generalize (aset (aset (aset (aset (fun _ => 0) 0 (((c >>> 8) &&& 0x7f) % 256)) 1
    ((c &&& 0x7f) % 256)) 2 (((d >>> 8) &&& 0x7f) % 256)) 3 ((d &&& 0x7f) % 256) :
      Fin 4 → Nat) = m
  have hs : piAll (forLoop 0 4 (update_rt_store ((b &&& 0xf) * 4) m)
        ({ r with rtnew := clearLoop r.rtnew }, -1)).1 = piAll r ∧
      psAll (forLoop 0 4 (update_rt_store ((b &&& 0xf) * 4) m)
        ({ r with rtnew := clearLoop r.rtnew }, -1)).1 = psAll r ∧
      flagView (forLoop 0 4 (update_rt_store ((b &&& 0xf) * 4) m)
        ({ r with rtnew := clearLoop r.rtnew }, -1)).1 = flagView r ∧
      afView (forLoop 0 4 (update_rt_store ((b &&& 0xf) * 4) m)
        ({ r with rtnew := clearLoop r.rtnew }, -1)).1 = afView r ∧
      (forLoop 0 4 (update_rt_store ((b &&& 0xf) * 4) m)
        ({ r with rtnew := clearLoop r.rtnew }, -1)).1.aid = r.aid := by
    exact update_rt_store_foldl_frame ((b &&& 0xf) * 4) m (List.range' 0 (4 - 0))
      ({ r with rtnew := clearLoop r.rtnew }, -1)
  generalize forLoop 0 4 (update_rt_store ((b &&& 0xf) * 4) m)
    ({ r with rtnew := clearLoop r.rtnew }, -1) = s at hs
  obtain ⟨s1, s2, s3, s4, s5⟩ := hs
  obtain ⟨b1, b2, b3, b4, b5⟩ := update_rt_blank_frame s.1 s.2
  split_ifs
  · obtain ⟨c1, c2, c3, c4, c5⟩ := update_rt_round_frame (update_rt_blank s.1 s.2)
    exact ⟨c1.trans (b1.trans s1), c2.trans (b2.trans s2), c3.trans (b3.trans s3),
      c4.trans (b4.trans s4), c5.trans (b5.trans s5)⟩
  · exact ⟨b1.trans s1, b2.trans s2, b3.trans s3, b4.trans s4, b5.trans s5⟩

theorem update_aid_frame (r : RDS) (a b c d : Nat) :
    piAll (update_aid r a b c d) = piAll r ∧ psAll (update_aid r a b c d) = psAll r ∧
      rtAll (update_aid r a b c d) = rtAll r ∧ flagView (update_aid r a b c d) = flagView r ∧
      afView (update_aid r a b c d) = afView r := by
  unfold update_aid
  dsimp only
  split_ifs <;> exact ⟨rfl, rfl, rfl, rfl, rfl⟩

/-! ## `Update`, group by group -/

theorem Update_piAll (r : RDS) (a b c d : Nat) :
    piAll (Update r a b c d) =
      (a, decide (b &&& 0x20 = 0x20), (((b >>> 5) &&& 0x1f : Nat) : Int),
        (csStep (csView r) a).2.2, (csStep (csView r) a).1, (csStep (csView r) a).2.1) := by
  have key : piAll { update_pi r a with
        TrafficProgram := decide (b &&& 0x20 = 0x20)
        ProgramType := (((b >>> 5) &&& 0x1f : Nat) : Int) } =
      (a, decide (b &&& 0x20 = 0x20), (((b >>> 5) &&& 0x1f : Nat) : Int),
        (csStep (csView r) a).2.2, (csStep (csView r) a).1, (csStep (csView r) a).2.1) := by
    rw [← csView_update_pi]
    simp only [piAll, csView, ProgramInformation_update_pi]
  unfold Update
  dsimp only
  split_ifs <;>
    first
    | exact key
    | exact (update_ps_frame _ _ _ _ _).1.trans key
    | exact (update_rt_frame _ _ _ _ _).1.trans key
    | exact (update_aid_frame _ _ _ _ _).1.trans key

theorem csView_Update (r : RDS) (a b c d : Nat) :
    csView (Update r a b c d) = csStep (csView r) a := by
  have h := Update_piAll r a b c d
  simp only [piAll, Prod.mk.injEq] at h
  obtain ⟨-, -, -, h1, h2, h3⟩ := h
  simp only [csView, h1, h2, h3]

theorem psAll_Update_of_ne (r : RDS) (a b c d : Nat) (h : b >>> 12 ≠ 0) :
    psAll (Update r a b c d) = psAll r := by
  have key : psAll { update_pi r a with
        TrafficProgram := decide (b &&& 0x20 = 0x20)
        ProgramType := (((b >>> 5) &&& 0x1f : Nat) : Int) } = psAll r :=
    (update_pi_frame r a).1
  unfold Update
  dsimp only
  rw [if_neg h]
  split_ifs <;>
    first
    | exact key
    | exact (update_rt_frame _ _ _ _ _).2.1.trans key
    | exact (update_aid_frame _ _ _ _ _).2.1.trans key

theorem rtAll_Update_of_ne (r : RDS) (a b c d : Nat) (h : b >>> 12 ≠ 2) :
    rtAll (Update r a b c d) = rtAll r := by
  have key : rtAll { update_pi r a with
        TrafficProgram := decide (b &&& 0x20 = 0x20)
        ProgramType := (((b >>> 5) &&& 0x1f : Nat) : Int) } = rtAll r :=
    (update_pi_frame r a).2.1
  unfold Update
  dsimp only
  split_ifs <;>
    first
    | exact key
    | exact (update_ps_frame _ _ _ _ _).2.1.trans key
    | exact (update_aid_frame _ _ _ _ _).2.2.1.trans key

theorem and_two_pow_cases (x k : Nat) : x &&& 2 ^ k = 0 ∨ x &&& 2 ^ k = 2 ^ k := by
  cases hb : x.testBit k with
  | false =>
    left
    apply Nat.eq_of_testBit_eq
    intro i
    rw [Nat.testBit_and, Nat.testBit_two_pow, Nat.zero_testBit]
    by_cases hki : k = i
    · subst hki
      simp [hb]
    · simp [hki]
  | true =>
    right
    apply Nat.eq_of_testBit_eq
    intro i
    rw [Nat.testBit_and, Nat.testBit_two_pow]
    by_cases hki : k = i
    · subst hki
      simp [hb]
    · simp [hki]

theorem bit_set_iff (x k : Nat) : x &&& 2 ^ k = 2 ^ k ↔ x &&& 2 ^ k ≠ 0 := by
  have hpos : 0 < 2 ^ k := Nat.two_pow_pos k
  rcases and_two_pow_cases x k with h | h
  · rw [h]
    constructor
    · intro h0
      omega
    · intro h0
      exact absurd rfl h0
  · rw [h]
    constructor
    · intro _
      omega
    · intro _
      rfl

/-! ## Immediate fields and unhandled groups -/

/-- C11: for every state and every group `(a, b, c, d)`, whatever its group
type and whatever the previous values, after `Update`:
`ProgramInformation = a`, `TrafficProgram = (b & 0x20 != 0)` and
`ProgramType = (b >> 5) & 0x1F`; the three are overwritten at once, with no
consensus delay. -/
theorem C11_immediate_fields (r : RDS) (a b c d : Nat) :
    (Update r a b c d).ProgramInformation = a ∧
      (Update r a b c d).TrafficProgram = decide (b &&& 0x20 ≠ 0) ∧
      (Update r a b c d).ProgramType = (((b >>> 5) &&& 0x1F : Nat) : Int) := by
  have h := Update_piAll r a b c d
  simp only [piAll, Prod.mk.injEq] at h
  obtain ⟨h1, h2, h3, -⟩ := h
  refine ⟨h1, ?_, h3⟩
  rw [h2]
  exact decide_eq_decide.mpr (bit_set_iff b 5)

/-- C12 (the code at the failing input): the layout comment of `rds.go` puts
Traffic Program at bit 0x0400 of block B and Program Type at bits 5-9, but
`Update` tests bit 0x0020, the lowest Program Type bit.  From the empty decoder,
the groups `b = 0x0000` and `b = 0x0400` (differing only in bit 0x0400) both
decode to `TrafficProgram = false`, while `b = 0x0000` and `b = 0x0020`
(differing only in bit 0x0020) decode to different `TrafficProgram` values,
and `b = 0x0020` also decodes to `ProgramType = 1`. -/
theorem C12_traffic_program_reads_program_type_bit :
    (Update RDS.empty 0 0x0000 0 0).TrafficProgram = false ∧
      (Update RDS.empty 0 0x0400 0 0).TrafficProgram = false ∧
      (Update RDS.empty 0 0x0020 0 0).TrafficProgram = true ∧
      (Update RDS.empty 0 0x0000 0 0).ProgramType = 0 ∧
      (Update RDS.empty 0 0x0400 0 0).ProgramType = 0 ∧
      (Update RDS.empty 0 0x0020 0 0).ProgramType = 1 := by
  refine ⟨by decide, by decide, by decide, by decide, by decide, by decide⟩

theorem Update_unhandled (r : RDS) (a b c d : Nat)
    (h : b >>> 12 = 1 ∨ 4 ≤ b >>> 12 ∨ (b >>> 12 = 3 ∧ b &&& 0x0800 = 0x0800)) :
    Update r a b c d =
      { update_pi r a with
        TrafficProgram := decide (b &&& 0x20 = 0x20)
        ProgramType := (((b >>> 5) &&& 0x1f : Nat) : Int) } := by
  unfold Update
  dsimp only
  rcases h with h | h | ⟨h, hv⟩
  · rw [if_neg (by omega), if_pos h]
    rfl
  · rw [if_neg (by omega), if_neg (by omega), if_neg (by omega), if_neg (by omega)]
    split_ifs <;> rfl
  · rw [if_neg (by omega), if_neg (by omega), if_neg (by omega), if_pos h]
    have hv2 : ¬ (b &&& 0x0800 ≠ 0x0800) := fun hh => hh hv
    rw [if_neg hv2, if_neg (by decide)]

/-- C14: for every state and every group whose type `b >> 12` is 1 or at least
4, or is 3 with version B (bit 0x0800 of `b` set), `Update` changes nothing
except the always-processed PI/TP/PTY data: `ProgramService`, `Radiotext`,
`Music`, `TrafficAnnouncement`, `Stereo`, `ArtificialHead`, `Compressed`,
`DynamicPTY`, `AltFreqs`, `NumAltFreqs`, the open-data registry `aid` and the
program-service and radiotext buffers `ps1`, `ps2`, `psnew`, `rt1`, `rt2`,
`rtnew` are unchanged. -/
theorem C14_unhandled_groups_change_nothing (r : RDS) (a b c d : Nat)
    (h : b >>> 12 = 1 ∨ 4 ≤ b >>> 12 ∨ (b >>> 12 = 3 ∧ b &&& 0x0800 = 0x0800)) :
    (Update r a b c d).ProgramService = r.ProgramService ∧
      (Update r a b c d).Radiotext = r.Radiotext ∧
      (Update r a b c d).Music = r.Music ∧
      (Update r a b c d).TrafficAnnouncement = r.TrafficAnnouncement ∧
      (Update r a b c d).Stereo = r.Stereo ∧
      (Update r a b c d).ArtificialHead = r.ArtificialHead ∧
      (Update r a b c d).Compressed = r.Compressed ∧
      (Update r a b c d).DynamicPTY = r.DynamicPTY ∧
      (Update r a b c d).AltFreqs = r.AltFreqs ∧
      (Update r a b c d).NumAltFreqs = r.NumAltFreqs ∧
      (Update r a b c d).aid = r.aid ∧
      (Update r a b c d).ps1 = r.ps1 ∧ (Update r a b c d).ps2 = r.ps2 ∧
      (Update r a b c d).psnew = r.psnew ∧
      (Update r a b c d).rt1 = r.rt1 ∧ (Update r a b c d).rt2 = r.rt2 ∧
      (Update r a b c d).rtnew = r.rtnew := by
  obtain ⟨h1, h2, h3, h4, h5⟩ := update_pi_frame r a
  simp only [psAll, rtAll, flagView, afView, Prod.mk.injEq] at h1 h2 h3 h4
  rw [Update_unhandled r a b c d h]
  exact ⟨h1.2.2.2, h2.2.2.2, h3.1, h3.2.1, h3.2.2.1, h3.2.2.2.1, h3.2.2.2.2.1, h3.2.2.2.2.2,
    h4.1, h4.2, h5, h1.1, h1.2.1, h1.2.2.1, h2.1, h2.2.1, h2.2.2.1⟩

/-- Witness of C14: a type-9 group decoded by the empty decoder. -/
theorem C14_unhandled_groups_change_nothing_witness :
    (Update RDS.empty 21672 0x9000 0x1234 0x5678).ProgramService = RDS.empty.ProgramService ∧
      (Update RDS.empty 21672 0x9000 0x1234 0x5678).Radiotext = RDS.empty.Radiotext ∧
      (Update RDS.empty 21672 0x9000 0x1234 0x5678).rt1 = RDS.empty.rt1 :=
  ⟨(C14_unhandled_groups_change_nothing RDS.empty 21672 0x9000 0x1234 0x5678
      (Or.inr (Or.inl (by decide)))).1,
    (C14_unhandled_groups_change_nothing RDS.empty 21672 0x9000 0x1234 0x5678
      (Or.inr (Or.inl (by decide)))).2.1,
    (C14_unhandled_groups_change_nothing RDS.empty 21672 0x9000 0x1234 0x5678
      (Or.inr (Or.inl (by decide)))).2.2.2.2.2.2.2.2.2.2.2.2.2.2.1⟩

/-! ## Decoding the same group twice -/

theorem aset_pair_idem {n : Nat} (buf : Fin n → Nat) (i j x y : Nat) :
    aset (aset (aset (aset buf i x) j y) i x) j y = aset (aset buf i x) j y := by
  funext k
  simp only [aset_apply]
  split_ifs <;> rfl

theorem csCand_idem (cs1 : Fin 4 → Nat) (a : Nat) : csCand (csCand cs1 a) a = csCand cs1 a := by
  unfold csCand
  dsimp only
  split_ifs
  all_goals first
    | rfl
    | (funext k
       simp only [aset_apply]
       split_ifs <;> rfl)

theorem rtWrite_idem (buf : Fin 64 → Nat) (idx m0 m1 m2 m3 : Nat) :
    rtWrite (rtWrite buf idx m0 m1 m2 m3) idx m0 m1 m2 m3 = rtWrite buf idx m0 m1 m2 m3 := by
  funext j
  simp only [rtWrite]
  generalize (if m3 = 0x0d then ((idx + 3 : Nat) : Int) else if m2 = 0x0d then ((idx + 2 : Nat) : Int)
    else if m1 = 0x0d then ((idx + 1 : Nat) : Int) else if m0 = 0x0d then ((idx : Nat) : Int)
    else -1) = cr
  split_ifs <;> rfl

theorem CallSign_Update_twice (r : RDS) (a b c d : Nat) :
    (Update (Update r a b c d) a b c d).CallSign = csCand r.cs1 a := by
  have h1 := csView_Update r a b c d
  have h2 := csView_Update (Update r a b c d) a b c d
  rw [h1] at h2
  simp only [csView, csStep, csCand_idem, Prod.mk.injEq] at h2
  rw [h2.2.2, if_pos ((sameLoop_eq_true _ _).mpr rfl)]

/-- C13: for every state and every group, when the group is decoded twice in
immediate succession each committed consensus field (`CallSign`,
`ProgramService`, `Radiotext`) changes in at most one of the two calls: if the
first `Update` changed the field, the second `Update` leaves it equal to the
value after the first. -/
theorem C13_same_group_twice (r : RDS) (a b c d : Nat) :
    ((Update r a b c d).CallSign ≠ r.CallSign →
        (Update (Update r a b c d) a b c d).CallSign = (Update r a b c d).CallSign) ∧
      ((Update r a b c d).ProgramService ≠ r.ProgramService →
        (Update (Update r a b c d) a b c d).ProgramService =
          (Update r a b c d).ProgramService) ∧
      ((Update r a b c d).Radiotext ≠ r.Radiotext →
        (Update (Update r a b c d) a b c d).Radiotext = (Update r a b c d).Radiotext) := by
  refine ⟨?_, ?_, ?_⟩
  · intro hne
    rw [CallSign_Update_twice]
    have h1 := csView_Update r a b c d
    simp only [csView, csStep, Prod.mk.injEq] at h1
    obtain ⟨-, -, h13⟩ := h1
    by_cases hs : sameLoop (csCand r.cs1 a) r.cs2 = true
    · rw [h13, if_pos hs]
      exact (sameLoop_eq_true _ _).mp hs
    · rw [h13, if_neg hs] at hne
      exact absurd rfl hne
  · intro hne
    by_cases ht : b >>> 12 = 0
    · have h1 := psView_Update r a b c d ht
      have h2 := psView_Update (Update r a b c d) a b c d ht
      rw [h1] at h2
      simp only [psView, psStep, Prod.mk.injEq] at h1 h2
      obtain ⟨-, -, h13⟩ := h1
      obtain ⟨-, -, h23⟩ := h2
      by_cases hc : (b &&& 0x3) * 2 = 0 ∧
          sameLoop (aset (aset r.ps1 ((b &&& 0x3) * 2) (((d >>> 8) &&& 0x7f) % 256))
            ((b &&& 0x3) * 2 + 1) ((d &&& 0x7f) % 256)) r.ps2 = true
      · have hw := (sameLoop_eq_true _ _).mp hc.2
        rw [h23, h13, if_pos hc, if_pos hc.1, aset_pair_idem,
          if_pos ⟨hc.1, (sameLoop_eq_true _ _).mpr rfl⟩, hw]
      · rw [h13, if_neg hc] at hne
        exact absurd rfl hne
    · have h1 := psAll_Update_of_ne r a b c d ht
      simp only [psAll, Prod.mk.injEq] at h1
      exact absurd h1.2.2.2 hne
  · intro hne
    by_cases ht : b >>> 12 = 2
    · have h1 := rtView_Update r a b c d ht
      have h2 := rtView_Update (Update r a b c d) a b c d ht
      rw [h1] at h2
      simp only [rtView, rtStep, Prod.mk.injEq] at h1 h2
      obtain ⟨-, -, h13⟩ := h1
      obtain ⟨-, -, h23⟩ := h2
      by_cases hc : (b &&& 0xf) * 4 = 0 ∧
          sameLoop (rtWrite r.rt1 ((b &&& 0xf) * 4) (((c >>> 8) &&& 0x7f) % 256)
            ((c &&& 0x7f) % 256) (((d >>> 8) &&& 0x7f) % 256) ((d &&& 0x7f) % 256)) r.rt2 = true
      · have hw := (sameLoop_eq_true _ _).mp hc.2
        rw [h23, h13, if_pos hc, if_pos hc.1, rtWrite_idem,
          if_pos ⟨hc.1, (sameLoop_eq_true _ _).mpr rfl⟩, hw]
      · rw [h13, if_neg hc] at hne
        exact absurd rfl hne
    · have h1 := rtAll_Update_of_ne r a b c d ht
      simp only [rtAll, Prod.mk.injEq] at h1
      exact absurd h1.2.2.2 hne

/-- Witness of C13: a repeated PI that commits the call sign "WAAA" on the
first of the two calls, and the all-zero type-0 and type-2 segment-0 groups,
which commit in the empty decoder on the first call. -/
theorem C13_same_group_twice_witness :
    (Update (Update (Update RDS.empty 21672 0x9000 0 0) 21672 0x9000 0 0) 21672 0x9000 0
        0).CallSign = (Update (Update RDS.empty 21672 0x9000 0 0) 21672 0x9000 0 0).CallSign ∧
      (Update (Update RDS.empty 0 0 0 0) 0 0 0 0).ProgramService =
        (Update RDS.empty 0 0 0 0).ProgramService ∧
      (Update (Update RDS.empty 0 0x2000 0 0) 0 0x2000 0 0).Radiotext =
        (Update RDS.empty 0 0x2000 0 0).Radiotext :=
  ⟨(C13_same_group_twice (Update RDS.empty 21672 0x9000 0 0) 21672 0x9000 0 0).1 (by decide),
    (C13_same_group_twice RDS.empty 0 0 0 0).2.1 (by decide),
    (C13_same_group_twice RDS.empty 0 0x2000 0 0).2.2 (by decide)⟩

/-! ## Open-data registry -/

theorem update_aid_slot (r : RDS) (a b c d slot : Nat) :
    aidSlot (update_aid r a b c d) a slot = some ((aidSlot r a slot).getD 0) := by
  unfold update_aid aidSlot
  dsimp only
  cases hm : r.aid with
  | none => simp [hm, aget]
  | some m =>
    cases hk : m a with
    | none => simp [hm, hk, aget]
    | some t => simp [hm, hk]

theorem aid_Update_type3A (r : RDS) (a b c d : Nat) (ht : b >>> 12 = 3)
    (hv : b &&& 0x0800 ≠ 0x0800) :
    (Update r a b c d).aid = (update_aid r a b c d).aid := by
  unfold Update
  dsimp only
  rw [if_neg (by omega), if_neg (by omega), if_neg (by omega), if_pos ht, if_pos hv,
    if_pos rfl]
  have h := (update_pi_frame r a).2.2.2.2
  unfold update_aid
  dsimp only
  rw [h]
  split_ifs <;> rfl

/-- C16 (the code at the failing input): the empty decoder is given the type-3
version-A group `a = 21672`, `b = 0x3005` (slot 5), `d = 0xBEEF`, twice.  After
each call the registry has an entry under key 21672, but its slot 5 holds 0,
not the payload 0xBEEF: `update_aid` stores the payload in a local copy of the
table. -/
theorem C16_oda_payload_not_stored :
    (0x3005 >>> 12 = 3 ∧ 0x3005 &&& 0x0800 ≠ 0x0800 ∧ 0x3005 &&& 0x1f = 5) ∧
      aidSlot RDS.empty 21672 5 = none ∧
      aidSlot (Update RDS.empty 21672 0x3005 0 0xBEEF) 21672 5 = some 0 ∧
      aidSlot (Update (Update RDS.empty 21672 0x3005 0 0xBEEF) 21672 0x3005 0 0xBEEF) 21672 5 =
        some 0 := by
  refine ⟨by decide, by decide, by decide, by decide⟩

/-! ## Type-0 groups: flags and alternative frequencies -/

theorem flagView_update_ps_di (r : RDS) (b : Nat) :
    flagView (update_ps_di r b) =
      (r.Music, r.TrafficAnnouncement,
        if b &&& 0x3 = 0 then decide (b &&& 0x4 = 0x4) else r.Stereo,
        if b &&& 0x3 = 1 then decide (b &&& 0x4 = 0x4) else r.ArtificialHead,
        if b &&& 0x3 = 2 then decide (b &&& 0x4 = 0x4) else r.Compressed,
        if b &&& 0x3 = 3 then decide (b &&& 0x4 = 0x4) else r.DynamicPTY) := by
  unfold update_ps_di
  by_cases h0 : b &&& 0x3 = 0
  · simp [flagView, h0]
  · by_cases h1 : b &&& 0x3 = 1
    · simp [flagView, h1]
    · by_cases h2 : b &&& 0x3 = 2
      · simp [flagView, h2]
      · by_cases h3 : b &&& 0x3 = 3
        · simp [flagView, h3]
        · simp [flagView, h0, h1, h2, h3]

theorem update_ps_stages (r : RDS) (a b c d : Nat) :
    ∃ r1 : RDS, flagView r1 = (decide (b &&& 0x0008 = 0x0008), decide (b &&& 0x0010 = 0x0010),
        r.Stereo, r.ArtificialHead, r.Compressed, r.DynamicPTY) ∧ afView r1 = afView r ∧
      update_ps r a b c d = update_ps_altfreqs (update_ps_di r1 b) b c := by
  unfold update_ps
  dsimp only
  refine ⟨_, ?_, ?_, rfl⟩
  · split_ifs
    · exact (update_ps_round_frame _).2.2.1
    · rfl
  · split_ifs
    · exact (update_ps_round_frame _).2.2.2.1
    · rfl

theorem flagView_update_ps (r : RDS) (a b c d : Nat) :
    flagView (update_ps r a b c d) =
      (decide (b &&& 0x0008 = 0x0008), decide (b &&& 0x0010 = 0x0010),
        if b &&& 0x3 = 0 then decide (b &&& 0x4 = 0x4) else r.Stereo,
        if b &&& 0x3 = 1 then decide (b &&& 0x4 = 0x4) else r.ArtificialHead,
        if b &&& 0x3 = 2 then decide (b &&& 0x4 = 0x4) else r.Compressed,
        if b &&& 0x3 = 3 then decide (b &&& 0x4 = 0x4) else r.DynamicPTY) := by
  obtain ⟨r1, h1, -, h3⟩ := update_ps_stages r a b c d
  rw [h3, (update_ps_altfreqs_frame _ _ _).2.2.2.1, flagView_update_ps_di]
  simp only [flagView, Prod.mk.injEq] at h1
  obtain ⟨e1, e2, e3, e4, e5, e6⟩ := h1
  rw [e1, e2, e3, e4, e5, e6]

theorem flagView_Update_type0 (r : RDS) (a b c d : Nat) (ht : b >>> 12 = 0) :
    flagView (Update r a b c d) =
      (decide (b &&& 0x0008 = 0x0008), decide (b &&& 0x0010 = 0x0010),
        if b &&& 0x3 = 0 then decide (b &&& 0x4 = 0x4) else r.Stereo,
        if b &&& 0x3 = 1 then decide (b &&& 0x4 = 0x4) else r.ArtificialHead,
        if b &&& 0x3 = 2 then decide (b &&& 0x4 = 0x4) else r.Compressed,
        if b &&& 0x3 = 3 then decide (b &&& 0x4 = 0x4) else r.DynamicPTY) := by
  have hf := (update_pi_frame r a).2.2.1
  simp only [flagView, Prod.mk.injEq] at hf
  obtain ⟨-, -, f3, f4, f5, f6⟩ := hf
  unfold Update
  dsimp only
  rw [if_pos ht, flagView_update_ps]
  simp only [f3, f4, f5, f6]

/-- C18: for every state and every type-0 group of either version, afterwards
`Music = (b & 0x0008 != 0)`, `TrafficAnnouncement = (b & 0x0010 != 0)`, and
exactly one decoder-identification flag is written: the one selected by
`b & 0x3` (0 `Stereo`, 1 `ArtificialHead`, 2 `Compressed`, 3 `DynamicPTY`)
becomes `(b & 0x0004 != 0)` while the other three keep their previous values. -/
theorem C18_type0_flags (r : RDS) (a b c d : Nat) (ht : b >>> 12 = 0) :
    (Update r a b c d).Music = decide (b &&& 0x0008 ≠ 0) ∧
      (Update r a b c d).TrafficAnnouncement = decide (b &&& 0x0010 ≠ 0) ∧
      b &&& 0x3 ≤ 3 ∧
      (b &&& 0x3 = 0 →
        (Update r a b c d).Stereo = decide (b &&& 0x0004 ≠ 0) ∧
        (Update r a b c d).ArtificialHead = r.ArtificialHead ∧
        (Update r a b c d).Compressed = r.Compressed ∧
        (Update r a b c d).DynamicPTY = r.DynamicPTY) ∧
      (b &&& 0x3 = 1 →
        (Update r a b c d).Stereo = r.Stereo ∧
        (Update r a b c d).ArtificialHead = decide (b &&& 0x0004 ≠ 0) ∧
        (Update r a b c d).Compressed = r.Compressed ∧
        (Update r a b c d).DynamicPTY = r.DynamicPTY) ∧
      (b &&& 0x3 = 2 →
        (Update r a b c d).Stereo = r.Stereo ∧
        (Update r a b c d).ArtificialHead = r.ArtificialHead ∧
        (Update r a b c d).Compressed = decide (b &&& 0x0004 ≠ 0) ∧
        (Update r a b c d).DynamicPTY = r.DynamicPTY) ∧
      (b &&& 0x3 = 3 →
        (Update r a b c d).Stereo = r.Stereo ∧
        (Update r a b c d).ArtificialHead = r.ArtificialHead ∧
        (Update r a b c d).Compressed = r.Compressed ∧
        (Update r a b c d).DynamicPTY = decide (b &&& 0x0004 ≠ 0)) := by
  have h := flagView_Update_type0 r a b c d ht
  simp only [flagView, Prod.mk.injEq] at h
  obtain ⟨h1, h2, h3, h4, h5, h6⟩ := h
  have e8 : decide (b &&& 0x0008 = 0x0008) = decide (b &&& 0x0008 ≠ 0) :=
    decide_eq_decide.mpr (bit_set_iff b 3)
  have e16 : decide (b &&& 0x0010 = 0x0010) = decide (b &&& 0x0010 ≠ 0) :=
    decide_eq_decide.mpr (bit_set_iff b 4)
  have e4 : decide (b &&& 0x4 = 0x4) = decide (b &&& 0x0004 ≠ 0) :=
    decide_eq_decide.mpr (bit_set_iff b 2)
  refine ⟨h1.trans e8, h2.trans e16, Nat.and_le_right, ?_, ?_, ?_, ?_⟩
  · intro hs
    rw [h3, h4, h5, h6, hs, ← e4]
    exact ⟨rfl, rfl, rfl, rfl⟩
  · intro hs
    rw [h3, h4, h5, h6, hs, ← e4]
    exact ⟨rfl, rfl, rfl, rfl⟩
  · intro hs
    rw [h3, h4, h5, h6, hs, ← e4]
    exact ⟨rfl, rfl, rfl, rfl⟩
  · intro hs
    rw [h3, h4, h5, h6, hs, ← e4]
    exact ⟨rfl, rfl, rfl, rfl⟩

/-- Witness of C18: the type-0 version-B group `b = 0x081E` (selector 2, bits
0x0004, 0x0008 and 0x0010 set) decoded by the empty decoder. -/
theorem C18_type0_flags_witness :
    (Update RDS.empty 0 0x081E 0 0).Music = decide (0x081E &&& 0x0008 ≠ 0) ∧
      (Update RDS.empty 0 0x081E 0 0).Stereo = RDS.empty.Stereo ∧
      (Update RDS.empty 0 0x081E 0 0).Compressed = decide (0x081E &&& 0x0004 ≠ 0) :=
  ⟨(C18_type0_flags RDS.empty 0 0x081E 0 0 (by decide)).1,
    ((C18_type0_flags RDS.empty 0 0x081E 0 0 (by decide)).2.2.2.2.2.1 (by decide)).1,
    ((C18_type0_flags RDS.empty 0 0x081E 0 0 (by decide)).2.2.2.2.2.1 (by decide)).2.2.1⟩

theorem update_ps_af_num (r : RDS) (f : Nat) :
    (update_ps_af r f).NumAltFreqs =
      if 224 ≤ f ∧ f ≤ 249 then ((f - 224 : Nat) : Int) else r.NumAltFreqs := by
  unfold update_ps_af
  by_cases h1 : f = 0 ∨ (f ≥ 205 ∧ f ≤ 223) ∨ (f ≥ 251 ∧ f ≤ 255)
  · rw [if_pos h1, if_neg (by omega)]
  · rw [if_neg h1]
    by_cases h2 : f ≥ 1 ∧ f ≤ 204
    · rw [if_pos h2, if_neg (by omega)]
    · rw [if_neg h2]
      by_cases h3 : f ≥ 224 ∧ f ≤ 249
      · rw [if_pos h3, if_pos h3]
        have e : (f + 65536 - 224) % 65536 = f - 224 := by omega
        simp only [e]
      · rw [if_neg h3, if_neg h3]
        split_ifs <;> rfl

theorem update_ps_af_lookup (r : RDS) (f k : Nat) (hs : r.AltFreqs.isSome = true) :
    (update_ps_af r f).AltFreqs.isSome = true ∧
      afLookup (update_ps_af r f).AltFreqs k =
        if (1 ≤ f ∧ f ≤ 204) ∧ k = 875 + f then some true else afLookup r.AltFreqs k := by
  obtain ⟨m, hm⟩ := Option.isSome_iff_exists.mp hs
  unfold update_ps_af
  by_cases h1 : f = 0 ∨ (f ≥ 205 ∧ f ≤ 223) ∨ (f ≥ 251 ∧ f ≤ 255)
  · rw [if_pos h1, if_neg (by omega)]
    exact ⟨hs, rfl⟩
  · rw [if_neg h1]
    by_cases h2 : f ≥ 1 ∧ f ≤ 204
    · rw [if_pos h2]
      simp only [hm, Option.map_some', Option.isSome_some, afLookup, Option.some_bind, true_and]
      by_cases hk : k = 875 + f
      · rw [if_pos ⟨⟨h2.1, h2.2⟩, hk⟩, hk, Function.update_same]
      · rw [if_neg (fun hh => hk hh.2), Function.update_noteq hk]
    · have hP : ¬ ((1 ≤ f ∧ f ≤ 204) ∧ k = 875 + f) := fun hh => h2 ⟨hh.1.1, hh.1.2⟩
      rw [if_neg h2, if_neg hP]
      split_ifs <;> exact ⟨hs, rfl⟩

theorem afView_update_ps_altfreqs_B (r : RDS) (b c : Nat) (hv : b &&& 0x0800 = 0x0800) :
    update_ps_altfreqs r b c = r := by
  unfold update_ps_altfreqs
  rw [if_neg (fun hh => hh hv)]

theorem afView_update_ps_altfreqs_A (r : RDS) (b c : Nat) (hv : b &&& 0x0800 ≠ 0x0800) :
    (∀ k, afLookup (update_ps_altfreqs r b c).AltFreqs k =
        if ((1 ≤ c &&& 0xff ∧ c &&& 0xff ≤ 204) ∧ k = 875 + (c &&& 0xff)) ∨
            ((1 ≤ c >>> 8 ∧ c >>> 8 ≤ 204) ∧ k = 875 + c >>> 8) then some true
        else afLookup r.AltFreqs k) ∧
      (update_ps_altfreqs r b c).NumAltFreqs =
        if 224 ≤ c &&& 0xff ∧ c &&& 0xff ≤ 249 then (((c &&& 0xff) - 224 : Nat) : Int)
        else if 224 ≤ c >>> 8 ∧ c >>> 8 ≤ 249 then ((c >>> 8 - 224 : Nat) : Int)
        else r.NumAltFreqs := by
  unfold update_ps_altfreqs
  rw [if_pos hv]
  dsimp only
  have key : ∀ r0 : RDS, r0.AltFreqs.isSome = true →
      (∀ k, afLookup r0.AltFreqs k = afLookup r.AltFreqs k) → r0.NumAltFreqs = r.NumAltFreqs →
      (∀ k, afLookup ([c >>> 8, c &&& 0xff].foldl update_ps_af r0).AltFreqs k =
        if ((1 ≤ c &&& 0xff ∧ c &&& 0xff ≤ 204) ∧ k = 875 + (c &&& 0xff)) ∨
            ((1 ≤ c >>> 8 ∧ c >>> 8 ≤ 204) ∧ k = 875 + c >>> 8) then some true
        else afLookup r.AltFreqs k) ∧
      ([c >>> 8, c &&& 0xff].foldl update_ps_af r0).NumAltFreqs =
        if 224 ≤ c &&& 0xff ∧ c &&& 0xff ≤ 249 then (((c &&& 0xff) - 224 : Nat) : Int)
        else if 224 ≤ c >>> 8 ∧ c >>> 8 ≤ 249 then ((c >>> 8 - 224 : Nat) : Int)
        else r.NumAltFreqs := by
    intro r0 hs hl hn
    simp only [List.foldl]
    constructor
    · intro k
      obtain ⟨s1, l1⟩ := update_ps_af_lookup r0 (c >>> 8) k hs
      obtain ⟨-, l2⟩ := update_ps_af_lookup (update_ps_af r0 (c >>> 8)) (c &&& 0xff) k s1
      rw [l2, l1, hl]
      by_cases p : (1 ≤ c &&& 0xff ∧ c &&& 0xff ≤ 204) ∧ k = 875 + (c &&& 0xff)
      · rw [if_pos p, if_pos (Or.inl p)]
      · rw [if_neg p]
        by_cases q : (1 ≤ c >>> 8 ∧ c >>> 8 ≤ 204) ∧ k = 875 + c >>> 8
        · rw [if_pos q, if_pos (Or.inr q)]
        · rw [if_neg q, if_neg (fun hh => hh.elim p q)]
    · rw [update_ps_af_num, update_ps_af_num, hn]
  by_cases hnil : r.AltFreqs.isNone = true
  · rw [if_pos hnil]
    apply key
    · rfl
    · intro k
      have : r.AltFreqs = none := by
        cases h : r.AltFreqs with
        | none => rfl
        | some m => rw [h] at hnil; cases hnil
      rw [this]
      rfl
    · rfl
  · rw [if_neg hnil]
    apply key
    · cases h : r.AltFreqs with
      | none => rw [h] at hnil; exact absurd rfl hnil
      | some m => rfl
    · intro k
      rfl
    · rfl

theorem Update_type0_altfreqs (r : RDS) (a b c d : Nat) (ht : b >>> 12 = 0) :
    ∃ r2 : RDS, afView r2 = afView r ∧ Update r a b c d = update_ps_altfreqs r2 b c := by
  unfold Update
  dsimp only
  rw [if_pos ht]
  obtain ⟨r1, -, h2, h3⟩ := update_ps_stages
    { update_pi r a with
      TrafficProgram := decide (b &&& 0x20 = 0x20)
      ProgramType := (((b >>> 5) &&& 0x1f : Nat) : Int) } a b c d
  refine ⟨update_ps_di r1 b, ?_, h3⟩
  rw [(update_ps_di_frame r1 b).2.2.2.1, h2]
  exact (update_pi_frame r a).2.2.2.1

/-- C17: for a type-0 group, alternative frequencies are decoded only for
version A.  When bit 0x0800 of `b` is set (version B), `AltFreqs` and
`NumAltFreqs` are unchanged.  When it is clear, the high byte and then the low
byte of `c` are each classified: a code in 1..204 adds the frequency of that
code (87.5 + code*0.1 MHz, the key `875 + code` in units of 0.1 MHz) to
`AltFreqs` and removes nothing; a code in 224..249 sets
`NumAltFreqs = code - 224`, the low byte winning when both bytes are count
codes; every other code changes neither. -/
theorem C17_alternative_frequencies :
    (∀ (r : RDS) (a b c d : Nat), b >>> 12 = 0 → b &&& 0x0800 = 0x0800 →
        (Update r a b c d).AltFreqs = r.AltFreqs ∧
        (Update r a b c d).NumAltFreqs = r.NumAltFreqs) ∧
      (∀ (r : RDS) (a b c d : Nat), b >>> 12 = 0 → b &&& 0x0800 ≠ 0x0800 →
        (∀ k, afLookup (Update r a b c d).AltFreqs k =
          if ((1 ≤ c &&& 0xff ∧ c &&& 0xff ≤ 204) ∧ k = 875 + (c &&& 0xff)) ∨
              ((1 ≤ c >>> 8 ∧ c >>> 8 ≤ 204) ∧ k = 875 + c >>> 8) then some true
          else afLookup r.AltFreqs k) ∧
        (Update r a b c d).NumAltFreqs =
          if 224 ≤ c &&& 0xff ∧ c &&& 0xff ≤ 249 then (((c &&& 0xff) - 224 : Nat) : Int)
          else if 224 ≤ c >>> 8 ∧ c >>> 8 ≤ 249 then ((c >>> 8 - 224 : Nat) : Int)
          else r.NumAltFreqs) := by
  constructor
  · intro r a b c d ht hv
    obtain ⟨r2, h2, he⟩ := Update_type0_altfreqs r a b c d ht
    rw [he, afView_update_ps_altfreqs_B r2 b c hv]
    simp only [afView, Prod.mk.injEq] at h2
    exact h2
  · intro r a b c d ht hv
    obtain ⟨r2, h2, he⟩ := Update_type0_altfreqs r a b c d ht
    simp only [afView, Prod.mk.injEq] at h2
    have h := afView_update_ps_altfreqs_A r2 b c hv
    rw [h2.1, h2.2] at h
    rw [he]
    exact h

/-- Witness of C17, from the empty decoder: a version-B group leaves the
alternative frequencies alone; in a version-A group code 50 adds 92.5 MHz,
code 230 sets the count to 6, and codes 0 and 255 have no effect. -/
theorem C17_alternative_frequencies_witness :
    ((Update RDS.empty 0 0x0800 0x32E6 0).AltFreqs = RDS.empty.AltFreqs ∧
        (Update RDS.empty 0 0x0800 0x32E6 0).NumAltFreqs = RDS.empty.NumAltFreqs) ∧
      afLookup (Update RDS.empty 0 0x0000 0x3200 0).AltFreqs 925 = some true ∧
      (Update RDS.empty 0 0x0000 0xE600 0).NumAltFreqs = 6 ∧
      afLookup (Update RDS.empty 0 0x0000 0x00FF 0).AltFreqs 1130 =
        afLookup RDS.empty.AltFreqs 1130 ∧
      (Update RDS.empty 0 0x0000 0x00FF 0).NumAltFreqs = RDS.empty.NumAltFreqs :=
  ⟨C17_alternative_frequencies.1 RDS.empty 0 0x0800 0x32E6 0 (by decide) (by decide),
    ((C17_alternative_frequencies.2 RDS.empty 0 0x0000 0x3200 0 (by decide) (by decide)).1
      925).trans (by decide),
    (C17_alternative_frequencies.2 RDS.empty 0 0x0000 0xE600 0 (by decide) (by decide)).2.trans
      (by decide),
    ((C17_alternative_frequencies.2 RDS.empty 0 0x0000 0x00FF 0 (by decide) (by decide)).1
      1130).trans (by decide),
    (C17_alternative_frequencies.2 RDS.empty 0 0x0000 0x00FF 0 (by decide) (by decide)).2.trans
      (by decide)⟩

/-! ## No access is out of range -/

theorem agetC_eq {n : Nat} {α : Type} [Inhabited α] (buf : Fin n → α) (i : Nat) (h : i < n) :
    agetC buf i = some (aget buf i) := by
  simp [agetC, aget, h]

theorem asetC_eq {n : Nat} {α : Type} (buf : Fin n → α) (i : Nat) (v : α) (h : i < n) :
    asetC buf i v = some (aset buf i v) := by
  simp [asetC, h]

theorem sliceC_eq {n : Nat} (buf : Fin n → Nat) (lo hi : Nat) (h1 : lo ≤ hi) (h2 : hi ≤ n) :
    sliceC buf lo hi = some (slice buf lo hi) := by
  simp [sliceC, h1, h2]

theorem foldlC_eq {σ : Type} (body : Nat → σ → Option σ) (pure_body : Nat → σ → σ)
    (l : List Nat) (h : ∀ i ∈ l, ∀ s, body i s = some (pure_body i s)) (s : σ) :
    foldlC body l s = some (l.foldl (fun acc i => pure_body i acc) s) := by
  induction l generalizing s with
  | nil => rfl
  | cons i l ih =>
    rw [foldlC, h i (List.mem_cons_self i l) s, Option.some_bind, List.foldl_cons]
    exact ih (fun j hj => h j (List.mem_cons_of_mem i hj)) _

theorem forLoopC_eq {σ : Type} (lo hi : Nat) (body : Nat → σ → Option σ)
    (pure_body : Nat → σ → σ)
    (h : ∀ i, lo ≤ i → i < hi → ∀ s, body i s = some (pure_body i s)) (s : σ) :
    forLoopC lo hi body s = some (forLoop lo hi pure_body s) := by
  unfold forLoopC forLoop
  apply foldlC_eq
  intro i hi2 s2
  rw [List.mem_range'_1] at hi2
  exact h i hi2.1 (by omega) s2

theorem sameLoopC_eq {n : Nat} (x y : Fin n → Nat) : sameLoopC n x y = some (sameLoop x y) := by
  unfold sameLoopC sameLoop
  apply forLoopC_eq
  intro i _ hi s
  rw [agetC_eq x i hi, agetC_eq y i hi]
  rfl

theorem copyLoopC_eq {n : Nat} (dst src : Fin n → Nat) :
    copyLoopC n dst src = some (copyLoop dst src) := by
  unfold copyLoopC copyLoop
  apply forLoopC_eq
  intro i _ hi s
  rw [agetC_eq src i hi]
  exact asetC_eq s i _ hi

theorem clearLoopC_eq {n : Nat} (flags : Fin n → Bool) :
    clearLoopC flags = some (clearLoop flags) := by
  unfold clearLoopC clearLoop
  apply forLoopC_eq
  intro i _ hi s
  exact asetC_eq s i _ hi

theorem scanCRC_eq {n : Nat} (buf : Fin n → Nat) (k i : Nat) :
    scanCRC buf k i = some (scanCR buf k i) := by
  induction k generalizing i with
  | zero => rfl
  | succ k ih =>
    unfold scanCRC scanCR
    by_cases hi : i < n
    · rw [if_pos hi, agetC_eq buf i hi, Option.some_bind]
      by_cases hv : aget buf i ≠ 0x0d
      · rw [if_pos hv, if_pos ⟨hi, hv⟩]
        exact ih (i + 1)
      · rw [if_neg hv, if_neg (fun hh => hv hh.2)]
    · rw [if_neg hi, if_neg (fun hh => hi hh.1)]

theorem scanCR_le {n : Nat} (buf : Fin n → Nat) (k i : Nat) (hi : i ≤ n) :
    scanCR buf k i ≤ n := by
  induction k generalizing i with
  | zero => exact hi
  | succ k ih =>
    unfold scanCR
    split_ifs with h
    · exact ih (i + 1) h.1
    · exact hi

theorem update_pi_switchC_eq (r : RDS) (a : Nat) :
    update_pi_switchC r a = some (update_pi_switch r a) := by
  unfold update_pi_switchC update_pi_switch
  have e0 : ∀ (buf : Fin 4 → Nat) v, asetC buf 0 v = some (aset buf 0 v) :=
    fun buf v => asetC_eq buf 0 v (by decide)
  have e1 : ∀ (buf : Fin 4 → Nat) v, asetC buf 1 v = some (aset buf 1 v) :=
    fun buf v => asetC_eq buf 1 v (by decide)
  have e2 : ∀ (buf : Fin 4 → Nat) v, asetC buf 2 v = some (aset buf 2 v) :=
    fun buf v => asetC_eq buf 2 v (by decide)
  have e3 : ∀ (buf : Fin 4 → Nat) v, asetC buf 3 v = some (aset buf 3 v) :=
    fun buf v => asetC_eq buf 3 v (by decide)
  split_ifs <;>
    simp only [e0, e1, e2, e3, Option.bind_eq_bind, Option.some_bind, Option.pure_def]

theorem update_pi_roundC_eq (r : RDS) : update_pi_roundC r = some (update_pi_round r) := by
  unfold update_pi_roundC update_pi_round
  simp only [sameLoopC_eq, Option.bind_eq_bind, Option.some_bind, Option.pure_def]
  cases sameLoop r.cs1 r.cs2 <;>
    simp only [copyLoopC_eq, Option.some_bind, if_true, if_false, Bool.false_eq_true]

theorem update_piC_eq (r : RDS) (a : Nat) : update_piC r a = some (update_pi r a) := by
  unfold update_piC update_pi
  simp only [update_pi_switchC_eq, update_pi_roundC_eq, Option.bind_eq_bind, Option.some_bind]

theorem update_ps_afC_eq (r : RDS) (f : Nat) (hs : r.AltFreqs.isSome = true) :
    update_ps_afC r f = some (update_ps_af r f) ∧ (update_ps_af r f).AltFreqs.isSome = true := by
  obtain ⟨m, hm⟩ := Option.isSome_iff_exists.mp hs
  unfold update_ps_afC update_ps_af
  split_ifs <;>
    simp [hm, mapSetC]

theorem update_ps_altfreqsC_eq (r : RDS) (b c : Nat) :
    update_ps_altfreqsC r b c = some (update_ps_altfreqs r b c) := by
  unfold update_ps_altfreqsC update_ps_altfreqs
  by_cases hv : b &&& 0x0800 ≠ 0x0800
  · rw [if_pos hv, if_pos hv]
    have key : ∀ r0 : RDS, r0.AltFreqs.isSome = true →
        ((update_ps_afC r0 (c >>> 8)).bind fun r1 => update_ps_afC r1 (c &&& 0xff)) =
          some ([c >>> 8, c &&& 0xff].foldl update_ps_af r0) := by
      intro r0 h0
      obtain ⟨e1, s1⟩ := update_ps_afC_eq r0 (c >>> 8) h0
      obtain ⟨e2, -⟩ := update_ps_afC_eq (update_ps_af r0 (c >>> 8)) (c &&& 0xff) s1
      rw [e1, Option.some_bind, e2]
      rfl
    by_cases hnil : r.AltFreqs.isNone = true
    · simp only [if_pos hnil, Option.bind_eq_bind]
      exact key _ rfl
    · simp only [if_neg hnil, Option.bind_eq_bind]
      apply key
      cases h : r.AltFreqs with
      | none => rw [h] at hnil; exact absurd rfl hnil
      | some m => rfl
  · rw [if_neg hv, if_neg hv]
    rfl

theorem update_ps_roundC_eq (r : RDS) : update_ps_roundC r = some (update_ps_round r) := by
  have hs : sliceC r.ps2 0 8 = some (slice r.ps2 0 8) :=
    sliceC_eq r.ps2 0 8 (by decide) (by decide)
  unfold update_ps_roundC update_ps_round
  simp only [sameLoopC_eq, Option.bind_eq_bind, Option.some_bind, Option.pure_def]
  cases sameLoop r.ps1 r.ps2 <;>
    simp only [copyLoopC_eq, hs, Option.some_bind, if_true, if_false, Bool.false_eq_true]

theorem update_psC_eq (r : RDS) (a b c d : Nat) :
    update_psC r a b c d = some (update_ps r a b c d) := by
  have hidx : (b &&& 0x3) * 2 + 1 < 8 := by
    have := @Nat.and_le_right b 0x3
    omega
  have hidx0 : (b &&& 0x3) * 2 < 8 := by omega
  unfold update_psC update_ps
  simp only [clearLoopC_eq, Option.bind_eq_bind, Option.some_bind, Option.pure_def,
    asetC_eq (n := 8) _ _ _ hidx, asetC_eq (n := 8) _ _ _ hidx0]
  split_ifs
  · simp only [update_ps_roundC_eq, Option.some_bind, update_ps_altfreqsC_eq]
  · simp only [Option.some_bind, update_ps_altfreqsC_eq]

theorem update_rt_storeC_eq (idx : Nat) (m : Fin 4 → Nat) (i : Nat) (s : RDS × Int)
    (hi : i < 4) (hidx : idx + i < 64) :
    update_rt_storeC idx m i s = some (update_rt_store idx m i s) := by
  unfold update_rt_storeC update_rt_store
  simp only [agetC_eq m i hi, asetC_eq (n := 64) _ _ _ hidx, Option.bind_eq_bind,
    Option.some_bind, Option.pure_def]

theorem update_rt_blankC_eq (r : RDS) (cr : Int) (h : -1 ≤ cr) :
    update_rt_blankC r cr = some (update_rt_blank r cr) := by
  unfold update_rt_blankC update_rt_blank
  by_cases hc : cr ≠ -1
  · have hneg : ¬ cr + 1 < 0 := by omega
    rw [if_pos hc, if_pos hc, if_neg hneg]
    have hl := forLoopC_eq (cr + 1).toNat 64 (fun i (acc : Fin 64 → Nat) => asetC acc i 32)
      (fun i acc => aset acc i 32) (fun i _ hi acc => asetC_eq acc i 32 hi) r.rt1
    simp only [hl, Option.bind_eq_bind, Option.some_bind, Option.pure_def]
  · rw [if_neg hc, if_neg hc]
    rfl

theorem update_rt_roundC_eq (r : RDS) : update_rt_roundC r = some (update_rt_round r) := by
  have hs : sliceC r.rt2 0 (scanCR r.rt2 64 0) = some (slice r.rt2 0 (scanCR r.rt2 64 0)) :=
    sliceC_eq r.rt2 0 _ (Nat.zero_le _) (scanCR_le r.rt2 64 0 (Nat.zero_le _))
  unfold update_rt_roundC update_rt_round
  simp only [sameLoopC_eq, Option.bind_eq_bind, Option.some_bind, Option.pure_def]
  cases sameLoop r.rt1 r.rt2 <;>
    simp only [copyLoopC_eq, scanCRC_eq, hs, Option.some_bind, if_true, if_false,
      Bool.false_eq_true]

theorem update_rtC_eq (r : RDS) (a b c d : Nat) :
    update_rtC r a b c d = some (update_rt r a b c d) := by
  have hidx : (b &&& 0xf) * 4 ≤ 60 := by
    have := @Nat.and_le_right b 0xf
    omega
  have e0 : ∀ (buf : Fin 4 → Nat) v, asetC buf 0 v = some (aset buf 0 v) :=
    fun buf v => asetC_eq buf 0 v (by decide)
  have e1 : ∀ (buf : Fin 4 → Nat) v, asetC buf 1 v = some (aset buf 1 v) :=
    fun buf v => asetC_eq buf 1 v (by decide)
  have e2 : ∀ (buf : Fin 4 → Nat) v, asetC buf 2 v = some (aset buf 2 v) :=
    fun buf v => asetC_eq buf 2 v (by decide)
  have e3 : ∀ (buf : Fin 4 → Nat) v, asetC buf 3 v = some (aset buf 3 v) :=
    fun buf v => asetC_eq buf 3 v (by decide)
  unfold update_rtC update_rt
  simp only [e0, e1, e2, e3, clearLoopC_eq, Option.bind_eq_bind, Option.some_bind,
    Option.pure_def]
  generalize (aset (aset (aset (aset (fun _ => 0) 0 (((c >>> 8) &&& 0x7f) % 256)) 1
    ((c &&& 0x7f) % 256)) 2 (((d >>> 8) &&& 0x7f) % 256)) 3 ((d &&& 0x7f) % 256) :
      Fin 4 → Nat) = m
  have hl := forLoopC_eq 0 4 (update_rt_storeC ((b &&& 0xf) * 4) m)
    (update_rt_store ((b &&& 0xf) * 4) m)
    (fun i _ hi s => update_rt_storeC_eq _ m i s hi (by omega))
    ({ r with rtnew := clearLoop r.rtnew }, -1)
  rw [hl, Option.some_bind]
  have hcr : -1 ≤ (forLoop 0 4 (update_rt_store ((b &&& 0xf) * 4) m)
      ({ r with rtnew := clearLoop r.rtnew }, -1)).2 := by
    rw [(update_rt_store_loop ((b &&& 0xf) * 4) m { r with rtnew := clearLoop r.rtnew }).2]
    split_ifs <;> omega
  rw [update_rt_blankC_eq _ _ hcr, Option.some_bind]
  split_ifs
  · exact update_rt_roundC_eq _
  · rfl

theorem update_aidC_eq (r : RDS) (a b c d : Nat) :
    update_aidC r a b c d = some (update_aid r a b c d) := by
  have hslot : b &&& 0x1f < 32 := by
    have := @Nat.and_le_right b 0x1f
    omega
  unfold update_aidC update_aid
  simp only [asetC_eq (n := 32) _ _ _ hslot, Option.bind_eq_bind, Option.some_bind,
    Option.pure_def]
  cases hm : r.aid with
  | none => simp [hm, mapSetC]
  | some f =>
    cases hk : f a with
    | none => simp [hm, hk, mapSetC]
    | some t => simp [hm, hk]

theorem UpdateC_eq (r : RDS) (a b c d : Nat) :
    UpdateC r a b c d = some (Update r a b c d, none) := by
  unfold UpdateC Update
  simp only [update_piC_eq, Option.bind_eq_bind, Option.some_bind, Option.pure_def]
  split_ifs <;>
    simp only [update_psC_eq, update_rtC_eq, update_aidC_eq, Option.some_bind]

/-- C15: decoding is total.  For every decoder state (the zero value with its
`nil` maps included) and every four words, the decoder with checked accesses
runs to the end without a panic, gives the same state as `Update` and returns a
`nil` error: no array index is out of range and no `nil` map is assigned to.
The program-service positions `(b & 0x3)*2` and `(b & 0x3)*2+1` are at most 7,
the radiotext positions `(b & 0xF)*4 .. (b & 0xF)*4+3` are at most 63 and the
open-data slot `b & 0x1F` is at most 31. -/
theorem C15_decoding_is_total (r : RDS) (a b c d : Nat) :
    UpdateC r a b c d = some (Update r a b c d, none) ∧
      (b &&& 0x3) * 2 + 1 ≤ 7 ∧ (b &&& 0xf) * 4 + 3 ≤ 63 ∧ b &&& 0x1f ≤ 31 := by
  have h3 := @Nat.and_le_right b 0x3
  have hf := @Nat.and_le_right b 0xf
  have h1f := @Nat.and_le_right b 0x1f
  exact ⟨UpdateC_eq r a b c d, by omega, by omega, h1f⟩

/-! ## The tuner: accepted frequencies and the channel code -/

theorem Freq.lt_iff (a b : Freq) : Freq.lt a b ↔ a.toRat < b.toRat := by
  have ha : (0 : ℚ) < (a.den : ℚ) := by exact_mod_cast a.pos
  have hb : (0 : ℚ) < (b.den : ℚ) := by exact_mod_cast b.pos
  unfold Freq.lt Freq.toRat
  rw [div_lt_div_iff₀ ha hb]
  constructor
  · intro h
    exact_mod_cast h
  · intro h
    exact_mod_cast h

theorem f87_5_toRat : f87_5.toRat = 87.5 := by
  unfold Freq.toRat f87_5
  norm_num

theorem f107_9_toRat : f107_9.toRat = 3796393748384973 / 2 ^ 45 := by
  unfold Freq.toRat f107_9
  norm_num

theorem grid_toRat (m : Int) : (⟨m, 2 ^ 46, Nat.two_pow_pos 46⟩ : Freq).toRat = (m : ℚ) / 2 ^ 46 := by
  unfold Freq.toRat
  norm_num

theorem grid_above_bound (m : Int) :
    (m : ℚ) / 2 ^ 46 > 3796393748384973 / 2 ^ 45 ↔
      ((m : ℚ) / 2 ^ 46 > 107.9 ∧ (m : ℚ) / 2 ^ 46 ≠ 3796393748384973 / 2 ^ 45) := by
  have h1 : (m : ℚ) / 2 ^ 46 > 3796393748384973 / 2 ^ 45 ↔ 7592787496769946 < m := by
    rw [gt_iff_lt, div_lt_div_iff₀ (by positivity) (by positivity)]
    constructor
    · intro h
      have h' : ((7592787496769946 * 2 ^ 45 : Int) : ℚ) < ((m * 2 ^ 45 : Int) : ℚ) := by
        push_cast
        linarith
      have h2 : (7592787496769946 * 2 ^ 45 : Int) < m * 2 ^ 45 := by exact_mod_cast h'
      omega
    · intro h
      have h2 : (7592787496769946 * 2 ^ 45 : Int) < m * 2 ^ 45 := by omega
      have h' : ((7592787496769946 * 2 ^ 45 : Int) : ℚ) < ((m * 2 ^ 45 : Int) : ℚ) := by
        exact_mod_cast h2
      push_cast at h'
      linarith
  have h2 : (m : ℚ) / 2 ^ 46 > 107.9 ↔ 7592787496769946 ≤ m := by
    rw [gt_iff_lt, lt_div_iff₀ (by positivity)]
    constructor
    · intro h
      have h' : ((75927874967699456 : Int) : ℚ) < ((10 * m : Int) : ℚ) := by
        push_cast
        norm_num at h ⊢
        linarith
      have h3 : (75927874967699456 : Int) < 10 * m := by exact_mod_cast h'
      omega
    · intro h
      have h3 : (75927874967699456 : Int) < 10 * m := by omega
      have h' : ((75927874967699456 : Int) : ℚ) < ((10 * m : Int) : ℚ) := by exact_mod_cast h3
      push_cast at h'
      norm_num at h' ⊢
      linarith
  have h3 : (m : ℚ) / 2 ^ 46 ≠ 3796393748384973 / 2 ^ 45 ↔ m ≠ 7592787496769946 := by
    rw [Ne, div_eq_div_iff (by positivity) (by positivity)]
    constructor
    · intro h he
      apply h
      rw [he]
      norm_num
    · intro h he
      apply h
      have h' : ((m * 2 ^ 45 : Int) : ℚ) = ((7592787496769946 * 2 ^ 45 : Int) : ℚ) := by
        push_cast
        linarith
      have h4 : m * 2 ^ 45 = (7592787496769946 * 2 ^ 45 : Int) := by exact_mod_cast h'
      omega
  rw [h1, h2, h3]
  omega

theorem SetChannel_rejected (s : Si4703) (c : Freq) (h : Freq.lt c f87_5 ∨ Freq.lt f107_9 c) :
    SetChannel s c = (s, Outcome.returned (some Error.ErrInvalidFreq)) := by
  unfold SetChannel
  rw [if_pos h]

theorem SetChannel_accepted (s : Si4703) (c : Freq) (h : ¬ (Freq.lt c f87_5 ∨ Freq.lt f107_9 c)) :
    (SetChannel s c).2 ≠ Outcome.returned (some Error.ErrInvalidFreq) := by
  unfold SetChannel
  rw [if_neg h]
  dsimp only
  split
  · simp
  · split
    · simp
    · simp
    · simp
    · split <;> simp

/-- C19: `SetChannel` returns `ErrInvalidFreq` if and only if the requested
frequency `c` satisfies the guard `c < 87.5 || c > 107.9`, whose constants are
the `float64` values of the literals (87.5, and `3796393748384973 / 2^45` for
107.9); on the `float64` values from 64 upward, the multiples `m / 2^46`, this
is: `c < 87.5` or `c > 107.9`, the bound itself excepted.  The bounds 87.5 and
107.9 themselves are accepted and 200.0 is rejected.  On rejection `SetChannel`
performs no hardware access: the tuner state, with its count of device reads,
its log of device writes and its cached register array, is unchanged. -/
theorem C19_invalid_frequency_rejected :
    (∀ (s : Si4703) (c : Freq),
        (SetChannel s c).2 = Outcome.returned (some Error.ErrInvalidFreq) ↔
          (c.toRat < 87.5 ∨ c.toRat > 3796393748384973 / 2 ^ 45)) ∧
      (∀ (s : Si4703) (m : Int),
        (SetChannel s ⟨m, 2 ^ 46, Nat.two_pow_pos 46⟩).2 =
            Outcome.returned (some Error.ErrInvalidFreq) ↔
          ((m : ℚ) / 2 ^ 46 < 87.5 ∨
            ((m : ℚ) / 2 ^ 46 > 107.9 ∧ (m : ℚ) / 2 ^ 46 ≠ f107_9.toRat))) ∧
      (∀ (s : Si4703) (c : Freq), (c.toRat < 87.5 ∨ c.toRat > 3796393748384973 / 2 ^ 45) →
        (SetChannel s c).1 = s ∧ (SetChannel s c).1.device.ntx = s.device.ntx ∧
        (SetChannel s c).1.device.written = s.device.written ∧
        (SetChannel s c).1.Reg = s.Reg) ∧
      (∀ s : Si4703, (SetChannel s f87_5).2 ≠ Outcome.returned (some Error.ErrInvalidFreq)) ∧
      (∀ s : Si4703, (SetChannel s f107_9).2 ≠ Outcome.returned (some Error.ErrInvalidFreq)) ∧
      (∀ s : Si4703,
        SetChannel s ⟨200, 1, by decide⟩ = (s, Outcome.returned (some Error.ErrInvalidFreq))) := by
  have hiff : ∀ c : Freq, (Freq.lt c f87_5 ∨ Freq.lt f107_9 c) ↔
      (c.toRat < 87.5 ∨ c.toRat > 3796393748384973 / 2 ^ 45) := by
    intro c
    rw [Freq.lt_iff, Freq.lt_iff, f87_5_toRat, f107_9_toRat]
  have hgen : ∀ (s : Si4703) (c : Freq),
      (SetChannel s c).2 = Outcome.returned (some Error.ErrInvalidFreq) ↔
        (c.toRat < 87.5 ∨ c.toRat > 3796393748384973 / 2 ^ 45) := by
    intro s c
    rw [← hiff]
    constructor
    · intro h
      by_contra hn
      exact SetChannel_accepted s c hn h
    · intro h
      rw [SetChannel_rejected s c h]
  refine ⟨hgen, ?_, ?_, ?_, ?_, ?_⟩
  · intro s m
    rw [hgen, grid_toRat, f107_9_toRat, grid_above_bound]
  · intro s c h
    rw [SetChannel_rejected s c ((hiff c).mpr h)]
    exact ⟨rfl, rfl, rfl, rfl⟩
  · intro s
    exact SetChannel_accepted s f87_5 (by decide)
  · intro s
    exact SetChannel_accepted s f107_9 (by decide)
  · intro s
    exact SetChannel_rejected s _ (by decide)

/-- Witness of C19: 200.0 MHz asked of a tuner whose device would complete the
tuning. -/
theorem C19_invalid_frequency_rejected_witness :
    (SetChannel tunedRadio ⟨200, 1, by decide⟩).1 = tunedRadio ∧
      (SetChannel tunedRadio ⟨200, 1, by decide⟩).1.device.ntx = tunedRadio.device.ntx ∧
      (SetChannel tunedRadio ⟨200, 1, by decide⟩).1.device.written =
        tunedRadio.device.written ∧
      (SetChannel tunedRadio ⟨200, 1, by decide⟩).1.Reg = tunedRadio.Reg :=
  C19_invalid_frequency_rejected.2.2.1 tunedRadio ⟨200, 1, by decide⟩
    (Or.inr (by
      unfold Freq.toRat
      norm_num))

theorem channelOf_on_grid (n : Nat) (hn : n ≤ 102) :
    channelOf ⟨875 + 2 * (n : Int), 10, by decide⟩ = n := by
  unfold channelOf truncDiv
  have e : 5 * (2 * (875 + 2 * (n : Int)) - 175 * ((10 : Nat) : Int)) = ((20 * n : Nat) : Int) := by
    push_cast
    ring
  simp only [e]
  rw [if_pos (Int.ofNat_nonneg _), Int.toNat_ofNat]
  have e2 : 20 * n / (2 * 10) = n := by omega
  rw [e2]
  omega

/-- C20 (the code at the failing input): `SetChannel` converts
`(c - 87.5) / 0.2` with `uint16(...)`, which discards the fraction.  The
frequencies 88.09 MHz and the `float64` value of the literal `88.1` (just below
88.1) are accepted; for both the nearest channel is 3 (88.1 MHz), and for both
the word `SetChannel` writes to start tuning carries the channel code 2
(87.9 MHz). -/
theorem C20_channel_code_truncated :
    ¬ (Freq.lt f88_09 f87_5 ∨ Freq.lt f107_9 f88_09) ∧
      ¬ (Freq.lt f88_1 f87_5 ∨ Freq.lt f107_9 f88_1) ∧
      roundChannel f88_09 = 3 ∧ roundChannel f88_1 = 3 ∧
      channelOf f88_09 = 2 ∧ channelOf f88_1 = 2 ∧
      ((SetChannel tunedRadio f88_09).1.device.written.map
        (fun buf => wordOf buf CHANNEL &&& 0x01FF)).head? = some 2 ∧
      ((SetChannel tunedRadio f88_1).1.device.written.map
        (fun buf => wordOf buf CHANNEL &&& 0x01FF)).head? = some 2 := by
  refine ⟨by decide, by decide, by decide, by decide, by decide, by decide, by decide,
    by decide⟩

/-! ## The tuner: reads, writes and the wait loop -/

theorem Read_ok (s : Si4703) (buf : Fin 32 → Nat) (h : s.device.tx s.device.ntx = Except.ok buf) :
    Read s = ({ s with device := { s.device with ntx := s.device.ntx + 1 }, Reg := regsOf buf },
      none) := by
  unfold Read Dev.Tx
  simp only [h]
  congr 2
  funext j
  unfold regsOf
  simp only [forLoop, List.range', List.foldl, aset_apply]
  fin_cases j <;> simp

theorem Read_err (s : Si4703) (e : Error) (h : s.device.tx s.device.ntx = Except.error e) :
    Read s = ({ s with device := { s.device with ntx := s.device.ntx + 1 } }, some e) := by
  unfold Read Dev.Tx
  simp only [h]

theorem regsOf_lt (buf : Fin 32 → Nat) (k : Nat) : aget (regsOf buf) k < 65536 := by
  unfold aget
  split_ifs
  · unfold regsOf
    exact Nat.mod_lt _ (by decide)
  · exact (by decide : (default : Nat) < 65536)

theorem Read_frame (s : Si4703) :
    (Read s).1.device.tx = s.device.tx ∧ (Read s).1.device.wr = s.device.wr ∧
      (Read s).1.device.written = s.device.written ∧ (Read s).1.Polling = s.Polling ∧
      (Read s).1.Rate = s.Rate ∧ (Read s).1.clock = s.clock ∧ (Read s).1.next = s.next := by
  unfold Read Dev.Tx
  dsimp only
  split <;> exact ⟨rfl, rfl, rfl, rfl, rfl, rfl, rfl⟩

theorem burstOf_in_range (Reg : Fin 16 → Nat) (reg : Int) (val : Nat) (h2 : 2 ≤ reg)
    (h7 : reg ≤ 7) :
    ∃ burst : Fin 12 → Nat, burstOf Reg reg val = some burst ∧
      ∀ k : Nat, 2 ≤ k → k ≤ 7 →
        aget burst ((k - 2) * 2) =
            ((if (k : Int) = reg then val else aget Reg k) >>> 8) % 256 ∧
          aget burst ((k - 2) * 2 + 1) =
            ((if (k : Int) = reg then val else aget Reg k) &&& 0xff) % 256 := by
  interval_cases reg <;> refine ⟨_, rfl, ?_⟩ <;> intro k k2 k7 <;> interval_cases k <;>
    exact ⟨rfl, rfl⟩

theorem burstOf_out_of_range (Reg : Fin 16 → Nat) (reg : Int) (val : Nat)
    (h : reg < 2 ∨ 7 < reg) : burstOf Reg reg val = none := by
  have hn : ¬ (0 ≤ (reg - 2) * 2 ∧ (reg - 2) * 2 < ((12 : Nat) : Int)) := by
    push_cast
    omega
  simp only [burstOf, asetiC]
  rw [if_neg hn]

theorem Set_read_failed (s : Si4703) (reg : Int) (val : Nat) (e : Error)
    (h : s.device.tx s.device.ntx = Except.error e) :
    Set s reg val =
      ({ s with device := { s.device with ntx := s.device.ntx + 1 } },
        Ended.returned (some e)) := by
  unfold Set
  simp only [Read_err s e h]

theorem Set_panics (s : Si4703) (reg : Int) (val : Nat) (buf : Fin 32 → Nat)
    (h : s.device.tx s.device.ntx = Except.ok buf)
    (hb : burstOf (regsOf buf) reg val = none) :
    Set s reg val =
      ({ s with device := { s.device with ntx := s.device.ntx + 1 }, Reg := regsOf buf },
        Ended.panicked) := by
  unfold Set
  simp only [Read_ok s buf h, hb]

theorem Set_read_ok (s : Si4703) (reg : Int) (val : Nat) (buf : Fin 32 → Nat)
    (burst : Fin 12 → Nat) (h : s.device.tx s.device.ntx = Except.ok buf)
    (hb : burstOf (regsOf buf) reg val = some burst) :
    Set s reg val =
      match (s.device.wr s.device.written.length).2 with
      | some err => (afterWrite s buf burst, Ended.returned (some err))
      | none =>
        if (s.device.wr s.device.written.length).1 ≠ 12 then
          (afterWrite s buf burst, Ended.returned (some Error.ErrShortWrite))
        else ((Read (afterWrite s buf burst)).1, Ended.returned (Read (afterWrite s buf burst)).2) := by
  unfold Set
  simp only [Read_ok s buf h, hb, Dev.Write]
  cases hw : (s.device.wr s.device.written.length).2 with
  | some err => rfl
  | none =>
    dsimp only
    by_cases hn : (s.device.wr s.device.written.length).1 ≠ 12
    · rw [if_pos hn, if_pos hn]
      rfl
    · rw [if_neg hn, if_neg hn]
      have e : ∀ p : Si4703 × Option Error,
          (match p.2 with
            | some err => (p.1, Ended.returned (some err))
            | none => (p.1, Ended.returned none)) = (p.1, Ended.returned p.2) := by
        rintro ⟨p1, _ | p2⟩ <;> rfl
      exact e _

theorem Set_written (s : Si4703) (reg : Int) (val : Nat) (buf : Fin 32 → Nat)
    (burst : Fin 12 → Nat) (h : s.device.tx s.device.ntx = Except.ok buf)
    (hb : burstOf (regsOf buf) reg val = some burst) :
    (Set s reg val).1.device.written = s.device.written ++ [List.ofFn burst] := by
  rw [Set_read_ok s reg val buf burst h hb]
  cases hw : (s.device.wr s.device.written.length).2 with
  | some err => rfl
  | none =>
    dsimp only
    split_ifs
    · rfl
    · exact (Read_frame _).2.2.1

theorem Set_frame (s : Si4703) (reg : Int) (val : Nat) :
    (Set s reg val).1.device.tx = s.device.tx ∧ (Set s reg val).1.device.wr = s.device.wr ∧
      (Set s reg val).1.Polling = s.Polling ∧
      (Set s reg val).1.Rate = s.Rate ∧ (Set s reg val).1.clock = s.clock ∧
      (Set s reg val).1.next = s.next := by
  cases h : s.device.tx s.device.ntx with
  | error e =>
    rw [Set_read_failed s reg val e h]
    exact ⟨rfl, rfl, rfl, rfl, rfl, rfl⟩
  | ok buf =>
    cases hb : burstOf (regsOf buf) reg val with
    | none =>
      rw [Set_panics s reg val buf h hb]
      exact ⟨rfl, rfl, rfl, rfl, rfl, rfl⟩
    | some burst =>
      rw [Set_read_ok s reg val buf burst h hb]
      cases hw : (s.device.wr s.device.written.length).2 with
      | some err => exact ⟨rfl, rfl, rfl, rfl, rfl, rfl⟩
      | none =>
        dsimp only
        split_ifs
        · exact ⟨rfl, rfl, rfl, rfl, rfl, rfl⟩
        · obtain ⟨h1, h2, -, h4, h5, h6, h7⟩ := Read_frame (afterWrite s buf burst)
          exact ⟨h1, h2, h4, h5, h6, h7⟩

theorem Set_returns (s : Si4703) (reg : Int) (val : Nat) (h2 : 2 ≤ reg) (h7 : reg ≤ 7) :
    ∃ err : Option Error, (Set s reg val).2 = Ended.returned err := by
  cases h : s.device.tx s.device.ntx with
  | error e =>
    rw [Set_read_failed s reg val e h]
    exact ⟨_, rfl⟩
  | ok buf =>
    obtain ⟨burst, hb, -⟩ := burstOf_in_range (regsOf buf) reg val h2 h7
    rw [Set_read_ok s reg val buf burst h hb]
    cases hw : (s.device.wr s.device.written.length).2 with
    | some err => exact ⟨_, rfl⟩
    | none =>
      dsimp only
      split_ifs
      · exact ⟨_, rfl⟩
      · exact ⟨_, rfl⟩

theorem getD_ofFn {n : Nat} (f : Fin n → Nat) (i : Nat) : (List.ofFn f).getD i 0 = aget f i := by
  unfold aget
  by_cases h : i < n
  · rw [dif_pos h, List.getD_eq_getElem _ _ (by simpa using h)]
    simp
  · rw [dif_neg h, List.getD_eq_default _ _ (by simpa using h)]
    rfl

theorem hi_byte (x : Nat) (h : x < 65536) : (x >>> 8) % 256 = x / 256 := by
  rw [Nat.shiftRight_eq_div_pow]
  omega

theorem lo_byte (x : Nat) : (x &&& 0xff) % 256 = x % 256 := by
  have h := Nat.and_pow_two_sub_one_eq_mod x 8
  norm_num at h
  rw [h]
  omega

theorem testBit_8000 (i : Nat) : Nat.testBit 0x8000 i = decide (i = 15) := by
  have h := @Nat.testBit_two_pow 15 i
  norm_num at h
  rw [h]
  by_cases hi : i = 15 <;> simp [hi, eq_comm]

theorem testBit_1FF (i : Nat) : Nat.testBit 0x01FF i = decide (i < 9) := by
  have h := Nat.testBit_two_pow_sub_one 9 i
  norm_num at h
  exact h

theorem testBit_FE00 (i : Nat) : Nat.testBit 0xFE00 i = decide (9 ≤ i ∧ i < 16) := by
  have e : 0xFE00 = 0x7F <<< 9 := by decide
  have h := Nat.testBit_two_pow_sub_one 7 (i - 9)
  norm_num at h
  rw [e, Nat.testBit_shiftLeft, h]
  by_cases h9 : 9 ≤ i
  · by_cases h16 : i < 16
    · have : i - 9 < 7 := by omega
      simp [h9, h16, this]
    · have : ¬ i - 9 < 7 := by omega
      simp [h9, h16, this]
  · simp [h9]

theorem testBit_7E00 (i : Nat) : Nat.testBit 0x7E00 i = decide (9 ≤ i ∧ i < 15) := by
  have e : 0x7E00 = 0x3F <<< 9 := by decide
  have h := Nat.testBit_two_pow_sub_one 6 (i - 9)
  norm_num at h
  rw [e, Nat.testBit_shiftLeft, h]
  by_cases h9 : 9 ≤ i
  · by_cases h15 : i < 15
    · have : i - 9 < 6 := by omega
      simp [h9, h15, this]
    · have : ¬ i - 9 < 6 := by omega
      simp [h9, h15, this]
  · simp [h9]

theorem testBit_7FFF (i : Nat) : Nat.testBit 0x7FFF i = decide (i < 15) := by
  have h := Nat.testBit_two_pow_sub_one 15 i
  norm_num at h
  exact h

theorem testBit_small (n i : Nat) (hn : n < 512) (hi : 9 ≤ i) : n.testBit i = false := by
  apply Nat.testBit_lt_two_pow
  calc n < 2 ^ 9 := hn
    _ ≤ 2 ^ i := Nat.pow_le_pow_right (by decide) hi

theorem tune_word (r n : Nat) (hn : n < 512) :
    (((r &&& 0xFE00) ||| n) ||| (1 <<< 15)) &&& 0x8000 = 0x8000 ∧
      (((r &&& 0xFE00) ||| n) ||| (1 <<< 15)) &&& 0x01FF = n ∧
      (((r &&& 0xFE00) ||| n) ||| (1 <<< 15)) &&& 0x7E00 = r &&& 0x7E00 ∧
      (((r &&& 0xFE00) ||| n) ||| (1 <<< 15)) < 65536 := by
  have e15 : (1 <<< 15 : Nat) = 0x8000 := by decide
  rw [e15]
  refine ⟨?_, ?_, ?_, ?_⟩
  · apply Nat.eq_of_testBit_eq
    intro i
    simp only [Nat.testBit_and, Nat.testBit_or, testBit_8000, testBit_FE00]
    by_cases hi : i = 15 <;> simp [hi]
  · apply Nat.eq_of_testBit_eq
    intro i
    simp only [Nat.testBit_and, Nat.testBit_or, testBit_8000, testBit_FE00, testBit_1FF]
    by_cases hi : i < 9
    · have h1 : ¬ 9 ≤ i := by omega
      have h2 : i ≠ 15 := by omega
      simp [hi, h1, h2]
    · have h1 : 9 ≤ i := by omega
      simp [hi, testBit_small n i hn h1]
  · apply Nat.eq_of_testBit_eq
    intro i
    simp only [Nat.testBit_and, Nat.testBit_or, testBit_8000, testBit_FE00, testBit_7E00]
    by_cases h9 : 9 ≤ i
    · by_cases h15 : i < 15
      · have h16 : i < 16 := by omega
        have hne : i ≠ 15 := by omega
        simp [h9, h15, h16, hne, testBit_small n i hn h9]
      · simp [h9, h15]
    · simp [h9]
  · have h1 : r &&& 0xFE00 < 2 ^ 16 := Nat.and_lt_two_pow _ (by decide)
    have h2 : n < 2 ^ 16 := by omega
    have h3 : (0x8000 : Nat) < 2 ^ 16 := by decide
    exact Nat.or_lt_two_pow (Nat.or_lt_two_pow h1 h2) h3

theorem clear_word (r : Nat) :
    (r &&& 0x7FFF) &&& 0x8000 = 0 ∧ (r &&& 0x7FFF) &&& 0x7FFF = r &&& 0x7FFF ∧
      r &&& 0x7FFF < 65536 := by
  refine ⟨?_, ?_, ?_⟩
  · apply Nat.eq_of_testBit_eq
    intro i
    simp only [Nat.testBit_and, testBit_8000, testBit_7FFF, Nat.zero_testBit]
    by_cases hi : i = 15 <;> simp [hi]
  · apply Nat.eq_of_testBit_eq
    intro i
    simp only [Nat.testBit_and, testBit_7FFF]
    by_cases hi : i < 15 <;> simp [hi]
  · have h1 : r &&& 0x7FFF < 2 ^ 15 := Nat.and_lt_two_pow _ (by decide)
    omega

theorem channelOf_le (c : Freq) (h : ¬ (Freq.lt c f87_5 ∨ Freq.lt f107_9 c)) :
    channelOf c ≤ 102 := by
  have hd := c.pos
  unfold Freq.lt f87_5 f107_9 at h
  simp only [not_or, not_lt] at h
  obtain ⟨h1, h2⟩ := h
  push_cast at h1 h2
  unfold channelOf truncDiv
  have h0 : 0 ≤ 5 * (2 * c.num - 175 * (c.den : Int)) := by omega
  rw [if_pos h0]
  have hq : (5 * (2 * c.num - 175 * (c.den : Int))).toNat / (2 * c.den) < 103 := by
    rw [Nat.div_lt_iff_lt_mul (by omega)]
    omega
  generalize (5 * (2 * c.num - 175 * (c.den : Int))).toNat / (2 * c.den) = q at hq
  omega

theorem SetChannel_eq (s : Si4703) (c : Freq) (h : ¬ (Freq.lt c f87_5 ∨ Freq.lt f107_9 c)) :
    SetChannel s c =
      match (tuneWait s c).2 with
      | Wait.timeout => ((tuneWait s c).1, Outcome.returned (some Error.ErrTimeout))
      | Wait.exit => ((tuneWait s c).1, Outcome.exited (-1))
      | Wait.unfinished => ((tuneWait s c).1, Outcome.unfinished)
      | Wait.complete =>
        ((Set (tuneWait s c).1 CHANNEL (aget (tuneWait s c).1.Reg CHANNEL &&& 0x7FFF)).1,
          Outcome.returned none) := by
  obtain ⟨e1, he1⟩ := Set_returns s CHANNEL
    (((aget s.Reg CHANNEL &&& 0xFE00) ||| channelOf c) ||| (1 <<< 15)) (by decide) (by decide)
  obtain ⟨e2, he2⟩ := Set_returns (tuneWait s c).1 CHANNEL
    (aget (tuneWait s c).1.Reg CHANNEL &&& 0x7FFF) (by decide) (by decide)
  unfold SetChannel
  rw [if_neg h]
  unfold tuneWait at he2 ⊢
  dsimp only at he2 ⊢
  rw [he1]
  dsimp only
  cases hw : (waitSTC 52
      ((Set s CHANNEL (((aget s.Reg CHANNEL &&& 0xFE00) ||| channelOf c) ||| (1 <<< 15))).1.clock
        + 5000)
      (Set s CHANNEL (((aget s.Reg CHANNEL &&& 0xFE00) ||| channelOf c) ||| (1 <<< 15))).1).2 with
  | timeout => rfl
  | exit => rfl
  | unfinished => rfl
  | complete =>
    dsimp only
    rw [he2]

theorem forLoop_invariant {σ : Type} (P : σ → Prop) (lo hi : Nat) (body : Nat → σ → σ)
    (hbody : ∀ i s, P s → P (body i s)) (s : σ) (hs : P s) : P (forLoop lo hi body s) := by
  unfold forLoop
  generalize List.range' lo (hi - lo) = l
  induction l generalizing s with
  | nil => exact hs
  | cons i l ih => exact ih (body i s) (hbody i s hs)

theorem sameDevice_refl (s : Si4703) : sameDevice s s := ⟨rfl, rfl, rfl, rfl, rfl⟩

theorem sameDevice_trans {s t u : Si4703} (h1 : sameDevice s t) (h2 : sameDevice t u) :
    sameDevice s u :=
  ⟨h2.1.trans h1.1, h2.2.1.trans h1.2.1, h2.2.2.1.trans h1.2.2.1, h2.2.2.2.1.trans h1.2.2.2.1,
    h2.2.2.2.2.trans h1.2.2.2.2⟩

theorem Read_sameDevice (s : Si4703) : sameDevice s (Read s).1 := by
  obtain ⟨h1, h2, h3, h4, h5, -, -⟩ := Read_frame s
  exact ⟨h1, h2, h3, h4, h5⟩

theorem pollTick_sameDevice (s : Si4703) : sameDevice s (pollTick s) := by
  unfold pollTick
  dsimp only
  split_ifs
  · exact Read_sameDevice s
  · exact sameDevice_refl s

theorem Sleep_sameDevice (s : Si4703) (d : Nat) : sameDevice s (Sleep s d) := by
  unfold Sleep
  dsimp only
  exact forLoop_invariant (fun t => sameDevice s t) 0 _ (fun _ acc => pollTick acc)
    (fun _ t ht => sameDevice_trans ht (pollTick_sameDevice t)) s (sameDevice_refl s)

theorem Sleep_clock (s : Si4703) (d : Nat) : (Sleep s d).clock = s.clock + d := rfl

theorem waitSTC_succ (k deadline : Nat) (s : Si4703) :
    waitSTC (k + 1) deadline s =
      if aget s.Reg STATUSRSSI &&& (1 <<< 14) ≠ 0 then (s, Wait.complete)
      else if s.clock > deadline then (s, Wait.timeout)
      else if s.Polling = true then waitSTC k deadline (Sleep s 100)
      else
        match (Read s).2 with
        | some _ => ((Read s).1, Wait.exit)
        | none => waitSTC k deadline (Sleep (Read s).1 100) := by
  rw [waitSTC]
  split_ifs <;> rfl

theorem waitSTC_sameDevice (k deadline : Nat) (s : Si4703) :
    sameDevice s (waitSTC k deadline s).1 := by
  induction k generalizing s with
  | zero => exact sameDevice_refl s
  | succ k ih =>
    rw [waitSTC_succ]
    split_ifs with h1 h2 h3
    · exact sameDevice_refl s
    · exact sameDevice_refl s
    · exact sameDevice_trans (Sleep_sameDevice s 100) (ih _)
    · cases hr : (Read s).2 with
      | some e => exact Read_sameDevice s
      | none =>
        exact sameDevice_trans (Read_sameDevice s)
          (sameDevice_trans (Sleep_sameDevice _ 100) (ih _))

theorem waitSTC_finishes (k deadline : Nat) (s : Si4703) (h : deadline < s.clock + 100 * k) :
    (waitSTC (k + 1) deadline s).2 ≠ Wait.unfinished := by
  induction k generalizing s with
  | zero =>
    rw [waitSTC_succ]
    split_ifs with h1 h2 h3
    · simp
    · simp
    · omega
    · omega
  | succ k ih =>
    rw [waitSTC_succ]
    split_ifs with h1 h2 h3
    · simp
    · simp
    · apply ih
      rw [Sleep_clock]
      omega
    · cases hr : (Read s).2 with
      | some e => simp
      | none =>
        apply ih
        rw [Sleep_clock, (Read_frame s).2.2.2.2.2.1]
        omega

theorem SetChannel_returns (s : Si4703) (c : Freq) :
    (SetChannel s c).2 = Outcome.returned none ∨
      (SetChannel s c).2 = Outcome.returned (some Error.ErrInvalidFreq) ∨
      (SetChannel s c).2 = Outcome.returned (some Error.ErrTimeout) ∨
      (SetChannel s c).2 = Outcome.exited (-1) := by
  by_cases h : Freq.lt c f87_5 ∨ Freq.lt f107_9 c
  · rw [SetChannel_rejected s c h]
    exact Or.inr (Or.inl rfl)
  · rw [SetChannel_eq s c h]
    have hfin : (tuneWait s c).2 ≠ Wait.unfinished := waitSTC_finishes 51 _ _ (by omega)
    cases hw : (tuneWait s c).2 with
    | complete => exact Or.inl rfl
    | timeout => exact Or.inr (Or.inr (Or.inl rfl))
    | exit => exact Or.inr (Or.inr (Or.inr rfl))
    | unfinished => exact absurd hw hfin

theorem Read_quiet (s : Si4703) (h : neverComplete s.device) :
    (Read s).2 = none ∧ aget (Read s).1.Reg STATUSRSSI &&& 0x4000 = 0 := by
  obtain ⟨buf, hb, hq⟩ := h s.device.ntx
  rw [Read_ok s buf hb]
  exact ⟨rfl, hq⟩

theorem neverComplete_of_sameDevice {s t : Si4703} (h : sameDevice s t)
    (hs : neverComplete s.device) : neverComplete t.device := by
  intro k
  rw [h.1]
  exact hs k

theorem pollTick_quiet (s : Si4703) (h : neverComplete s.device)
    (hq : aget s.Reg STATUSRSSI &&& 0x4000 = 0) :
    aget (pollTick s).Reg STATUSRSSI &&& 0x4000 = 0 := by
  unfold pollTick
  dsimp only
  split_ifs
  · exact (Read_quiet s h).2
  · exact hq

theorem Sleep_quiet (s : Si4703) (d : Nat) (h : neverComplete s.device)
    (hq : aget s.Reg STATUSRSSI &&& 0x4000 = 0) :
    aget (Sleep s d).Reg STATUSRSSI &&& 0x4000 = 0 := by
  unfold Sleep
  dsimp only
  exact (forLoop_invariant
    (fun t => sameDevice s t ∧ aget t.Reg STATUSRSSI &&& 0x4000 = 0) 0 _
    (fun _ acc => pollTick acc)
    (fun _ t ht => ⟨sameDevice_trans ht.1 (pollTick_sameDevice t),
      pollTick_quiet t (neverComplete_of_sameDevice ht.1 h) ht.2⟩)
    s ⟨sameDevice_refl s, hq⟩).2

theorem waitSTC_timeout (k deadline : Nat) (s : Si4703) (h : neverComplete s.device)
    (hq : aget s.Reg STATUSRSSI &&& 0x4000 = 0) (hk : deadline < s.clock + 100 * k) :
    (waitSTC (k + 1) deadline s).2 = Wait.timeout ∧
      deadline < (waitSTC (k + 1) deadline s).1.clock := by
  have e14 : (1 <<< 14 : Nat) = 0x4000 := by decide
  induction k generalizing s with
  | zero =>
    have hc : s.clock > deadline := by omega
    rw [waitSTC_succ, e14, if_neg (by simp [hq]), if_pos hc]
    exact ⟨rfl, hc⟩
  | succ k ih =>
    rw [waitSTC_succ, e14, if_neg (by simp [hq])]
    split_ifs with h2 h3
    · exact ⟨rfl, by simpa using h2⟩
    · exact ih (Sleep s 100) (neverComplete_of_sameDevice (Sleep_sameDevice s 100) h)
        (Sleep_quiet s 100 h hq) (by rw [Sleep_clock]; omega)
    · obtain ⟨hr, hrq⟩ := Read_quiet s h
      rw [hr]
      dsimp only
      have hd := neverComplete_of_sameDevice (Read_sameDevice s) h
      exact ih (Sleep (Read s).1 100)
        (neverComplete_of_sameDevice (Sleep_sameDevice _ 100) hd)
        (Sleep_quiet _ 100 hd hrq)
        (by rw [Sleep_clock, (Read_frame s).2.2.2.2.2.1]; omega)

theorem Set_quiet (s : Si4703) (reg : Int) (val : Nat) (h : neverComplete s.device) :
    aget (Set s reg val).1.Reg STATUSRSSI &&& 0x4000 = 0 := by
  obtain ⟨buf, hb, hq⟩ := h s.device.ntx
  cases hburst : burstOf (regsOf buf) reg val with
  | none =>
    rw [Set_panics s reg val buf hb hburst]
    exact hq
  | some burst =>
    rw [Set_read_ok s reg val buf burst hb hburst]
    cases hw : (s.device.wr s.device.written.length).2 with
    | some err => exact hq
    | none =>
      dsimp only
      split_ifs
      · exact hq
      · exact (Read_quiet (afterWrite s buf burst) h).2

theorem tuneWait_timeout (s : Si4703) (c : Freq) (h : neverComplete s.device) :
    (tuneWait s c).2 = Wait.timeout ∧ s.clock + 5000 < (tuneWait s c).1.clock := by
  unfold tuneWait
  dsimp only
  have hd : neverComplete (Set s CHANNEL
      (aget s.Reg CHANNEL &&& 0xFE00 ||| channelOf c ||| 1 <<< 15)).1.device := by
    intro k
    rw [(Set_frame s _ _).1]
    exact h k
  have hc := (Set_frame s CHANNEL
      (aget s.Reg CHANNEL &&& 0xFE00 ||| channelOf c ||| 1 <<< 15)).2.2.2.2.1
  have key := waitSTC_timeout 51
    ((Set s CHANNEL (aget s.Reg CHANNEL &&& 0xFE00 ||| channelOf c ||| 1 <<< 15)).1.clock + 5000)
    _ hd (Set_quiet s CHANNEL _ h) (by omega)
  rw [hc] at key ⊢
  exact key

theorem tuneWait_written (s : Si4703) (c : Freq) (buf : Fin 32 → Nat) (burst : Fin 12 → Nat)
    (h : s.device.tx s.device.ntx = Except.ok buf)
    (hb : burstOf (regsOf buf) CHANNEL
      (((aget s.Reg CHANNEL &&& 0xFE00) ||| channelOf c) ||| (1 <<< 15)) = some burst) :
    (tuneWait s c).1.device.written = s.device.written ++ [List.ofFn burst] := by
  unfold tuneWait
  dsimp only
  rw [(waitSTC_sameDevice 52 _ _).2.2.1, Set_written s _ _ buf burst h hb]

theorem wordOf_burst (Reg : Fin 16 → Nat) (reg : Int) (val : Nat) (burst : Fin 12 → Nat)
    (h2 : 2 ≤ reg) (h7 : reg ≤ 7) (hb : burstOf Reg reg val = some burst)
    (k : Nat) (k2 : 2 ≤ k) (k7 : k ≤ 7)
    (hx : (if (k : Int) = reg then val else aget Reg k) < 65536) :
    (List.ofFn burst).getD ((k - 2) * 2) 0 =
        (if (k : Int) = reg then val else aget Reg k) / 256 ∧
      (List.ofFn burst).getD ((k - 2) * 2 + 1) 0 =
        (if (k : Int) = reg then val else aget Reg k) % 256 ∧
      wordOf (List.ofFn burst) k = if (k : Int) = reg then val else aget Reg k := by
  obtain ⟨burst2, hb2, hk⟩ := burstOf_in_range Reg reg val h2 h7
  rw [hb] at hb2
  cases hb2
  obtain ⟨e1, e2⟩ := hk k k2 k7
  unfold wordOf
  rw [getD_ofFn, getD_ofFn, e1, e2, hi_byte _ hx, lo_byte]
  refine ⟨rfl, rfl, ?_⟩
  omega

theorem aget_lt_of {n : Nat} (buf : Fin n → Nat) (N : Nat) (hN : 0 < N) (h : ∀ j, buf j < N)
    (k : Nat) : aget buf k < N := by
  unfold aget
  split_ifs
  · exact h _
  · exact hN

/-! ## The burst `Set` sends -/

theorem regsOf_bytes (buf : Fin 32 → Nat) (k : Nat) (k2 : 2 ≤ k) (k7 : k ≤ 7) :
    aget (regsOf buf) k = (aget buf (2 * k + 12) % 256) * 256 + aget buf (2 * k + 13) % 256 := by
  have e : aget (regsOf buf) k =
      ((aget buf (2 * k + 12) % 256) * 256 + aget buf (2 * k + 13) % 256) % 65536 := by
    interval_cases k <;> rfl
  rw [e]
  omega

/-- C25: for every register index `reg` in 2..7, every 16-bit value `val` and
every register array `Reg` of 16-bit words, the buffer `Set` builds has 12
bytes; for each `k` in 2..7 other than `reg`, bytes `2(k-2)` and `2(k-2)+1` are
the high and low byte of `Reg[k]` and decode (high*256 + low) to `Reg[k]`; for
`k = reg` they are the high and low byte of `val` and decode to `val`; both
overwritten indices `idxh`, `idxl` lie inside the buffer.  When its opening read
succeeds, `Set` with `reg` in 2..7 sends exactly one such buffer, built from the
registers the device has just returned: for `k` other than `reg` the two bytes
are bytes `2k+12` and `2k+13` of the 32 bytes read, the device's register `k`.
For `reg` outside 2..7 the store `buf[idxh] = varh` is out of range: `Set`
panics and sends nothing. -/
theorem C25_set_burst :
    (∀ (Reg : Fin 16 → Nat) (reg : Int) (val : Nat), 2 ≤ reg → reg ≤ 7 → val < 65536 →
      (∀ k, aget Reg k < 65536) →
      ∃ burst : Fin 12 → Nat, burstOf Reg reg val = some burst ∧
        (List.ofFn burst).length = 12 ∧
        (∀ k : Nat, 2 ≤ k → k ≤ 7 → (k : Int) ≠ reg →
          (List.ofFn burst).getD ((k - 2) * 2) 0 = aget Reg k / 256 ∧
          (List.ofFn burst).getD ((k - 2) * 2 + 1) 0 = aget Reg k % 256 ∧
          wordOf (List.ofFn burst) k = aget Reg k) ∧
        (List.ofFn burst).getD ((reg.toNat - 2) * 2) 0 = val / 256 ∧
        (List.ofFn burst).getD ((reg.toNat - 2) * 2 + 1) 0 = val % 256 ∧
        wordOf (List.ofFn burst) reg.toNat = val ∧
        0 ≤ (reg - 2) * 2 ∧ (reg - 2) * 2 + 1 < 12) ∧
    (∀ (s : Si4703) (reg : Int) (val : Nat) (buf : Fin 32 → Nat), 2 ≤ reg → reg ≤ 7 →
      val < 65536 → s.device.tx s.device.ntx = Except.ok buf →
      ∃ burst : List Nat,
        (Set s reg val).1.device.written = s.device.written ++ [burst] ∧
        burst.length = 12 ∧
        (∀ k : Nat, 2 ≤ k → k ≤ 7 → (k : Int) ≠ reg →
          burst.getD ((k - 2) * 2) 0 = aget buf (2 * k + 12) % 256 ∧
          burst.getD ((k - 2) * 2 + 1) 0 = aget buf (2 * k + 13) % 256) ∧
        burst.getD ((reg.toNat - 2) * 2) 0 = val / 256 ∧
        burst.getD ((reg.toNat - 2) * 2 + 1) 0 = val % 256 ∧
        wordOf burst reg.toNat = val) ∧
    (∀ (s : Si4703) (reg : Int) (val : Nat) (buf : Fin 32 → Nat), reg < 2 ∨ 7 < reg →
      s.device.tx s.device.ntx = Except.ok buf →
      (Set s reg val).2 = Ended.panicked ∧
        (Set s reg val).1.device.written = s.device.written) := by
  have hown : ∀ (Reg : Fin 16 → Nat) (reg : Int) (val : Nat) (burst : Fin 12 → Nat),
      2 ≤ reg → reg ≤ 7 → val < 65536 → burstOf Reg reg val = some burst →
      (List.ofFn burst).getD ((reg.toNat - 2) * 2) 0 = val / 256 ∧
        (List.ofFn burst).getD ((reg.toNat - 2) * 2 + 1) 0 = val % 256 ∧
        wordOf (List.ofFn burst) reg.toNat = val := by
    intro Reg reg val burst h2 h7 hval hb
    have hc : ((reg.toNat : Nat) : Int) = reg := Int.toNat_of_nonneg (by omega)
    have h := wordOf_burst Reg reg val burst h2 h7 hb reg.toNat (by omega) (by omega)
      (by rw [if_pos hc]; exact hval)
    rw [if_pos hc] at h
    exact h
  refine ⟨?_, ?_, ?_⟩
  · intro Reg reg val h2 h7 hval hReg
    obtain ⟨burst, hb, -⟩ := burstOf_in_range Reg reg val h2 h7
    refine ⟨burst, hb, by simp, ?_, ?_⟩
    · intro k k2 k7 hk
      have h := wordOf_burst Reg reg val burst h2 h7 hb k k2 k7
        (by rw [if_neg hk]; exact hReg k)
      rw [if_neg hk] at h
      exact h
    · obtain ⟨o1, o2, o3⟩ := hown Reg reg val burst h2 h7 hval hb
      exact ⟨o1, o2, o3, by omega, by omega⟩
  · intro s reg val buf h2 h7 hval hrd
    obtain ⟨burst, hb, -⟩ := burstOf_in_range (regsOf buf) reg val h2 h7
    refine ⟨List.ofFn burst, Set_written s reg val buf burst hrd hb, by simp, ?_,
      hown (regsOf buf) reg val burst h2 h7 hval hb⟩
    intro k k2 k7 hk
    have h := wordOf_burst (regsOf buf) reg val burst h2 h7 hb k k2 k7
      (by rw [if_neg hk]; exact regsOf_lt buf k)
    rw [if_neg hk, regsOf_bytes buf k k2 k7] at h
    refine ⟨h.1.trans ?_, h.2.1.trans ?_⟩
    · omega
    · omega
  · intro s reg val buf hreg hrd
    rw [Set_panics s reg val buf hrd (burstOf_out_of_range (regsOf buf) reg val hreg)]
    exact ⟨rfl, rfl⟩

/-- Witness of C25: registers `0x1111 * k` and the word `0x8005` for register 3
(`CHANNEL`); `Set(3, 0x8005)` on a device that returns the bytes 0..31, which
sends `16 17 | 0x80 0x05 | 20 21 | 22 23 | 24 25 | 26 27`; and `Set(8, 0)`,
which panics. -/
theorem C25_set_burst_witness :
    (∃ burst : Fin 12 → Nat, burstOf sampleRadio.Reg 3 0x8005 = some burst ∧
        (List.ofFn burst).length = 12 ∧
        (∀ k : Nat, 2 ≤ k → k ≤ 7 → (k : Int) ≠ 3 →
          (List.ofFn burst).getD ((k - 2) * 2) 0 = aget sampleRadio.Reg k / 256 ∧
          (List.ofFn burst).getD ((k - 2) * 2 + 1) 0 = aget sampleRadio.Reg k % 256 ∧
          wordOf (List.ofFn burst) k = aget sampleRadio.Reg k) ∧
        (List.ofFn burst).getD (((3 : Int).toNat - 2) * 2) 0 = 0x8005 / 256 ∧
        (List.ofFn burst).getD (((3 : Int).toNat - 2) * 2 + 1) 0 = 0x8005 % 256 ∧
        wordOf (List.ofFn burst) (3 : Int).toNat = 0x8005 ∧
        0 ≤ ((3 : Int) - 2) * 2 ∧ ((3 : Int) - 2) * 2 + 1 < 12) ∧
      (∃ burst : List Nat,
        (Set countRadio 3 0x8005).1.device.written = countRadio.device.written ++ [burst] ∧
        burst.length = 12 ∧
        (∀ k : Nat, 2 ≤ k → k ≤ 7 → (k : Int) ≠ 3 →
          burst.getD ((k - 2) * 2) 0 = aget (fun j : Fin 32 => j.val) (2 * k + 12) % 256 ∧
          burst.getD ((k - 2) * 2 + 1) 0 =
            aget (fun j : Fin 32 => j.val) (2 * k + 13) % 256) ∧
        burst.getD (((3 : Int).toNat - 2) * 2) 0 = 0x8005 / 256 ∧
        burst.getD (((3 : Int).toNat - 2) * 2 + 1) 0 = 0x8005 % 256 ∧
        wordOf burst (3 : Int).toNat = 0x8005) ∧
      ((Set countRadio 8 0).2 = Ended.panicked ∧
        (Set countRadio 8 0).1.device.written = countRadio.device.written) ∧
      (Set countRadio 3 0x8005).1.device.written =
        [[16, 17, 0x80, 0x05, 20, 21, 22, 23, 24, 25, 26, 27]] :=
  ⟨C25_set_burst.1 sampleRadio.Reg 3 0x8005 (by decide) (by decide) (by decide)
      (aget_lt_of sampleRadio.Reg 65536 (by decide) (by decide)),
    C25_set_burst.2.1 countRadio 3 0x8005 (fun j => j.val) (by decide) (by decide) (by decide)
      rfl,
    C25_set_burst.2.2 countRadio 8 0 (fun j => j.val) (by decide) rfl,
    by decide⟩

/-! ## `SetChannel`: the words written, errors and the deadline -/

theorem burstOf_CHANNEL (Reg : Fin 16 → Nat) (val : Nat) (h : val < 65536) :
    ∃ burst : Fin 12 → Nat,
      burstOf Reg CHANNEL val = some burst ∧ wordOf (List.ofFn burst) CHANNEL = val := by
  obtain ⟨burst, hb, -⟩ := burstOf_in_range Reg CHANNEL val (by decide) (by decide)
  refine ⟨burst, hb, ?_⟩
  have e := (wordOf_burst Reg CHANNEL val burst (by decide) (by decide) hb CHANNEL (by decide)
    (by decide) (by rw [if_pos rfl]; exact h)).2.2
  rw [if_pos rfl] at e
  exact e

theorem SetChannel_written_head (s : Si4703) (c : Freq) (buf : Fin 32 → Nat)
    (burst : Fin 12 → Nat) (hacc : ¬ (Freq.lt c f87_5 ∨ Freq.lt f107_9 c))
    (hrd : s.device.tx s.device.ntx = Except.ok buf)
    (hb : burstOf (regsOf buf) CHANNEL
      (((aget s.Reg CHANNEL &&& 0xFE00) ||| channelOf c) ||| (1 <<< 15)) = some burst) :
    (SetChannel s c).1.device.written.take (s.device.written.length + 1) =
      s.device.written ++ [List.ofFn burst] := by
  have hw := tuneWait_written s c buf burst hrd hb
  have hlen : ∀ x : List Nat,
      (s.device.written ++ [x]).length = s.device.written.length + 1 := by
    intro x
    simp
  rw [SetChannel_eq s c hacc]
  cases hres : (tuneWait s c).2 with
  | timeout =>
    dsimp only
    rw [hw, ← hlen, List.take_length]
  | exit =>
    dsimp only
    rw [hw, ← hlen, List.take_length]
  | unfinished =>
    dsimp only
    rw [hw, ← hlen, List.take_length]
  | complete =>
    dsimp only
    cases h2 : (tuneWait s c).1.device.tx (tuneWait s c).1.device.ntx with
    | error e =>
      rw [Set_read_failed _ _ _ e h2]
      dsimp only
      rw [hw, ← hlen, List.take_length]
    | ok buf2 =>
      obtain ⟨burst2, hb2, -⟩ := burstOf_in_range (regsOf buf2) CHANNEL
        (aget (tuneWait s c).1.Reg CHANNEL &&& 0x7FFF) (by decide) (by decide)
      rw [Set_written _ _ _ buf2 burst2 h2 hb2, hw, ← hlen, List.take_left]

theorem SetChannel_written_complete (s : Si4703) (c : Freq) (buf2 : Fin 32 → Nat)
    (burst2 : Fin 12 → Nat) (hacc : ¬ (Freq.lt c f87_5 ∨ Freq.lt f107_9 c))
    (hres : (tuneWait s c).2 = Wait.complete)
    (hrd : (tuneWait s c).1.device.tx (tuneWait s c).1.device.ntx = Except.ok buf2)
    (hb : burstOf (regsOf buf2) CHANNEL (aget (tuneWait s c).1.Reg CHANNEL &&& 0x7FFF) =
      some burst2) :
    (SetChannel s c).1.device.written =
      (tuneWait s c).1.device.written ++ [List.ofFn burst2] := by
  rw [SetChannel_eq s c hacc, hres]
  dsimp only
  rw [Set_written _ _ _ buf2 burst2 hrd hb]

/-- C21: for every accepted frequency `c`, with channel code `n = channelOf c`,
and every cached `CHANNEL` value `r`: `n` is at most 102; when the read that
opens `Set` succeeds, the first buffer `SetChannel` adds to the device's log of
writes holds for `CHANNEL` the word `(r & 0xFE00) | n | 0x8000`, whose bit
`0x8000` (TUNE) is set, whose low 9 bits are `n` and whose bits 9..14 are those
of `r`; and when the wait loop ends on tune complete and the read that opens the
second `Set` succeeds, the log grows by exactly one more buffer, whose `CHANNEL`
word is the `CHANNEL` value cached at that moment with bit `0x8000` cleared and
the 15 other bits unchanged. -/
theorem C21_tuning_words (s : Si4703) (c : Freq) (buf : Fin 32 → Nat)
    (hacc : ¬ (Freq.lt c f87_5 ∨ Freq.lt f107_9 c))
    (hrd : s.device.tx s.device.ntx = Except.ok buf) :
    channelOf c ≤ 102 ∧
    ∃ burst : List Nat,
      (SetChannel s c).1.device.written.take (s.device.written.length + 1) =
        s.device.written ++ [burst] ∧
      wordOf burst CHANNEL = ((aget s.Reg CHANNEL &&& 0xFE00) ||| channelOf c) ||| 0x8000 ∧
      wordOf burst CHANNEL &&& 0x8000 = 0x8000 ∧
      wordOf burst CHANNEL &&& 0x01FF = channelOf c ∧
      wordOf burst CHANNEL &&& 0x7E00 = aget s.Reg CHANNEL &&& 0x7E00 ∧
      ∀ buf2 : Fin 32 → Nat, (tuneWait s c).2 = Wait.complete →
        (tuneWait s c).1.device.tx (tuneWait s c).1.device.ntx = Except.ok buf2 →
        ∃ burst2 : List Nat,
          (SetChannel s c).1.device.written = s.device.written ++ [burst, burst2] ∧
          wordOf burst2 CHANNEL = aget (tuneWait s c).1.Reg CHANNEL &&& 0x7FFF ∧
          wordOf burst2 CHANNEL &&& 0x8000 = 0 ∧
          wordOf burst2 CHANNEL &&& 0x7FFF = aget (tuneWait s c).1.Reg CHANNEL &&& 0x7FFF := by
  have hn := channelOf_le c hacc
  obtain ⟨t1, t2, t3, t4⟩ := tune_word (aget s.Reg CHANNEL) (channelOf c) (by omega)
  obtain ⟨burst, hb, hword⟩ := burstOf_CHANNEL (regsOf buf)
    (((aget s.Reg CHANNEL &&& 0xFE00) ||| channelOf c) ||| (1 <<< 15)) t4
  refine ⟨hn, _, SetChannel_written_head s c buf burst hacc hrd hb, ?_, ?_, ?_, ?_, ?_⟩
  · rw [hword]
    rfl
  · rw [hword]
    exact t1
  · rw [hword]
    exact t2
  · rw [hword]
    exact t3
  · intro buf2 hres hrd2
    obtain ⟨c1, c2, c3⟩ := clear_word (aget (tuneWait s c).1.Reg CHANNEL)
    obtain ⟨burst2, hb2, hword2⟩ := burstOf_CHANNEL (regsOf buf2)
      (aget (tuneWait s c).1.Reg CHANNEL &&& 0x7FFF) c3
    refine ⟨_, ?_, hword2, ?_, ?_⟩
    · rw [SetChannel_written_complete s c buf2 burst2 hacc hres hrd2 hb2,
        tuneWait_written s c buf burst hrd hb]
      simp
    · rw [hword2]
      exact c1
    · rw [hword2]
      exact c2

set_option maxRecDepth 100000 in
/-- Witness of C21: 88.5 MHz (channel code 5) on a tuner whose cached `CHANNEL`
register is `0x7FFF` and whose device reports tune complete after 400 ms. -/
theorem C21_tuning_words_witness :
    channelOf f88_5 ≤ 102 ∧
    ∃ burst : List Nat,
      (SetChannel slowRadio f88_5).1.device.written.take
          (slowRadio.device.written.length + 1) = slowRadio.device.written ++ [burst] ∧
      wordOf burst CHANNEL =
        ((aget slowRadio.Reg CHANNEL &&& 0xFE00) ||| channelOf f88_5) ||| 0x8000 ∧
      wordOf burst CHANNEL &&& 0x8000 = 0x8000 ∧
      wordOf burst CHANNEL &&& 0x01FF = channelOf f88_5 ∧
      wordOf burst CHANNEL &&& 0x7E00 = aget slowRadio.Reg CHANNEL &&& 0x7E00 ∧
      ∀ buf2 : Fin 32 → Nat, (tuneWait slowRadio f88_5).2 = Wait.complete →
        (tuneWait slowRadio f88_5).1.device.tx (tuneWait slowRadio f88_5).1.device.ntx =
          Except.ok buf2 →
        ∃ burst2 : List Nat,
          (SetChannel slowRadio f88_5).1.device.written =
            slowRadio.device.written ++ [burst, burst2] ∧
          wordOf burst2 CHANNEL = aget (tuneWait slowRadio f88_5).1.Reg CHANNEL &&& 0x7FFF ∧
          wordOf burst2 CHANNEL &&& 0x8000 = 0 ∧
          wordOf burst2 CHANNEL &&& 0x7FFF =
            aget (tuneWait slowRadio f88_5).1.Reg CHANNEL &&& 0x7FFF :=
  C21_tuning_words slowRadio f88_5 _ (by decide) rfl

set_option maxRecDepth 100000 in
/-- C22 (the code at the failing input): on a device whose writes fail with a
transport error, the call `Set(CHANNEL, 0x8005)` that starts tuning to 88.5 MHz
returns that error, and `SetChannel(88.5)` returns `nil` when the status shows
tune complete (both of its writes failed, both are in the log), and
`ErrTimeout` when the status never shows it. -/
theorem C22_write_error_not_returned :
    (Set brokenRadio CHANNEL 0x8005).2 = Ended.returned (some (Error.transport 5)) ∧
      (SetChannel brokenRadio f88_5).2 = Outcome.returned none ∧
      (SetChannel brokenRadio f88_5).1.device.written.length = 2 ∧
      (Set stuckRadio CHANNEL 0x8005).2 = Ended.returned (some (Error.transport 5)) ∧
      (SetChannel stuckRadio f88_5).2 = Outcome.returned (some Error.ErrTimeout) := by
  refine ⟨by decide, by decide, by decide, by decide, by decide⟩

/-- C23: for an accepted frequency and a device that never reports tune complete
(every read succeeds, bit `0x4000` of `STATUSRSSI` clear), `SetChannel` returns
`ErrTimeout` with the clock past the 5000 ms deadline, and the log of writes has
grown by exactly one buffer, whose `CHANNEL` word has the TUNE bit `0x8000` set;
conversely, when the wait loop ends on observing bit `0x4000`, `SetChannel`
returns `nil` and, the read that opens `Set` succeeding, the log grows by one
more buffer whose `CHANNEL` word has the TUNE bit clear. -/
theorem C23_timeout_or_completion :
    (∀ (s : Si4703) (c : Freq), ¬ (Freq.lt c f87_5 ∨ Freq.lt f107_9 c) →
      neverComplete s.device →
      (SetChannel s c).2 = Outcome.returned (some Error.ErrTimeout) ∧
      s.clock + 5000 < (SetChannel s c).1.clock ∧
      ∃ burst : List Nat,
        (SetChannel s c).1.device.written = s.device.written ++ [burst] ∧
        wordOf burst CHANNEL &&& 0x8000 = 0x8000) ∧
    (∀ (s : Si4703) (c : Freq), ¬ (Freq.lt c f87_5 ∨ Freq.lt f107_9 c) →
      (tuneWait s c).2 = Wait.complete →
      (SetChannel s c).2 = Outcome.returned none ∧
      ∀ buf2 : Fin 32 → Nat,
        (tuneWait s c).1.device.tx (tuneWait s c).1.device.ntx = Except.ok buf2 →
        ∃ burst2 : List Nat,
          (SetChannel s c).1.device.written = (tuneWait s c).1.device.written ++ [burst2] ∧
          wordOf burst2 CHANNEL &&& 0x8000 = 0) := by
  constructor
  · intro s c hacc hdev
    obtain ⟨hres, hclock⟩ := tuneWait_timeout s c hdev
    obtain ⟨buf, hb, -⟩ := hdev s.device.ntx
    obtain ⟨t1, -, -, t4⟩ := tune_word (aget s.Reg CHANNEL) (channelOf c)
      (by have := channelOf_le c hacc; omega)
    obtain ⟨burst, hburst, hword⟩ := burstOf_CHANNEL (regsOf buf)
      (((aget s.Reg CHANNEL &&& 0xFE00) ||| channelOf c) ||| (1 <<< 15)) t4
    have hw := tuneWait_written s c buf burst hb hburst
    rw [SetChannel_eq s c hacc, hres]
    dsimp only
    refine ⟨rfl, hclock, _, hw, ?_⟩
    rw [hword]
    exact t1
  · intro s c hacc hres
    constructor
    · rw [SetChannel_eq s c hacc, hres]
    · intro buf2 hrd2
      obtain ⟨c1, -, c3⟩ := clear_word (aget (tuneWait s c).1.Reg CHANNEL)
      obtain ⟨burst2, hb2, hword2⟩ := burstOf_CHANNEL (regsOf buf2)
        (aget (tuneWait s c).1.Reg CHANNEL &&& 0x7FFF) c3
      refine ⟨_, SetChannel_written_complete s c buf2 burst2 hacc hres hrd2 hb2, ?_⟩
      rw [hword2]
      exact c1

set_option maxRecDepth 100000 in
/-- Witness of C23: 88.5 MHz on a device that never reports tune complete, and
on one that reports it after 400 ms. -/
theorem C23_timeout_or_completion_witness :
    ((SetChannel deafRadio f88_5).2 = Outcome.returned (some Error.ErrTimeout) ∧
      deafRadio.clock + 5000 < (SetChannel deafRadio f88_5).1.clock ∧
      ∃ burst : List Nat,
        (SetChannel deafRadio f88_5).1.device.written = deafRadio.device.written ++ [burst] ∧
        wordOf burst CHANNEL &&& 0x8000 = 0x8000) ∧
    ((SetChannel slowRadio f88_5).2 = Outcome.returned none ∧
      ∀ buf2 : Fin 32 → Nat,
        (tuneWait slowRadio f88_5).1.device.tx (tuneWait slowRadio f88_5).1.device.ntx =
          Except.ok buf2 →
        ∃ burst2 : List Nat,
          (SetChannel slowRadio f88_5).1.device.written =
            (tuneWait slowRadio f88_5).1.device.written ++ [burst2] ∧
          wordOf burst2 CHANNEL &&& 0x8000 = 0) :=
  ⟨C23_timeout_or_completion.1 deafRadio f88_5 (by decide)
      (fun _ => ⟨fun _ => 0, rfl, by decide⟩),
    C23_timeout_or_completion.2 slowRadio f88_5 (by decide) (by decide)⟩

set_option maxRecDepth 100000 in
/-- C24 (counterexample): the decoder holds the committed name "ABCDEFGH"; the
key Up makes `SetChannel` return `ErrTimeout`; afterwards the name is empty,
the decoder state was not kept. -/
theorem C24_counterexample :
    deafReceiver.rds.ProgramService = [65, 66, 67, 68, 69, 70, 71, 72] ∧
      (onKey deafReceiver Key.up).2 = some (Outcome.returned (some Error.ErrTimeout)) ∧
      (onKey deafReceiver Key.up).1.rds.ProgramService = [] ∧
      (onKey deafReceiver Key.up).1.rds.ProgramService ≠ deafReceiver.rds.ProgramService := by
  refine ⟨by decide, by decide, by decide, by decide⟩

/-! ## The decoder reset in the event loop -/

/-- C24 (amended): in the event loop, whenever the `SetChannel` call of a
channel-change request returns, with `nil` or with an error, the decoder state
is replaced by the empty `RDS` value. -/
theorem C24_reset_after_every_change (m : Receiver) (k : Key) (err : Option Error)
    (h : (onKey m k).2 = some (Outcome.returned err)) :
    (onKey m k).1.rds = RDS.empty := by
  cases k with
  | ctrlC =>
    have h0 : (none : Option Outcome) = some (Outcome.returned err) := h
    cases h0
  | other =>
    have h0 : (none : Option Outcome) = some (Outcome.returned err) := h
    cases h0
  | up =>
    unfold onKey at h ⊢
    dsimp only at h ⊢
    split at h
    · split
      · rfl
      · simp_all
    · simp_all
  | down =>
    unfold onKey at h ⊢
    dsimp only at h ⊢
    split at h
    · split
      · rfl
      · simp_all
    · simp_all

set_option maxRecDepth 100000 in
/-- Witness of C24: the key Up on a tuner whose device never reports tune
complete. -/
theorem C24_reset_after_every_change_witness :
    (onKey deafReceiver Key.up).2 = some (Outcome.returned (some Error.ErrTimeout)) ∧
      (onKey deafReceiver Key.up).1.rds = RDS.empty :=
  ⟨by decide,
    C24_reset_after_every_change deafReceiver Key.up (some Error.ErrTimeout) (by decide)⟩

/-! ## The call-sign commit, duplicated groups -/

theorem cs2_decodeAll (r : RDS) (gs : List Group) (h : r.cs2 = r.cs1) :
    (decodeAll r gs).cs2 = (decodeAll r gs).cs1 := by
  induction gs generalizing r with
  | nil => exact h
  | cons g gs ih =>
    have e : decodeAll r (g :: gs) = decodeAll (decode r g) gs := rfl
    rw [e]
    apply ih
    have hv := csView_Update r g.a g.b g.c g.d
    simp only [csView, csStep, Prod.mk.injEq] at hv
    unfold decode
    rw [hv.1, hv.2.1]

set_option maxRecDepth 100000 in
/-- C26 (the code at the failing input): from the empty decoder the groups with
PI codes 21672 ("WAAA"), 0xFFFF (a code of no class) and 4353 ("KAJX") are
decoded in turn.  No two consecutive deliveries agree, yet the second group
commits "WAAA": for a PI code of no class the `switch` leaves the candidate
`cs1` as the preceding group set it, the comparison finds it equal to the
snapshot `cs2`, and the call sign delivered once is committed; the third group
leaves it committed. -/
theorem C26_commit_after_one_delivery :
    List.ofFn (decodeAll RDS.empty [⟨21672, 0, 0, 0⟩]).CallSign = [0, 0, 0, 0] ∧
      List.ofFn (decodeAll RDS.empty [⟨21672, 0, 0, 0⟩]).cs1 = [87, 65, 65, 65] ∧
      List.ofFn (decodeAll RDS.empty [⟨21672, 0, 0, 0⟩, ⟨0xFFFF, 0, 0, 0⟩]).cs1 =
        [87, 65, 65, 65] ∧
      List.ofFn (decodeAll RDS.empty [⟨21672, 0, 0, 0⟩, ⟨0xFFFF, 0, 0, 0⟩]).CallSign =
        [87, 65, 65, 65] ∧
      List.ofFn (decodeAll RDS.empty
        [⟨21672, 0, 0, 0⟩, ⟨0xFFFF, 0, 0, 0⟩, ⟨4353, 0, 0, 0⟩]).cs1 = [75, 65, 74, 88] ∧
      List.ofFn (decodeAll RDS.empty
        [⟨21672, 0, 0, 0⟩, ⟨0xFFFF, 0, 0, 0⟩, ⟨4353, 0, 0, 0⟩]).CallSign =
        [87, 65, 65, 65] := by
  refine ⟨by decide, by decide, by decide, by decide, by decide, by decide⟩

theorem psStep_twice (v : (Fin 8 → Nat) × (Fin 8 → Nat) × List Nat) (b d : Nat)
    (h : b &&& 0x3 = 0) :
    (psStep (psStep v b d) b d).2.2 = List.ofFn (psStep (psStep v b d) b d).1 := by
  simp only [psStep, h, Nat.zero_mul, true_and, if_true, aset_pair_idem]
  rw [if_pos ((sameLoop_eq_true _ _).mpr rfl)]

theorem rtStep_twice (v : (Fin 64 → Nat) × (Fin 64 → Nat) × List Nat) (b c d : Nat)
    (h : b &&& 0xf = 0) :
    (rtStep (rtStep v b c d) b c d).2.2 =
      (List.ofFn (rtStep (rtStep v b c d) b c d).1).takeWhile (fun x => x ≠ 0x0d) := by
  simp only [rtStep, h, Nat.zero_mul, true_and, if_true, rtWrite_idem]
  rw [if_pos ((sameLoop_eq_true _ _).mpr rfl)]

/-- C27: for every state and every type-0 group with `(b & 0x3) = 0`, decoding
the group twice in succession ends with `ProgramService` equal to the 8 bytes
of the working buffer `ps1`; for every state and every type-2 group with
`(b & 0xF) = 0`, decoding it twice ends with `Radiotext` equal to the working
buffer `rt1` cut at its first `0x0D`; from the empty decoder the segment-0 group
"AB" decoded twice commits "AB" followed by six NUL bytes. -/
theorem C27_duplicate_slot0_commits :
    (∀ (r : RDS) (a b c d : Nat), b >>> 12 = 0 → b &&& 0x3 = 0 →
      (Update (Update r a b c d) a b c d).ProgramService =
        List.ofFn (Update (Update r a b c d) a b c d).ps1 ∧
      (Update (Update r a b c d) a b c d).ProgramService.length = 8) ∧
    (∀ (r : RDS) (a b c d : Nat), b >>> 12 = 2 → b &&& 0xf = 0 →
      (Update (Update r a b c d) a b c d).Radiotext =
        (List.ofFn (Update (Update r a b c d) a b c d).rt1).takeWhile (fun x => x ≠ 0x0d)) ∧
    (Update (Update RDS.empty 0 0 0 0x4142) 0 0 0 0x4142).ProgramService =
      [65, 66, 0, 0, 0, 0, 0, 0] := by
  refine ⟨?_, ?_, by decide⟩
  · intro r a b c d ht hs
    have h1 := psView_Update r a b c d ht
    have h2 := psView_Update (Update r a b c d) a b c d ht
    rw [h1] at h2
    have key := psStep_twice (psView r) b d hs
    rw [← h2] at key
    have e : (Update (Update r a b c d) a b c d).ProgramService =
        List.ofFn (Update (Update r a b c d) a b c d).ps1 := key
    exact ⟨e, by rw [e]; simp⟩
  · intro r a b c d ht hs
    have h1 := rtView_Update r a b c d ht
    have h2 := rtView_Update (Update r a b c d) a b c d ht
    rw [h1] at h2
    have key := rtStep_twice (rtView r) b c d hs
    rw [← h2] at key
    exact key

set_option maxRecDepth 100000 in
/-- Witness of C27: the segment-0 groups "AB" (type 0) and "HEL\r" (type 2),
each decoded twice from the empty decoder. -/
theorem C27_duplicate_slot0_commits_witness :
    ((Update (Update RDS.empty 0 0 0 0x4142) 0 0 0 0x4142).ProgramService =
        List.ofFn (Update (Update RDS.empty 0 0 0 0x4142) 0 0 0 0x4142).ps1 ∧
      (Update (Update RDS.empty 0 0 0 0x4142) 0 0 0 0x4142).ProgramService.length = 8) ∧
    (Update (Update RDS.empty 0 0x2000 0x4845 0x4C0D) 0 0x2000 0x4845 0x4C0D).Radiotext =
      (List.ofFn (Update (Update RDS.empty 0 0x2000 0x4845 0x4C0D) 0 0x2000 0x4845
        0x4C0D).rt1).takeWhile (fun x => x ≠ 0x0d) ∧
    (Update (Update RDS.empty 0 0x2000 0x4845 0x4C0D) 0 0x2000 0x4845 0x4C0D).Radiotext =
      [72, 69, 76] :=
  ⟨C27_duplicate_slot0_commits.1 RDS.empty 0 0 0 0x4142 (by decide) (by decide),
    C27_duplicate_slot0_commits.2.1 RDS.empty 0 0x2000 0x4845 0x4C0D (by decide) (by decide),
    by decide⟩

/-! ## Bounds kept in every reachable state -/

theorem mask7_lt (x : Nat) : (x &&& 0x7f) % 256 < 128 := by
  have h : x &&& 0x7f ≤ 0x7f := Nat.and_le_right
  omega

theorem psStep_bounds (v : (Fin 8 → Nat) × (Fin 8 → Nat) × List Nat) (b d : Nat)
    (h1 : ∀ j, v.1 j < 128) (h2 : ∀ j, v.2.1 j < 128)
    (h3 : v.2.2 = [] ∨ v.2.2.length = 8) (h4 : ∀ x ∈ v.2.2, x < 128) :
    (∀ j, (psStep v b d).1 j < 128) ∧ (∀ j, (psStep v b d).2.1 j < 128) ∧
      ((psStep v b d).2.2 = [] ∨ (psStep v b d).2.2.length = 8) ∧
      (∀ x ∈ (psStep v b d).2.2, x < 128) := by
  have hw : ∀ j, aset (aset v.1 ((b &&& 0x3) * 2) (((d >>> 8) &&& 0x7f) % 256))
      ((b &&& 0x3) * 2 + 1) ((d &&& 0x7f) % 256) j < 128 := by
    intro j
    simp only [aset_apply]
    split_ifs
    · exact mask7_lt d
    · exact mask7_lt (d >>> 8)
    · exact h1 j
  simp only [psStep]
  refine ⟨hw, ?_, ?_, ?_⟩
  · intro j
    split_ifs
    · exact hw j
    · exact h2 j
  · split_ifs
    · right
      simp
    · exact h3
  · intro x hx
    split_ifs at hx
    · rw [List.mem_ofFn] at hx
      obtain ⟨j, rfl⟩ := hx
      exact h2 j
    · exact h4 x hx

theorem rtWrite_bounds (buf : Fin 64 → Nat) (idx m0 m1 m2 m3 : Nat) (h : ∀ j, buf j < 128)
    (h0 : m0 < 128) (h1 : m1 < 128) (h2 : m2 < 128) (h3 : m3 < 128) (j : Fin 64) :
    rtWrite buf idx m0 m1 m2 m3 j < 128 := by
  simp only [rtWrite]
  split_ifs <;> first | exact (by decide : (32 : Nat) < 128) | assumption | exact h j

theorem rtStep_bounds (v : (Fin 64 → Nat) × (Fin 64 → Nat) × List Nat) (b c d : Nat)
    (h1 : ∀ j, v.1 j < 128) (h2 : ∀ j, v.2.1 j < 128)
    (h3 : v.2.2.length ≤ 64) (h4 : ∀ x ∈ v.2.2, x < 128 ∧ x ≠ 0x0d) :
    (∀ j, (rtStep v b c d).1 j < 128) ∧ (∀ j, (rtStep v b c d).2.1 j < 128) ∧
      (rtStep v b c d).2.2.length ≤ 64 ∧
      (∀ x ∈ (rtStep v b c d).2.2, x < 128 ∧ x ≠ 0x0d) := by
  have hw := rtWrite_bounds v.1 ((b &&& 0xf) * 4) (((c >>> 8) &&& 0x7f) % 256)
    ((c &&& 0x7f) % 256) (((d >>> 8) &&& 0x7f) % 256) ((d &&& 0x7f) % 256) h1
    (mask7_lt _) (mask7_lt _) (mask7_lt _) (mask7_lt _)
  simp only [rtStep]
  refine ⟨hw, ?_, ?_, ?_⟩
  · intro j
    split_ifs
    · exact hw j
    · exact h2 j
  · split_ifs
    · have hl := (List.takeWhile_sublist (fun x => decide (x ≠ 0x0d))
        (l := List.ofFn v.2.1)).length_le
      rw [List.length_ofFn] at hl
      exact hl
    · exact h3
  · intro x hx
    split_ifs at hx
    · have hm := List.mem_takeWhile_imp hx
      have hin := (List.takeWhile_sublist (fun x => decide (x ≠ 0x0d))).subset hx
      rw [List.mem_ofFn] at hin
      obtain ⟨j, rfl⟩ := hin
      exact ⟨h2 j, by simpa using hm⟩
    · exact h4 x hx

theorem afView_Update_of_ne (r : RDS) (a b c d : Nat) (h : b >>> 12 ≠ 0) :
    afView (Update r a b c d) = afView r := by
  have key : afView { update_pi r a with
        TrafficProgram := decide (b &&& 0x20 = 0x20)
        ProgramType := (((b >>> 5) &&& 0x1f : Nat) : Int) } = afView r :=
    (update_pi_frame r a).2.2.2.1
  unfold Update
  dsimp only
  rw [if_neg h]
  split_ifs <;>
    first
    | exact key
    | exact (update_rt_frame _ _ _ _ _).2.2.2.1.trans key
    | exact (update_aid_frame _ _ _ _ _).2.2.2.2.trans key

theorem NumAltFreqs_Update (r : RDS) (a b c d : Nat)
    (h : 0 ≤ r.NumAltFreqs ∧ r.NumAltFreqs ≤ 25) :
    0 ≤ (Update r a b c d).NumAltFreqs ∧ (Update r a b c d).NumAltFreqs ≤ 25 := by
  by_cases ht : b >>> 12 = 0
  · obtain ⟨r2, h2, h3⟩ := Update_type0_altfreqs r a b c d ht
    have hr2 : r2.NumAltFreqs = r.NumAltFreqs := congrArg Prod.snd h2
    rw [h3]
    by_cases hv : b &&& 0x0800 = 0x0800
    · rw [afView_update_ps_altfreqs_B r2 b c hv, hr2]
      exact h
    · rw [(afView_update_ps_altfreqs_A r2 b c hv).2, hr2]
      split_ifs <;> omega
  · have e : (Update r a b c d).NumAltFreqs = r.NumAltFreqs :=
      congrArg Prod.snd (afView_Update_of_ne r a b c d ht)
    rw [e]
    exact h

theorem inBounds_Update (r : RDS) (a b c d : Nat) (h : inBounds r) :
    inBounds (Update r a b c d) := by
  obtain ⟨p1, p2, t1, t2, s1, s2, x1, x2, -, n1⟩ := h
  have hpi := Update_piAll r a b c d
  simp only [piAll, Prod.mk.injEq] at hpi
  have hpt : 0 ≤ (Update r a b c d).ProgramType ∧ (Update r a b c d).ProgramType ≤ 31 := by
    rw [hpi.2.2.1]
    have hle : (b >>> 5) &&& 0x1f ≤ 0x1f := Nat.and_le_right
    omega
  have hps : (∀ j, (Update r a b c d).ps1 j < 128) ∧ (∀ j, (Update r a b c d).ps2 j < 128) ∧
      ((Update r a b c d).ProgramService = [] ∨ (Update r a b c d).ProgramService.length = 8) ∧
      (∀ x ∈ (Update r a b c d).ProgramService, x < 128) := by
    by_cases ht : b >>> 12 = 0
    · have hv := psView_Update r a b c d ht
      have hb := psStep_bounds (psView r) b d p1 p2 s1 s2
      rw [← hv] at hb
      exact hb
    · have hv := psAll_Update_of_ne r a b c d ht
      simp only [psAll, Prod.mk.injEq] at hv
      rw [hv.1, hv.2.1, hv.2.2.2]
      exact ⟨p1, p2, s1, s2⟩
  have hrt : (∀ j, (Update r a b c d).rt1 j < 128) ∧ (∀ j, (Update r a b c d).rt2 j < 128) ∧
      (Update r a b c d).Radiotext.length ≤ 64 ∧
      (∀ x ∈ (Update r a b c d).Radiotext, x < 128 ∧ x ≠ 0x0d) := by
    by_cases ht : b >>> 12 = 2
    · have hv := rtView_Update r a b c d ht
      have hb := rtStep_bounds (rtView r) b c d t1 t2 x1 x2
      rw [← hv] at hb
      exact hb
    · have hv := rtAll_Update_of_ne r a b c d ht
      simp only [rtAll, Prod.mk.injEq] at hv
      rw [hv.1, hv.2.1, hv.2.2.2]
      exact ⟨t1, t2, x1, x2⟩
  exact ⟨hps.1, hps.2.1, hrt.1, hrt.2.1, hps.2.2.1, hps.2.2.2, hrt.2.2.1, hrt.2.2.2, hpt,
    NumAltFreqs_Update r a b c d n1⟩

theorem inBounds_empty : inBounds RDS.empty := by
  refine ⟨?_, ?_, ?_, ?_, Or.inl rfl, ?_, ?_, ?_, ?_, ?_⟩
  · intro j; exact (by decide : (0 : Nat) < 128)
  · intro j; exact (by decide : (0 : Nat) < 128)
  · intro j; exact (by decide : (0 : Nat) < 128)
  · intro j; exact (by decide : (0 : Nat) < 128)
  · intro x hx; exact absurd hx (List.not_mem_nil x)
  · exact Nat.zero_le 64
  · intro x hx; exact absurd hx (List.not_mem_nil x)
  · exact ⟨le_refl _, by decide⟩
  · exact ⟨le_refl _, by decide⟩

theorem inBounds_decodeAll (r : RDS) (gs : List Group) (h : inBounds r) :
    inBounds (decodeAll r gs) := by
  induction gs generalizing r with
  | nil => exact h
  | cons g gs ih => exact ih (decode r g) (inBounds_Update r g.a g.b g.c g.d h)

/-- C28: in every state reachable from the empty `RDS` value by a sequence of
`Update` calls, `ProgramType` is in 0..31, `NumAltFreqs` is in 0..25,
`ProgramService` is empty or exactly 8 bytes long, `Radiotext` is at most 64
bytes long and holds no `0x0D` byte, and every byte of `ProgramService` and of
`Radiotext` is below `0x80`. -/
theorem C28_reachable_states_in_bounds (gs : List Group) :
    (0 ≤ (decodeAll RDS.empty gs).ProgramType ∧ (decodeAll RDS.empty gs).ProgramType ≤ 31) ∧
      (0 ≤ (decodeAll RDS.empty gs).NumAltFreqs ∧ (decodeAll RDS.empty gs).NumAltFreqs ≤ 25) ∧
      ((decodeAll RDS.empty gs).ProgramService = [] ∨
        (decodeAll RDS.empty gs).ProgramService.length = 8) ∧
      (decodeAll RDS.empty gs).Radiotext.length ≤ 64 ∧
      0x0d ∉ (decodeAll RDS.empty gs).Radiotext ∧
      (∀ x ∈ (decodeAll RDS.empty gs).ProgramService, x < 0x80) ∧
      (∀ x ∈ (decodeAll RDS.empty gs).Radiotext, x < 0x80) := by
  obtain ⟨-, -, -, -, s1, s2, x1, x2, hpt, hn⟩ := inBounds_decodeAll RDS.empty gs inBounds_empty
  exact ⟨hpt, hn, s1, x1, fun hin => (x2 _ hin).2 rfl, s2, fun x hx => (x2 x hx).1⟩

end GoFM
